import Mathlib

/-!
# cifsd: share registry, response buffers and IPC bridge

A shallow embedding of the share and access-control layer of cifsd
(`src/export.c`), of its response buffers (`src/buffer_pool.c`) and of
the request/response matcher of its IPC bridge (`src/transport_ipc.c`),
together with theorems about them.

Conventions of the embedding

* A C string is the `List Char` of its characters before the terminating
  NUL; a `char *` that may be NULL is an `Option (List Char)`.
* A pointer into a string is the offset from its start.
* Error numbers are the negative `Int` values the kernel uses.
* A `struct cifsd_share *` is the index of the share object in the heap
  of the state; `none` stands for NULL.
* Memory allocation is taken to succeed.
-/

namespace Cifsd

/-! ## Error numbers -/

def ENOENT : Int := 2
def ENOMEM : Int := 12
def EACCES : Int := 13
def EINVAL : Int := 22

/-! ## String helpers of the kernel library -/

/-- The kernel's `isupper`: the `_U` entries of `_ctype[]`, that is
`A`..`Z` and the Latin-1 capitals `0xC0`..`0xDE` except `0xD7`. -/
def isupper (c : Char) : Bool :=
  (65 ≤ c.toNat && c.toNat ≤ 90) ||
  (192 ≤ c.toNat && c.toNat ≤ 222 && c.toNat != 215)

/-- The kernel's `tolower`: `if (isupper(c)) c -= 'A' - 'a'`. -/
def tolower (c : Char) : Char :=
  if isupper c then Char.ofNat (c.toNat + 32) else c

/-- Value of the byte a string pointer points at: the character, or 0 at
the terminating NUL. -/
def byteAt : List Char → Int
  | [] => 0
  | c :: _ => (c.toNat : Int)

/-- The kernel's `strcmp`, as the sign of the first difference. -/
def strcmp : List Char → List Char → Int
  | [], [] => 0
  | [], _ :: _ => -1
  | _ :: _, [] => 1
  | a :: as, b :: bs =>
    if a = b then strcmp as bs else if a.toNat < b.toNat then -1 else 1

/-- The kernel's `strcasecmp`: both strings are walked in step, each byte
through `tolower`, until the bytes differ or the strings end; the result
is the difference of the last two bytes compared. -/
def strcasecmp : List Char → List Char → Int
  | [], [] => 0
  | [], b :: _ => 0 - ((tolower b).toNat : Int)
  | a :: _, [] => ((tolower a).toNat : Int)
  | a :: as, b :: bs =>
    if tolower a = tolower b then strcasecmp as bs
    else ((tolower a).toNat : Int) - ((tolower b).toNat : Int)

/-- The kernel's `strncasecmp`: at most `len` bytes are compared; the walk
stops at the first NUL of either string or at the first pair of bytes that
differ after `tolower`. -/
def strncasecmp : List Char → List Char → Nat → Int
  | _, _, 0 => 0
  | [], s2, _ + 1 => 0 - byteAt s2
  | a :: _, [], _ + 1 => (a.toNat : Int)
  | a :: as, b :: bs, n + 1 =>
    if a = b then
      (if n = 0 then 0 else strncasecmp as bs n)
    else if tolower a = tolower b then
      (if n = 0 then 0 else strncasecmp as bs n)
    else ((tolower a).toNat : Int) - ((tolower b).toNat : Int)

/-- The call `strncmp(s, lit, n) == 0` for a literal `lit` of exactly `n`
characters: `s` starts with `lit`. -/
def strncmp_eq (s lit : List Char) (n : Nat) : Bool :=
  s.take n == lit

/-! ## Access lists -/

/-- The delimiters of an smb.conf list: the accept set of
`strpbrk(begin, "\t, ")` and the characters skipped by
`strim_conflist_entry`. -/
def isConfDelim (c : Char) : Bool :=
  c == ',' || c == '\t' || c == ' '

/-- The call `strpbrk(s, "\t, ")`: offset of the first delimiter in `s`,
`none` for NULL. -/
def strpbrk : List Char → Option Nat
  | [] => none
  | c :: cs =>
    if isConfDelim c then some 0
    else match strpbrk cs with
      | none => none
      | some k => some (k + 1)

/-- Loop of `strim_conflist_entry`: `while (p < limit && delim(*p)) p++`,
then `return p < limit ? p : NULL`.  The first argument bounds the number
of iterations; `limit - p` of them are enough. -/
def strim_loop (buf : List Char) (limit : Int) : Nat → Nat → Option Nat
  | 0, p => if (p : Int) < limit then some p else none
  | n + 1, p =>
    if (p : Int) < limit && isConfDelim (buf.getD p (Char.ofNat 0)) then
      strim_loop buf limit n (p + 1)
    else if (p : Int) < limit then some p else none

/-- The function `strim_conflist_entry(p, limit)` on the buffer `buf`;
`p` and `limit` are offsets into `buf` (`limit` may be `-1`). -/
def strim_conflist_entry (buf : List Char) (p : Nat) (limit : Int) : Option Nat :=
  strim_loop buf limit (limit - (p : Int)).toNat p

/-- The `while ((end = strpbrk(begin, "\t, ")))` loop of `conflist_search`
followed by the code after it.  `list` is the buffer, `begin` the current
offset.  The result is the return value and the string the buffer holds
when the function returns: on `return 0` inside the loop the NUL written
over `*end` is still there, so the string ends at `end`.  The first
argument bounds the number of iterations (each one advances `begin`). -/
def conflist_loop (list key : List Char) : Nat → Nat → Int × List Char
  | 0, _ => (-ENOENT, list)
  | fuel + 1, begin =>
    match strpbrk (list.drop begin) with
    | some off =>
      if off < 2 then
        conflist_loop list key fuel (begin + 1)
      else
        match strim_conflist_entry list begin ((begin + off : Nat) : Int) with
        | none => (-ENOENT, list)
        | some b =>
          if strcmp ((list.take (begin + off)).drop b) key = 0 then
            (0, list.take (begin + off))
          else
            conflist_loop list key fuel (begin + off + 1)
    | none =>
      match strim_conflist_entry list begin ((list.length : Int) - 1) with
      | none => (-ENOENT, list)
      | some b =>
        if strcmp (list.drop b) key = 0 then (0, list) else (-ENOENT, list)

/-- The function `conflist_search(list, key)`: return value and the
contents of `list` afterwards. -/
def conflist_search (list key : List Char) : Int × List Char :=
  conflist_loop list key (list.length + 1) 0

/-! ## Shares -/

/-- Modelled from the spec: `export.h` is not part of the sources at hand.
The attribute word `config.attr` of a share is one Boolean per attribute
bit; `set_attr_X`, `clear_attr_X` and `get_attr_X` write and read the
field `X`. -/
structure share_attr where
  available : Bool
  browsable : Bool
  guestok : Bool
  guestonly : Bool
  oplocks : Bool
  readonly : Bool
  writeok : Bool
  store_dos : Bool
deriving DecidableEq, Repr

/-- Modelled from the spec: the filter kinds of the missing header, named
as in `parse_veto_file`. -/
inductive filter_type where
  | FILTER_FILE_EXTENSION
  | FILTER_WILDCARD
  | FILTER_NON_TYPE
deriving DecidableEq, Repr

/-- One `struct cifsd_filter`: the filter type, and the pattern and length
handed to `textsearch_prepare`. -/
structure cifsd_filter where
  type : filter_type
  pattern : List Char
  len : Int
deriving DecidableEq, Repr

/-- Modelled from the spec: `struct cifsd_share` of `export.h`, with the
fields that `export.c` reads and writes.  The `config` sub-structure is
flattened; `filter_list` is in list order, head first. -/
structure cifsd_share where
  sharename : List Char
  path : Option (List Char)
  tid : Nat
  tcount : Nat
  num_conn : Int
  writeable : Nat
  attr : share_attr
  max_connections : Nat
  comment : Option (List Char)
  allow_hosts : Option (List Char)
  deny_hosts : Option (List Char)
  valid_users : Option (List Char)
  invalid_users : Option (List Char)
  read_list : Option (List Char)
  write_list : Option (List Char)
  filter_list : List cifsd_filter
deriving DecidableEq, Repr

/-- The function `validate_host(cip, share)`: return value and the share
afterwards (`conflist_search` writes into the list it searches). -/
def validate_host (cip : List Char) (share : cifsd_share) : Int × cifsd_share :=
  match share.allow_hosts, share.deny_hosts with
  | none, none => (0, share)
  | some allow_list, _ =>
    let r := conflist_search allow_list cip
    let share1 := { share with allow_hosts := some r.2 }
    if r.1 = -ENOENT then (-EACCES, share1) else (0, share1)
  | none, some deny_list =>
    let r := conflist_search deny_list cip
    let share1 := { share with deny_hosts := some r.2 }
    if r.1 = 0 then (-EACCES, share1) else (0, share1)

/-- The function `validate_user(sess, share, can_write)`; `user` is
`user_name(sess->user)` and `can_write` the value of `*can_write` on
entry.  The result is the return value, `*can_write` on return and the
share afterwards. -/
def validate_user (user : List Char) (share : cifsd_share) (can_write : Bool) :
    Int × Bool × cifsd_share :=
  match share.path with
  | none => (0, can_write, share)
  | some _ =>
    if share.attr.guestok then (0, can_write, share)
    else
      let ri : Int × Option (List Char) :=
        match share.invalid_users with
        | none => (-ENOENT, none)
        | some ilist => let r := conflist_search ilist user; (r.1, some r.2)
      let share1 := { share with invalid_users := ri.2 }
      if share.invalid_users.isSome && ri.1 = 0 then (-EACCES, can_write, share1)
      else
        let cw0 : Bool := share.writeable = 1
        let rr : Int × Option (List Char) :=
          match share.read_list with
          | none => (-ENOENT, none)
          | some rlist => let r := conflist_search rlist user; (r.1, some r.2)
        let cw1 : Bool := if share.read_list.isSome && rr.1 = 0 then false else cw0
        let rw : Int × Option (List Char) :=
          match share.write_list with
          | none => (-ENOENT, none)
          | some wlist => let r := conflist_search wlist user; (r.1, some r.2)
        let cw2 : Bool := if share.write_list.isSome && rw.1 = 0 then true else cw1
        let share2 := { share1 with read_list := rr.2, write_list := rw.2 }
        match share.valid_users with
        | none => (0, cw2, share2)
        | some vlist =>
          let r := conflist_search vlist user
          (r.1, cw2, { share2 with valid_users := some r.2 })

/-! ## The export state -/

/-- The global state of `export.c` that the share functions touch.

* `heap`: every share object allocated so far; a share pointer is an
  index into it.
* `cifsd_share_list`: the share pointers linked in the kernel list, head
  first (`list_add` inserts at the head).
* `list_corrupt`: set when `list_add` is applied to an entry that is
  already linked, which breaks the kernel list; `cifsd_share_list` stands
  for the kernel list only while this is clear.
* `tid`: the `__u16` tree id counter.
* `cifsd_num_shares`: the share counter. -/
structure export_state where
  heap : List cifsd_share
  cifsd_share_list : List Nat
  list_corrupt : Bool
  tid : Nat
  cifsd_num_shares : Int
deriving DecidableEq, Repr

/-- A share object as `kzalloc` returns it: every field zero or NULL. -/
def zero_share : cifsd_share :=
  { sharename := [], path := none, tid := 0, tcount := 0, num_conn := 0,
    writeable := 0,
    attr := { available := false, browsable := false, guestok := false,
              guestonly := false, oplocks := false, readonly := false,
              writeok := false, store_dos := false },
    max_connections := 0, comment := none, allow_hosts := none,
    deny_hosts := none, valid_users := none, invalid_users := none,
    read_list := none, write_list := none, filter_list := [] }

/-- Read the share object a pointer refers to. -/
def deref (st : export_state) (p : Nat) : cifsd_share :=
  st.heap.getD p zero_share

/-- Write a share object through a pointer. -/
def store (st : export_state) (p : Nat) (s : cifsd_share) : export_state :=
  { st with heap := st.heap.set p s }

/-- The value `get_cifsd_share` returns: a share pointer or `ERR_PTR(rc)`. -/
inductive share_ptr where
  | share (p : Nat)
  | err (rc : Int)
deriving DecidableEq, Repr

/-- The `list_for_each` loop of `get_cifsd_share` over the entries still
to visit.  The result is the returned pointer, `*can_write` on return and
the state afterwards. -/
def get_cifsd_share_loop (st : export_state) (peeraddr user sharename : List Char)
    (can_write : Bool) : List Nat → share_ptr × Bool × export_state
  | [] => (share_ptr.err (-ENOENT), can_write, st)
  | p :: rest =>
    if strcasecmp (deref st p).sharename sharename ≠ 0 then
      get_cifsd_share_loop st peeraddr user sharename can_write rest
    else
      let h := validate_host peeraddr (deref st p)
      if h.1 ≠ 0 then (share_ptr.err h.1, can_write, store st p h.2)
      else
        let u := validate_user user h.2 can_write
        if u.1 ≠ 0 then (share_ptr.err u.1, u.2.1, store st p u.2.2)
        else (share_ptr.share p, u.2.1, store st p u.2.2)

/-- The function `get_cifsd_share(conn, sess, sharename, can_write)` with
`peeraddr = conn->peeraddr` and `user = user_name(sess->user)`. -/
def get_cifsd_share (st : export_state) (peeraddr user sharename : List Char)
    (can_write : Bool) : share_ptr × Bool × export_state :=
  get_cifsd_share_loop st peeraddr user sharename can_write st.cifsd_share_list

/-! ## Configuration values -/

/-- Modelled from the spec: the option values of the missing `export.h`,
in the order the spec lists them. -/
def DISABLE : Nat := 0
def ENABLE : Nat := 1
def AUTO : Nat := 2
def MANDATORY : Nat := 3

/-- The size of a page, the bound `kstrndup` applies to a config blob. -/
def PAGE_SIZE : Nat := 4096

/-- The function `cifsd_get_config_val` on the string `match_strdup`
returns; `val` is `*val` on entry.  The result is the return value and
`*val` on return. -/
def cifsd_get_config_val (str : List Char) (val : Nat) : Int × Nat :=
  if strcasecmp str "yes".toList = 0 || strcasecmp str "true".toList = 0 ||
     strcasecmp str "enable".toList = 0 || strcasecmp str "Bad User".toList = 0 ||
     strcmp str "1".toList = 0 then (0, ENABLE)
  else if strcasecmp str "no".toList = 0 || strcasecmp str "false".toList = 0 ||
     strcasecmp str "disable".toList = 0 || strcasecmp str "Never".toList = 0 ||
     strcmp str "0".toList = 0 then (0, DISABLE)
  else if strcasecmp str "auto".toList = 0 then (0, AUTO)
  else if strcasecmp str "mandatory".toList = 0 then (0, MANDATORY)
  else (-EINVAL, val)

/-- The kernel's `kstrtouint(s, 10, &val)`: an optional `+`, at least one
decimal digit, an optional final newline and nothing else, the value
fitting an `unsigned int`; `none` stands for every error return. -/
def kstrtouint (s : List Char) : Option Nat :=
  let s1 := if s.head? = some '+' then s.tail else s
  let digs := s1.takeWhile Char.isDigit
  let rest := s1.dropWhile Char.isDigit
  let rest1 := if rest.head? = some '\n' then rest.tail else rest
  let v := digs.foldl (fun a c => a * 10 + (c.toNat - 48)) 0
  if digs.isEmpty then none
  else if !rest1.isEmpty then none
  else if v < 2 ^ 32 then some v else none

/-- Every token `strsep` cuts from a string, in order: the pieces between
the occurrences of `sep`, empty ones included. -/
def strsep_all (sep : Char) : List Char → List (List Char)
  | [] => [[]]
  | c :: cs =>
    if c = sep then [] :: strsep_all sep cs
    else match strsep_all sep cs with
      | [] => [[c]]
      | t :: ts => (c :: t) :: ts

/-- The kernel's `match_one` for a pattern `lit%s`: the string starts with
`lit` and what follows is not empty; the result is that rest. -/
def match_one (s lit : List Char) : Option (List Char) :=
  if s.take lit.length = lit ∧ s.drop lit.length ≠ [] then
    some (s.drop lit.length)
  else none

/-- The kernel's `match_token` over a table whose patterns all are of the
form `lit%s` (the table holds `lit`), closed by the entry with a NULL
pattern, which matches everything.  The result is the token and the
argument `match_strdup(args)` returns. -/
def match_token {τ : Type} (s : List Char) (dflt : τ) :
    List (τ × List Char) → τ × List Char
  | [] => (dflt, [])
  | (t, lit) :: rest =>
    match match_one s lit with
    | some arg => (t, arg)
    | none => match_token s dflt rest

inductive global_token where
  | Opt_guest | Opt_servern | Opt_domain | Opt_netbiosname | Opt_signing
  | Opt_maptoguest | Opt_server_min_protocol | Opt_server_max_protocol
  | Opt_global_err
deriving DecidableEq, Repr

def cifsd_global_tokens : List (global_token × List Char) :=
  [ (.Opt_guest, "guest account = ".toList),
    (.Opt_servern, "server string = ".toList),
    (.Opt_domain, "workgroup = ".toList),
    (.Opt_netbiosname, "netbios name = ".toList),
    (.Opt_signing, "server signing = ".toList),
    (.Opt_maptoguest, "map to guest = ".toList),
    (.Opt_server_min_protocol, "server min protocol = ".toList),
    (.Opt_server_max_protocol, "server max protocol = ".toList) ]

inductive share_token where
  | Opt_sharename | Opt_available | Opt_browsable | Opt_writeable
  | Opt_guestok | Opt_guestonly | Opt_oplocks | Opt_maxcon | Opt_comment
  | Opt_allowhost | Opt_denyhost | Opt_validusers | Opt_invalidusers
  | Opt_path | Opt_readlist | Opt_readonly | Opt_writeok | Opt_writelist
  | Opt_hostallow | Opt_hostdeny | Opt_store_dos_attr | Opt_veto_files
  | Opt_share_err
deriving DecidableEq, Repr

def cifsd_share_tokens : List (share_token × List Char) :=
  [ (.Opt_sharename, "sharename = ".toList),
    (.Opt_available, "available = ".toList),
    (.Opt_browsable, "browsable = ".toList),
    (.Opt_writeable, "writeable = ".toList),
    (.Opt_guestok, "guest ok = ".toList),
    (.Opt_guestonly, "guest only = ".toList),
    (.Opt_oplocks, "oplocks = ".toList),
    (.Opt_maxcon, "max connections = ".toList),
    (.Opt_comment, "comment = ".toList),
    (.Opt_allowhost, "allow hosts = ".toList),
    (.Opt_denyhost, "deny hosts = ".toList),
    (.Opt_validusers, "valid users = ".toList),
    (.Opt_invalidusers, "invalid users = ".toList),
    (.Opt_path, "path = ".toList),
    (.Opt_readlist, "read list = ".toList),
    (.Opt_readonly, "read only = ".toList),
    (.Opt_writeok, "write ok = ".toList),
    (.Opt_writelist, "write list = ".toList),
    (.Opt_hostallow, "hosts allow = ".toList),
    (.Opt_hostdeny, "hosts deny = ".toList),
    (.Opt_store_dos_attr, "store dos attributes = ".toList),
    (.Opt_veto_files, "veto files = ".toList) ]

/-- What the functions of `export.c` ask of the rest of the kernel while
a config blob is parsed.

* `kern_path_ok path`: `kern_path` and `vfs_getattr` both succeed on
  `path`.
* `textsearch_ok pattern len`: `textsearch_prepare("kmp", pattern, len)`
  does not return an error pointer, asked for a pattern of length other
  than zero.
* `um_guest_ok name`: `um_add_new_user` returns 0 for the guest account
  `name` and `um_user_search` then finds it. -/
structure kernel_env where
  kern_path_ok : List Char → Bool
  textsearch_ok : List Char → Int → Bool
  um_guest_ok : List Char → Bool

/-- The `while` loop of `cifsd_parse_global_options` over the entries
still to read; the result is the return value.  The global parameters and
the user table it writes are not part of `export_state`; the value written
through `val` does not enter the return value. -/
def global_options_loop (env : kernel_env) : List (List Char) → Int
  | [] => 0
  | data :: rest =>
    if data.isEmpty then global_options_loop env rest
    else
      match match_token data global_token.Opt_global_err cifsd_global_tokens with
      | (.Opt_guest, arg) =>
        if env.um_guest_ok arg then global_options_loop env rest else 1
      | (.Opt_signing, arg) =>
        if (cifsd_get_config_val arg 0).1 < 0 then 1 else global_options_loop env rest
      | (.Opt_maptoguest, arg) =>
        if (cifsd_get_config_val arg 0).1 < 0 then 1 else global_options_loop env rest
      | _ => global_options_loop env rest

/-- The function `cifsd_parse_global_options(configdata)`; `configdata`
is given as the entries `strsep` cuts from it, `none` for NULL. -/
def cifsd_parse_global_options (env : kernel_env) : Option (List (List Char)) → Int
  | none => 1
  | some entries => global_options_loop env entries

/-! ## Veto files -/

/-- The kernel's `textsearch_prepare("kmp", pattern, len, ...)` does not
return an error pointer.  It returns `ERR_PTR(-EINVAL)` for a pattern of
length zero; for every other length the answer is the kernel's. -/
def textsearch_prepare_ok (env : kernel_env) (pattern : List Char) (len : Int) : Bool :=
  len != 0 && env.textsearch_ok pattern len

/-- The filter `parse_veto_file(string)` fills in before it calls
`textsearch_prepare`: the type, the pattern and the `int` passed as
pattern length. -/
def veto_filter (string : List Char) : cifsd_filter :=
  match string with
  | '*' :: rest =>
    if rest.head? = some '.' then
      { type := .FILTER_FILE_EXTENSION, pattern := rest, len := (rest.length : Int) }
    else
      { type := .FILTER_WILDCARD, pattern := rest, len := (rest.length : Int) - 1 }
  | _ =>
    { type := .FILTER_NON_TYPE, pattern := string, len := (string.length : Int) }

/-- The function `parse_veto_file(string)`: the filter it builds, `none`
when `textsearch_prepare` fails. -/
def parse_veto_file (env : kernel_env) (string : List Char) : Option cifsd_filter :=
  if textsearch_prepare_ok env (veto_filter string).pattern (veto_filter string).len then
    some (veto_filter string)
  else none

/-- The `do ... while` loop of `add_filter_share` over the tokens `strsep`
still has to return.  `flist` is the filter list of the share, `none` when
the share pointer is NULL; the outer `none` of the result is the NULL
pointer dereference of `list_add` on `&share->config.filter_list`. -/
def add_filter_loop (env : kernel_env) :
    List (List Char) → Option (List cifsd_filter) → Option (Option (List cifsd_filter))
  | [], flist => some flist
  | str :: rest, flist =>
    match parse_veto_file env str with
    | none => add_filter_loop env rest flist
    | some cf =>
      match flist with
      | none => none
      | some fl => add_filter_loop env rest (some (cf :: fl))

/-- The function `add_filter_share(share, veto_strings)` on the filter
list of the share: the first `strsep` token is dropped, every later one
goes through `parse_veto_file`. -/
def add_filter_share (env : kernel_env) (flist : Option (List cifsd_filter))
    (veto_strings : List Char) : Option (Option (List cifsd_filter)) :=
  add_filter_loop env (strsep_all '/' veto_strings).tail flist

/-- The function `varify_veto_file(veto_strings)`. -/
def varify_veto_file (veto_strings : List Char) : Int :=
  match veto_strings with
  | '/' :: rest => if '/' ∈ rest then 0 else -EINVAL
  | _ => -EINVAL

/-! ## The share list -/

/-- The function `init_share(share)`. -/
def init_share (s : cifsd_share) : cifsd_share :=
  { s with
    attr := { s.attr with available := true, browsable := true, guestok := false,
                          guestonly := false, oplocks := true, readonly := true,
                          writeok := true },
    max_connections := 0,
    filter_list := [] }

/-- The function `__add_share(share, sharename, pathname)`; the result is
the return value and the state afterwards. -/
def __add_share (env : kernel_env) (st : export_state) (share : Nat)
    (sharename : List Char) (pathname : Option (List Char)) : Bool × export_state :=
  let path_good : Bool :=
    match pathname with
    | none => true
    | some path => env.kern_path_ok path
  if !path_good then (false, st)
  else
    let s := { deref st share with
               path := pathname, tcount := 0, tid := st.tid,
               sharename := sharename, num_conn := 0 }
    (true,
     { heap := st.heap.set share s,
       cifsd_share_list := share :: st.cifsd_share_list,
       list_corrupt := st.list_corrupt || decide (share ∈ st.cifsd_share_list),
       tid := (st.tid + 1) % 65536,
       cifsd_num_shares := st.cifsd_num_shares + 1 })

/-- The function `add_share(sharename, pathname)`; it returns 0. -/
def add_share (env : kernel_env) (st : export_state) (sharename : List Char)
    (pathname : Option (List Char)) : Int × export_state :=
  let share := st.heap.length
  let st1 := { st with heap := st.heap ++ [init_share zero_share] }
  (0, (__add_share env st1 share sharename pathname).2)

/-- The function `cleanup_bad_share(badshare)`: every list entry equal to
`badshare` is unlinked and counted off. -/
def cleanup_bad_share (st : export_state) (badshare : Nat) : export_state :=
  { st with
    cifsd_share_list := st.cifsd_share_list.filter (fun p => p != badshare),
    cifsd_num_shares :=
      st.cifsd_num_shares - ((st.cifsd_share_list.filter (fun p => p == badshare)).length : Int) }

/-- The test of the `list_for_each` loop of `check_share`. -/
def same_share_name (name share_name : List Char) : Bool :=
  name.length = share_name.length && strncasecmp name share_name name.length = 0

/-- The function `check_share(share_name, alloc_share)`; the result is the
share pointer, `*alloc_share` on return and the state afterwards. -/
def check_share (st : export_state) (share_name : List Char) (alloc_share : Nat) :
    Nat × Nat × export_state :=
  match st.cifsd_share_list.find? (fun p => same_share_name (deref st p).sharename share_name) with
  | some p => (p, alloc_share, st)
  | none => (st.heap.length, 1, { st with heap := st.heap ++ [init_share zero_share] })

/-! ## Parsing a config blob -/

/-- The local variables of `cifsd_parse_share_options` together with the
global state: `share` (`none` for NULL), `new_share` and `val` (not
initialised in the source, never read before it is written). -/
structure parse_ctx where
  st : export_state
  share : Option Nat
  new_share : Nat
  val : Nat
deriving DecidableEq, Repr

/-- How the `switch` of `cifsd_parse_share_options` is left. -/
inductive step_result where
  /-- Left by `break`: the loop goes on with the next entry. -/
  | next (c : parse_ctx)
  /-- Left by `goto out_nomem` or `goto config_err`. -/
  | config_err (c : parse_ctx)
  /-- Left by `return rc`. -/
  | ret (rc : Int) (c : parse_ctx)
  /-- A NULL pointer is dereferenced. -/
  | oops (c : parse_ctx)
  /-- The entry is `sharename = global...`: the rest of the blob goes to
  `cifsd_parse_global_options`. -/
  | global (c : parse_ctx)
deriving DecidableEq, Repr

/-- The cases that read a value with `cifsd_get_config_val(args, &val)`
and then set or clear an attribute bit:
`if (!share || cifsd_get_config_val(args, &val)) goto config_err;`
followed by the update `upd val` of `share->config.attr`. -/
def attr_option (c : parse_ctx) (arg : List Char)
    (upd : Nat → share_attr → share_attr) : step_result :=
  match c.share with
  | none => .config_err c
  | some p =>
    let r := cifsd_get_config_val arg c.val
    if r.1 ≠ 0 then .config_err { c with val := r.2 }
    else
      let s := deref c.st p
      .next { c with val := r.2, st := store c.st p { s with attr := upd r.2 s.attr } }

/-- The cases that store a string with `cifsd_get_config_str`:
`if (!share || cifsd_get_config_str(args, &field)) goto out_nomem;`
where `upd` writes the field. -/
def str_option (c : parse_ctx) (arg : List Char)
    (upd : List Char → cifsd_share → cifsd_share) : step_result :=
  match c.share with
  | none => .config_err c
  | some p => .next { c with st := store c.st p (upd arg (deref c.st p)) }

/-- The body of the `switch (token)` of `cifsd_parse_share_options` for
one non-empty entry `data`. -/
def share_option (env : kernel_env) (c : parse_ctx) (data : List Char) : step_result :=
  match match_token data share_token.Opt_share_err cifsd_share_tokens with
  | (.Opt_sharename, string) =>
    if strncmp_eq string "global".toList 6 then .global c
    else
      let r := check_share c.st string c.new_share
      .next { c with
              st := store r.2.2 r.1 { deref r.2.2 r.1 with sharename := string },
              share := some r.1,
              new_share := r.2.1 }
  | (.Opt_available, arg) =>
    attr_option c arg (fun v a => { a with available := decide (v ≠ 0) })
  | (.Opt_browsable, arg) =>
    attr_option c arg (fun v a => { a with browsable := decide (v ≠ 0) })
  | (.Opt_writeable, arg) =>
    match c.share with
    | none => .config_err c
    | some p =>
      let s := deref c.st p
      let r := cifsd_get_config_val arg s.writeable
      if r.1 ≠ 0 then .config_err { c with st := store c.st p { s with writeable := r.2 } }
      else .next { c with st := store c.st p { s with writeable := r.2 } }
  | (.Opt_guestok, arg) =>
    attr_option c arg (fun v a => { a with guestok := decide (v = 1) })
  | (.Opt_guestonly, arg) =>
    attr_option c arg (fun v a => { a with guestonly := decide (v = 1) })
  | (.Opt_oplocks, arg) =>
    attr_option c arg (fun v a => { a with oplocks := decide (v ≠ 0) })
  | (.Opt_maxcon, string) =>
    match c.share, kstrtouint string with
    | some p, some v =>
      .next { c with val := v,
                     st := store c.st p { deref c.st p with max_connections := v } }
    | _, _ => .config_err c
  | (.Opt_comment, arg) =>
    str_option c arg (fun v s => { s with comment := some v })
  | (.Opt_allowhost, arg) =>
    str_option c arg (fun v s => { s with allow_hosts := some v })
  | (.Opt_hostallow, arg) =>
    str_option c arg (fun v s => { s with allow_hosts := some v })
  | (.Opt_denyhost, arg) =>
    str_option c arg (fun v s => { s with deny_hosts := some v })
  | (.Opt_hostdeny, arg) =>
    str_option c arg (fun v s => { s with deny_hosts := some v })
  | (.Opt_validusers, arg) =>
    str_option c arg (fun v s => { s with valid_users := some v })
  | (.Opt_invalidusers, arg) =>
    str_option c arg (fun v s => { s with invalid_users := some v })
  | (.Opt_path, arg) =>
    match c.share with
    | none => .config_err c
    | some p =>
      let st1 := store c.st p { deref c.st p with path := some arg }
      if c.new_share ≠ 0 then
        .next { c with st := (__add_share env st1 p (deref st1 p).sharename (deref st1 p).path).2 }
      else .next { c with st := st1 }
  | (.Opt_readlist, arg) =>
    str_option c arg (fun v s => { s with read_list := some v })
  | (.Opt_readonly, arg) =>
    attr_option c arg (fun v a => { a with readonly := decide (v = 1) })
  | (.Opt_writeok, arg) =>
    attr_option c arg (fun v a => { a with writeok := decide (v = 1) })
  | (.Opt_writelist, arg) =>
    str_option c arg (fun v s => { s with write_list := some v })
  | (.Opt_store_dos_attr, arg) =>
    attr_option c arg (fun v a => { a with store_dos := decide (v = 1) })
  | (.Opt_veto_files, string) =>
    if varify_veto_file string < 0 then .ret (-EINVAL) c
    else
      match add_filter_share env (c.share.map (fun p => (deref c.st p).filter_list)) string,
            c.share with
      | none, _ => .oops c
      | some (some fl), some p =>
        .next { c with st := store c.st p { deref c.st p with filter_list := fl } }
      | some _, _ => .next c
  | (.Opt_share_err, _) => .next c

/-- The code at the labels `out_nomem` and `config_err`:
`if (new_share && share) cleanup_bad_share(share);`. -/
def config_err_exit (c : parse_ctx) : export_state :=
  match c.share with
  | some p => if c.new_share ≠ 0 then cleanup_bad_share c.st p else c.st
  | none => c.st

/-- The `while ((data = strsep(&options, separator)) != NULL)` loop of
`cifsd_parse_share_options` over the entries still to read, followed by
the code after it.  The result is the return value, `none` when a NULL
pointer was dereferenced, and the state afterwards. -/
def share_options_loop (env : kernel_env) :
    List (List Char) → parse_ctx → Option Int × export_state
  | [], c => (some 0, c.st)
  | data :: rest, c =>
    if data.isEmpty then share_options_loop env rest c
    else
      match share_option env c data with
      | .next c1 => share_options_loop env rest c1
      | .config_err c1 => (some 1, config_err_exit c1)
      | .ret rc c1 => (some rc, c1.st)
      | .oops c1 => (none, c1.st)
      | .global c1 =>
        if cifsd_parse_global_options env (if rest.isEmpty then none else some rest) ≠ 0 then
          (some 1, config_err_exit c1)
        else (some 0, c1.st)

/-- The function `cifsd_parse_share_options(configdata)`. -/
def cifsd_parse_share_options (env : kernel_env) (st : export_state)
    (configdata : Option (List Char)) : Option Int × export_state :=
  match configdata with
  | none => (some 1, st)
  | some data =>
    share_options_loop env (strsep_all '<' (data.take PAGE_SIZE))
      { st := st, share := none, new_share := 0, val := 0 }

/-- The function `cifsd_config_store(buf, len)`: return value (`none`
when the parser dereferenced a NULL pointer) and the state afterwards. -/
def cifsd_config_store (env : kernel_env) (st : export_state)
    (buf : Option (List Char)) (len : Nat) : Option Int × export_state :=
  let r := cifsd_parse_share_options env st buf
  match r.1 with
  | none => (none, r.2)
  | some rc => if rc ≠ 0 then (some (-EINVAL), r.2) else (some (len : Int), r.2)

/-- Modelled from the spec: the name `STR_IPC` of the missing header. -/
def STR_IPC : List Char := "IPC$".toList

/-- The function `cifsd_add_IPC_share()`. -/
def cifsd_add_IPC_share (env : kernel_env) (st : export_state) : Int × export_state :=
  add_share env st STR_IPC none

/-- The function `cifsd_export_init()`, the global parameters left out. -/
def cifsd_export_init (env : kernel_env) (st : export_state) : Int × export_state :=
  let r := cifsd_add_IPC_share env st
  if r.1 ≠ 0 then r else (0, r.2)

/-- The state before `cifsd_export_init`: no share allocated, the list
empty, `tid = 1`, no share counted. -/
def initial_state : export_state :=
  { heap := [], cifsd_share_list := [], list_corrupt := false, tid := 1,
    cifsd_num_shares := 0 }

/-- A run of `cifsd_config_store` calls, one after the other, each with
its own blob, length and kernel answers; the result is the state after
the last one. -/
def config_store_seq (st : export_state) :
    List (kernel_env × Option (List Char) × Nat) → export_state
  | [] => st
  | (env, buf, len) :: rest => config_store_seq (cifsd_config_store env st buf len).2 rest

/-! ## Definitions used to state the theorems -/

/-- Spec side: the pieces of an access list between its commas, spaces
and tabs, empty pieces included. -/
def split_at_delims : List Char → List (List Char)
  | [] => [[]]
  | c :: cs =>
    if isConfDelim c then [] :: split_at_delims cs
    else match split_at_delims cs with
      | [] => [[c]]
      | t :: ts => (c :: t) :: ts

/-- Spec side: the entries of an access list, "comma/space/tab-delimited
tokens", the empty ones discarded. -/
def conflist_tokens (list : List Char) : List (List Char) :=
  (split_at_delims list).filter (fun t => !t.isEmpty)

/-- The list is set and `conflist_search` finds `key` in it. -/
def conflist_finds (list : Option (List Char)) (key : List Char) : Bool :=
  match list with
  | none => false
  | some l => (conflist_search l key).1 = 0

/-- Lower case of an ASCII letter, every other character unchanged. -/
def ascii_lower (c : Char) : Char :=
  if 65 ≤ c.toNat ∧ c.toNat ≤ 90 then Char.ofNat (c.toNat + 32) else c

/-- A kernel that finds every path, compiles every pattern and accepts
every guest account. -/
def env_ok : kernel_env :=
  { kern_path_ok := fun _ => true, textsearch_ok := fun _ _ => true,
    um_guest_ok := fun _ => true }

/-- The state `cifsd_export_init` leaves when run on the initial state. -/
def booted_state : export_state :=
  (cifsd_export_init env_ok initial_state).2

/-- The state after the share `docs` with `valid users = alice,bob` has
been configured on the booted server. -/
def docs_valid_state : export_state :=
  (cifsd_config_store env_ok booted_state
    (some "sharename = docs<path = /srv<valid users = alice,bob".toList) 52).2

/-- The state after the share `docs` with `invalid users = alice,bob` has
been configured on the booted server. -/
def docs_invalid_state : export_state :=
  (cifsd_config_store env_ok booted_state
    (some "sharename = docs<path = /srv<invalid users = alice,bob".toList) 54).2

/-- The state after the share `docs` with `valid users = alice` has been
configured on the booted server. -/
def docs_alice_state : export_state :=
  (cifsd_config_store env_ok booted_state
    (some "sharename = docs<path = /srv<valid users = alice".toList) 48).2

/-- A share with a path and `guest ok` set whose user lists would turn
the user `mallory` away. -/
def guest_share : cifsd_share :=
  { zero_share with
    path := some "/srv".toList,
    attr := { zero_share.attr with guestok := true },
    invalid_users := some "mallory".toList,
    valid_users := some "alice".toList,
    read_list := some "mallory".toList }

/-- The entry is a `sharename = ` entry whose value `check_share` takes
for the share name `name`. -/
def entry_names_share (name data : List Char) : Bool :=
  match match_token data share_token.Opt_share_err cifsd_share_tokens with
  | (.Opt_sharename, v) => same_share_name name v
  | _ => false

/-- Some entry of the blob, as `cifsd_parse_share_options` cuts it, is a
`sharename = ` entry naming the share `name`. -/
def blob_names_share (name : List Char) (buf : Option (List Char)) : Bool :=
  match buf with
  | none => false
  | some data => (strsep_all '<' (data.take PAGE_SIZE)).any (entry_names_share name)

/-- The context a step of the option switch leaves behind. -/
def step_result.ctx : step_result → parse_ctx
  | .next c => c
  | .config_err c => c
  | .ret _ c => c
  | .oops c => c
  | .global c => c

/-- The IPC$ share object as `cifsd_add_IPC_share` sets it up on the
initial state. -/
def ipc_share : cifsd_share :=
  { init_share zero_share with sharename := STR_IPC, path := none, tid := 1 }

/-- The first share object of the heap is the untouched IPC$ share and
its pointer is linked in the share list. -/
def ipc_intact (st : export_state) : Prop :=
  (∃ tl, st.heap = ipc_share :: tl) ∧ 0 ∈ st.cifsd_share_list

/-- The share list holds a share named `IPC$` that has no path and has
tid 1. -/
def has_ipc_share (st : export_state) : Prop :=
  ∃ p ∈ st.cifsd_share_list,
    (deref st p).sharename = STR_IPC ∧ (deref st p).path = none ∧ (deref st p).tid = 1

instance (st : export_state) : Decidable (has_ipc_share st) := by
  unfold has_ipc_share
  infer_instance

/-- A run of three config writes that leave IPC$ alone: one that fails on
a bad value after it created and linked a share, one that succeeds, and
one that reconfigures the share just made. -/
def quiet_calls : List (kernel_env × Option (List Char) × Nat) :=
  [ (env_ok, some "sharename = tmp<path = /tmp<available = perhaps".toList, 47),
    (env_ok, some "sharename = docs<path = /srv<writeable = yes".toList, 44),
    (env_ok, some "sharename = DOCS<read list = alice".toList, 34) ]

/-- The invariant of the parse loop: the IPC$ share is intact and the
local `share` does not point at it. -/
def ctx_intact (c : parse_ctx) : Prop :=
  ipc_intact c.st ∧ c.share ≠ some 0

/-! ## Named pipes -/

/-- The members of `enum cifsd_pipe_type` and `INVALID_PIPE` of `fh.h`. -/
def SRVSVC : Nat := 0
def WINREG : Nat := 1
def LANMAN : Nat := 2
def MAX_PIPE : Nat := 3
def INVALID_PIPE : Nat := 0xFFFFFFFF

/-- The table `cifsd_pipes[]`. -/
def cifsd_pipes : List (List Char × Nat) :=
  [ ("\\srvsvc".toList, SRVSVC),
    ("srvsvc".toList, SRVSVC),
    ("\\wkssvc".toList, SRVSVC),
    ("wkssvc".toList, SRVSVC),
    ("\\winreg".toList, WINREG),
    ("winreg".toList, WINREG) ]

/-- The `for` loop of `get_pipe_type` over the table entries still to
compare; `INVALID_PIPE` is the initial value of `pipetype`. -/
def get_pipe_type_loop (pipename : List Char) : List (List Char × Nat) → Nat
  | [] => INVALID_PIPE
  | (name, pipetype) :: rest =>
    if strcmp name pipename = 0 then pipetype else get_pipe_type_loop pipename rest

/-- The function `get_pipe_type(pipename)`. -/
def get_pipe_type (pipename : List Char) : Nat :=
  get_pipe_type_loop pipename cifsd_pipes

/-! ## Definitions used to state the theorems on the parser -/

/-- The veto string `/g1/g2/.../gn/` made of the globs `g1 .. gn`. -/
def veto_of_globs : List (List Char) → List Char
  | [] => ['/']
  | g :: gs => '/' :: (g ++ veto_of_globs gs)

/-- The state after the share `foo` is created with a path and then a
`veto files` value that does not start with a slash is read. -/
def veto_fail_result : Option Int × export_state :=
  cifsd_config_store env_ok booted_state
    (some "sharename = foo<path = /a<veto files = bad".toList) 42

/-- The state after the share `foo` is created with a path and then an
`available` value that is no option value is read. -/
def available_fail_result : Option Int × export_state :=
  cifsd_config_store env_ok booted_state
    (some "sharename = foo<path = /a<available = bad".toList) 41

/-- The entry is a `sharename = ` entry whose value starts with `global`:
the entry at which `cifsd_parse_share_options` hands the rest of the blob
to `cifsd_parse_global_options`. -/
def is_global_entry (data : List Char) : Bool :=
  match match_token data share_token.Opt_share_err cifsd_share_tokens with
  | (.Opt_sharename, v) => strncmp_eq v "global".toList 6
  | _ => false

/-- A blob of exactly `PAGE_SIZE` characters: the share `foo`, a long
entry that is no share option, and the path that links the share as its
last entry. -/
def page_blob : List Char :=
  "sharename = foo<".toList ++ List.replicate 4070 'x' ++ "<path = /a".toList

/-- The blob `page_blob` with the entry `zz`, which is no share option,
inserted after its first entry. -/
def page_blob_plus : List Char :=
  "sharename = foo<zz<".toList ++ List.replicate 4070 'x' ++ "<path = /a".toList

/-- Spec side: two strings are equal "ignoring case": they are the same
once every ASCII capital is replaced by its small letter. -/
def eq_ignoring_case (a b : List Char) : Bool :=
  a.map ascii_lower == b.map ascii_lower

/-- Spec side: the value an option string stands for: yes, true, enable
and `Bad User` (in any case) and the exact string `1` give `ENABLE`; no,
false, disable and `Never` (in any case) and the exact string `0` give
`DISABLE`; auto gives `AUTO`; mandatory gives `MANDATORY`; every other
string has no value. -/
def config_val_spec (str : List Char) : Option Nat :=
  if eq_ignoring_case str "yes".toList || eq_ignoring_case str "true".toList ||
     eq_ignoring_case str "enable".toList || eq_ignoring_case str "Bad User".toList ||
     str == "1".toList then some ENABLE
  else if eq_ignoring_case str "no".toList || eq_ignoring_case str "false".toList ||
     eq_ignoring_case str "disable".toList || eq_ignoring_case str "Never".toList ||
     str == "0".toList then some DISABLE
  else if eq_ignoring_case str "auto".toList then some AUTO
  else if eq_ignoring_case str "mandatory".toList then some MANDATORY
  else none

/-! ## Response buffers (`buffer_pool.c`) -/

/-- Kernel memory that holds byte buffers.  A pointer is the index of its
buffer; a buffer that has been freed is `none`. -/
structure buffer_mem where
  bufs : List (Option (List Nat))
deriving DecidableEq, Repr

/-- What the kernel allocators answer during one `__alloc` call:
`kmalloc` returns a buffer, `__vmalloc` returns a buffer. -/
structure alloc_env where
  kmalloc_ok : Bool
  vmalloc_ok : Bool
deriving DecidableEq, Repr

/-- A fresh buffer of `size` zero bytes is added to the memory. -/
def new_zeroed (m : buffer_mem) (size : Nat) : Option Nat × buffer_mem :=
  (some m.bufs.length, { bufs := m.bufs ++ [some (List.replicate size 0)] })

/-- The function `__alloc(size, flags)` for flags that include
`__GFP_ZERO`, as both callers pass them: `kmalloc` first, and `__vmalloc`
only for a request above a page that `kmalloc` refused. -/
def __alloc (env : alloc_env) (m : buffer_mem) (size : Nat) : Option Nat × buffer_mem :=
  if env.kmalloc_ok then new_zeroed m size
  else if size ≤ PAGE_SIZE then (none, m)
  else if env.vmalloc_ok then new_zeroed m size
  else (none, m)

/-- The function `cifsd_alloc_response(size)`. -/
def cifsd_alloc_response (env : alloc_env) (m : buffer_mem) (size : Nat) :
    Option Nat × buffer_mem :=
  __alloc env m size

/-- The bytes of the buffer a pointer refers to, none for a freed or
unknown buffer. -/
def buf_bytes (m : buffer_mem) (p : Nat) : List Nat :=
  (m.bufs.getD p none).getD []

/-- The call `memcpy(dst, src, n)` between two buffers of the memory. -/
def memcpy (m : buffer_mem) (dst src n : Nat) : buffer_mem :=
  { bufs := m.bufs.set dst (some ((buf_bytes m src).take n ++ (buf_bytes m dst).drop n)) }

/-- The function `__free(addr)`. -/
def __free (m : buffer_mem) (addr : Nat) : buffer_mem :=
  { bufs := m.bufs.set addr none }

/-- The function `cifsd_realloc_response(ptr, old_sz, new_sz)`: the
pointer it returns and the memory afterwards. -/
def cifsd_realloc_response (env : alloc_env) (m : buffer_mem) (ptr old_sz new_sz : Nat) :
    Nat × buffer_mem :=
  let sz := min old_sz new_sz
  match cifsd_alloc_response env m new_sz with
  | (none, _) => (ptr, m)
  | (some nptr, m1) => (nptr, __free (memcpy m1 nptr ptr sz) ptr)

/-- A memory with one live buffer of six bytes. -/
def one_buffer : buffer_mem :=
  { bufs := [some [1, 2, 3, 4, 5, 6]] }

/-! ## The IPC bridge (`transport_ipc.c`) -/

/-- Modelled from the spec: the event numbers of the missing netlink
header, in the order of `cifsd_nl_policy[]`; the response to a request
has the type of the request plus one. -/
def CIFSD_EVENT_HEARTBEAT_REQUEST : Nat := 1
def CIFSD_EVENT_HEARTBEAT_RESPONSE : Nat := 2
def CIFSD_EVENT_LOGIN_REQUEST : Nat := 5
def CIFSD_EVENT_LOGIN_RESPONSE : Nat := 6
def CIFSD_EVENT_TREE_CONNECT_REQUEST : Nat := 9
def CIFSD_EVENT_TREE_CONNECT_RESPONSE : Nat := 10

/-- One `struct ipc_msg_table_entry`: the handle, the request type, the
response slot (`none` for NULL, else the bytes of the buffer it points
to) and the number of `wake_up_interruptible` calls made on `wait`. -/
structure ipc_msg_table_entry where
  handle : Nat
  type : Nat
  response : Option (List Nat)
  wake_ups : Nat
deriving DecidableEq, Repr

/-- The macro `CIFSD_IPC_MSG_HANDLE(m)`: the `unsigned int` in the first
four bytes of the payload (little endian). -/
def CIFSD_IPC_MSG_HANDLE (payload : List Nat) : Nat :=
  payload.getD 0 0 % 256 + 256 * (payload.getD 1 0 % 256) +
  65536 * (payload.getD 2 0 % 256) + 16777216 * (payload.getD 3 0 % 256)

/-- What `handle_response` returns and leaves behind: the return value,
whether the type mismatch message was logged, and the table. -/
structure response_result where
  ret : Int
  mismatch_logged : Bool
  table : List ipc_msg_table_entry
deriving DecidableEq, Repr

/-- The `hash_for_each_possible` loop of `handle_response` over the
entries still to visit.  The table is the list of its entries, the one
added last first; the entries of one handle all hang in one bucket, in
that order.  `alloc_ok` tells whether `cifsd_alloc(sz)` returns a
buffer. -/
def handle_response_loop (alloc_ok : Bool) (type : Nat) (payload : List Nat) (sz : Nat) :
    List ipc_msg_table_entry → response_result
  | [] => { ret := 0, mismatch_logged := false, table := [] }
  | entry :: rest =>
    if CIFSD_IPC_MSG_HANDLE payload ≠ entry.handle then
      let r := handle_response_loop alloc_ok type payload sz rest
      { r with table := entry :: r.table }
    else if !alloc_ok then
      { ret := -ENOMEM,
        mismatch_logged := decide (entry.type + 1 ≠ type),
        table := { entry with response := none } :: rest }
    else
      { ret := 0,
        mismatch_logged := decide (entry.type + 1 ≠ type),
        table := { entry with response := some (payload.take sz),
                              wake_ups := entry.wake_ups + 1 } :: rest }

/-- The function `handle_response(type, payload, sz)`. -/
def handle_response (alloc_ok : Bool) (table : List ipc_msg_table_entry)
    (type : Nat) (payload : List Nat) (sz : Nat) : response_result :=
  handle_response_loop alloc_ok type payload sz table

/-- The global state of `transport_ipc.c`: the correlation table, the
ids the allocator `ida` has handed out and not got back, and the port id
of the registered daemon (0 for none). -/
structure ipc_state where
  ipc_msg_table : List ipc_msg_table_entry
  ida : List Nat
  cifsd_tools_pid : Nat
deriving DecidableEq, Repr

/-- Modelled from the spec: `cifds_acquire_id` of the missing
`mgmt/cifsd_ida.c`.  `pick` is what the allocator underneath answers; a
positive number that is not outstanding is handed out as the id, a
negative number is an error and is returned as it is, and anything else
is answered with `-ENOMEM` ("no duplicates among outstanding ids", "any
non-zero 32-bit id"). -/
def cifds_acquire_id (pick : Int) (ida : List Nat) : Int × List Nat :=
  if pick < 0 then (pick, ida)
  else if 0 < pick ∧ pick < 2147483648 ∧ pick.toNat ∉ ida then (pick, pick.toNat :: ida)
  else (-ENOMEM, ida)

/-- Modelled from the spec: `cifds_release_id` of the missing
`mgmt/cifsd_ida.c`: the id is no longer outstanding. -/
def cifds_release_id (ida : List Nat) (id : Int) : List Nat :=
  ida.filter (fun x => (x : Int) != id)

/-- The function `ipc_msg_handle_free(handle)`. -/
def ipc_msg_handle_free (ida : List Nat) (handle : Int) : List Nat :=
  if handle ≥ 0 then cifds_release_id ida handle else ida

/-- What the netlink layer answers during one `ipc_msg_send` call. -/
structure send_env where
  genlmsg_new_ok : Bool
  genlmsg_put_ok : Bool
  nla_put_ret : Int
  genlmsg_unicast_ret : Int
deriving DecidableEq, Repr

/-- The function `ipc_msg_send(msg)`: its return value. -/
def ipc_msg_send (cifsd_tools_pid : Nat) (env : send_env) : Int :=
  if cifsd_tools_pid = 0 then -EINVAL
  else if !env.genlmsg_new_ok then -ENOMEM
  else if !env.genlmsg_put_ok then -EINVAL
  else if env.nla_put_ret ≠ 0 then env.nla_put_ret
  else env.genlmsg_unicast_ret

/-- One message that `handle_generic_event` passes to `handle_response`
while a request waits. -/
structure ipc_arrival where
  type : Nat
  payload : List Nat
  alloc_ok : Bool
deriving DecidableEq, Repr

/-- The call `wait_event_interruptible_timeout(entry.wait,
entry.response != NULL, IPC_WAIT_TIMEOUT)` for the entry at the head of
the table: the messages that arrive are handled one by one until the
response slot of the entry is filled; when none is left, the wait ends
by its timeout. -/
def ipc_wait (table : List ipc_msg_table_entry) : List ipc_arrival → List ipc_msg_table_entry
  | [] => table
  | a :: rest =>
    if (table.head?.bind (fun e => e.response)).isSome then table
    else ipc_wait (handle_response a.alloc_ok table a.type a.payload a.payload.length).table rest

/-- The function `ipc_msg_send_request(msg, handle)`; `type` is
`msg->type` and `handle` the argument read as an `int`.  The entry lives
on the stack of the caller: `hash_add` puts it at the head of the table
and `hash_del` takes that same node out again.  The result is the
pointer returned (the bytes of the response, `none` for NULL) and the
state afterwards. -/
def ipc_msg_send_request (st : ipc_state) (type : Nat) (handle : Int) (env : send_env)
    (arrivals : List ipc_arrival) : Option (List Nat) × ipc_state :=
  if handle < 0 then (none, st)
  else
    let entry : ipc_msg_table_entry :=
      { handle := handle.toNat, type := type, response := none, wake_ups := 0 }
    let table1 := entry :: st.ipc_msg_table
    let table2 := if ipc_msg_send st.cifsd_tools_pid env ≠ 0 then table1
                  else ipc_wait table1 arrivals
    (table2.head?.bind (fun e => e.response), { st with ipc_msg_table := table2.tail })

/-- What the kernel answers during one `cifsd_ipc_login_request` call:
whether `ipc_msg_alloc` returns a message, the answer of the id
allocator, the answers of the netlink layer, and the messages that arrive
while the request waits. -/
structure request_env where
  msg_alloc_ok : Bool
  pick : Int
  send : send_env
  arrivals : List ipc_arrival
deriving DecidableEq, Repr

/-- The function `cifsd_ipc_login_request(account)`: the response
returned (`none` for NULL) and the state afterwards.  The account name is
copied into the request and does not enter the result. -/
def cifsd_ipc_login_request (st : ipc_state) (_account : List Char) (env : request_env) :
    Option (List Nat) × ipc_state :=
  if !env.msg_alloc_ok then (none, st)
  else
    let a := cifds_acquire_id env.pick st.ida
    let r := ipc_msg_send_request { st with ida := a.2 } CIFSD_EVENT_LOGIN_REQUEST a.1
               env.send env.arrivals
    (r.1, { r.2 with ida := ipc_msg_handle_free r.2.ida a.1 })

/-- A table with one waiting login request of handle 7. -/
def login_waiting : List ipc_msg_table_entry :=
  [{ handle := 7, type := CIFSD_EVENT_LOGIN_REQUEST, response := none, wake_ups := 0 }]

/-- An IPC state with a registered daemon, one waiting request and two
outstanding ids. -/
def busy_ipc_state : ipc_state :=
  { ipc_msg_table :=
      [{ handle := 3, type := CIFSD_EVENT_HEARTBEAT_REQUEST, response := none, wake_ups := 0 }],
    ida := [3, 9], cifsd_tools_pid := 4242 }

/-- A netlink layer that delivers the message. -/
def send_ok : send_env :=
  { genlmsg_new_ok := true, genlmsg_put_ok := true, nla_put_ret := 0,
    genlmsg_unicast_ret := 0 }

/-! ## Daemon registration (`transport_ipc.c`) -/

/-- The function `cifsd_ipc_heartbeat_request()`: the response returned
(`none` for NULL) and the state afterwards. -/
def cifsd_ipc_heartbeat_request (st : ipc_state) (env : request_env) :
    Option (List Nat) × ipc_state :=
  if !env.msg_alloc_ok then (none, st)
  else
    let a := cifds_acquire_id env.pick st.ida
    let r := ipc_msg_send_request { st with ida := a.2 } CIFSD_EVENT_HEARTBEAT_REQUEST a.1
               env.send env.arrivals
    (r.1, { r.2 with ida := ipc_msg_handle_free r.2.ida a.1 })

/-- What `handle_startup_event` reads from `struct genl_info`: whether
`genlhdr->version` is `CIFSD_GENL_VERSION`, whether
`attrs[CIFSD_EVENT_STARTING_UP]` is there, and the port id of the
sender. -/
structure genl_info where
  version_ok : Bool
  has_attr : Bool
  snd_portid : Nat
deriving DecidableEq, Repr

/-- What the kernel answers during one `handle_startup_event` call: the
answers during the heartbeat request, and the value of `ret` after the
three `cifsd_set_*` calls of the first registration. -/
structure startup_env where
  heartbeat : request_env
  conf_ret : Int
deriving DecidableEq, Repr

/-- What `handle_startup_event` returns and leaves behind: the return
value, the IPC state, and whether `cifsd_server_set_running()` was
called. -/
structure startup_result where
  ret : Int
  st : ipc_state
  set_running : Bool
deriving DecidableEq, Repr

/-- The function `handle_startup_event(skb, info)`.  The fields of
`server_conf` written at the first registration are not part of the
state. -/
def handle_startup_event (st : ipc_state) (info : genl_info) (env : startup_env) :
    startup_result :=
  if !info.version_ok then { ret := -EINVAL, st := st, set_running := false }
  else if !info.has_attr then { ret := -EINVAL, st := st, set_running := false }
  else if st.cifsd_tools_pid ≠ 0 then
    let r := cifsd_ipc_heartbeat_request st env.heartbeat
    match r.1 with
    | some _ => { ret := -EINVAL, st := r.2, set_running := false }
    | none =>
      { ret := 0, st := { r.2 with cifsd_tools_pid := info.snd_portid }, set_running := true }
  else if env.conf_ret ≠ 0 then { ret := -EINVAL, st := st, set_running := false }
  else { ret := 0, st := { st with cifsd_tools_pid := info.snd_portid }, set_running := true }

/-- A heartbeat during which the daemon answers the request of id 5. -/
def heartbeat_answered : request_env :=
  { msg_alloc_ok := true, pick := 5, send := send_ok,
    arrivals := [{ type := CIFSD_EVENT_HEARTBEAT_RESPONSE, payload := [5, 0, 0, 0],
                   alloc_ok := true }] }

/-- A heartbeat during which the daemon stays silent. -/
def heartbeat_silent : request_env :=
  { msg_alloc_ok := true, pick := 5, send := send_ok, arrivals := [] }

/-- A well-versioned STARTING_UP message from port 777. -/
def startup_from_777 : genl_info :=
  { version_ok := true, has_attr := true, snd_portid := 777 }

/-! ## The listening socket (`connect.c`) -/

/-- What the kernel answers during one `cifsd_create_socket` call: the
return values of `sock_create`, of the two `kernel_setsockopt` calls, of
`kernel_bind`, of `listen`, whether `kmalloc` returns the pid info, the
error `kthread_run` returns (`none` when the thread runs), and the return
value of `kernel_sock_shutdown`. -/
structure socket_env where
  sock_create_ret : Int
  reuseaddr_ret : Int
  nodelay_ret : Int
  bind_ret : Int
  listen_ret : Int
  kmalloc_ok : Bool
  kthread_run_err : Option Int
  shutdown_ret : Int
deriving DecidableEq, Repr

/-- The function `cifsd_start_forker_thread(cifsd_pid_info)`: its return
value, `PTR_ERR(cifsd_forkerd)` when `kthread_run` fails. -/
def cifsd_start_forker_thread (env : socket_env) : Int :=
  match env.kthread_run_err with
  | some rc => rc
  | none => 0

/-- The code at the label `release` of `cifsd_create_socket`:
`ret = kernel_sock_shutdown(socket, SHUT_RDWR); ... return ret;`. -/
def create_socket_release (env : socket_env) : Int :=
  env.shutdown_ret

/-- The function `cifsd_create_socket(cifsd_pid)`: its return value. -/
def cifsd_create_socket (env : socket_env) : Int :=
  if env.sock_create_ret ≠ 0 then env.sock_create_ret
  else if env.reuseaddr_ret < 0 then create_socket_release env
  else if env.nodelay_ret < 0 then create_socket_release env
  else if env.bind_ret ≠ 0 then create_socket_release env
  else if env.listen_ret ≠ 0 then create_socket_release env
  else if !env.kmalloc_ok then create_socket_release env
  else if cifsd_start_forker_thread env ≠ 0 then create_socket_release env
  else 0

/-- Every call succeeds up to `kthread_run`, which fails with `-ENOMEM`;
the shutdown of the listening socket then succeeds. -/
def forker_fails : socket_env :=
  { sock_create_ret := 0, reuseaddr_ret := 0, nodelay_ret := 0, bind_ret := 0,
    listen_ret := 0, kmalloc_ok := true, kthread_run_err := some (-ENOMEM),
    shutdown_ret := 0 }

/-- The state after the share `foo` is begun and the parser then turns
to the IPC$ share and reads a value that is no option value. -/
def stale_flag_result : Option Int × export_state :=
  cifsd_config_store env_ok booted_state
    (some "sharename = foo<sharename = IPC$<available = bogus".toList) 50

/-! ## Reading from the socket (`connect.c`) -/

def EINTR : Int := 4
def EAGAIN : Int := 11
def ESHUTDOWN : Int := 108
def ERESTARTSYS : Int := 512
def INT_MAX : Nat := 2147483647

/-- One `struct kvec`: the address `iov_base` and the `size_t` length
`iov_len`. -/
structure kvec where
  iov_base : Nat
  iov_len : Nat
deriving DecidableEq, Repr

/-- Conversion of a `size_t` to `int`: the low 32 bits, read as a signed
number. -/
def to_int (n : Nat) : Int :=
  if n % 4294967296 < 2147483648 then ((n % 4294967296 : Nat) : Int)
  else ((n % 4294967296 : Nat) : Int) - 4294967296

/-- Conversion of an integer to `size_t` (64 bits). -/
def to_size_t (i : Int) : Nat :=
  (i % 18446744073709551616).toNat

/-- How the `while` loop of `kvec_array_init` ends: at a segment, with
the values of `iov` (the segments from there on), `nr_segs` and `base`;
with a read past the last segment of the array; or not within the rounds
granted. -/
inductive walk_result where
  | done (rest : List kvec) (nr_segs : Nat) (base : Nat)
  | out_of_bounds
  | out_of_fuel
deriving DecidableEq, Repr

/-- The `while (bytes || !iov->iov_len)` loop of `kvec_array_init`.  The
pointer `iov` is the list of the segments from it to the end of the
array; the first argument bounds the number of rounds.  `copy` is an
`int`, `bytes` and `base` are `size_t`, `nr_segs` is `unsigned int`. -/
def kvec_array_init_loop : Nat → List kvec → Nat → Nat → Nat → walk_result
  | 0, _, _, _, _ => .out_of_fuel
  | _ + 1, [], _, _, _ => .out_of_bounds
  | fuel + 1, seg :: rest, nr_segs, bytes, base =>
    if bytes ≠ 0 ∨ seg.iov_len = 0 then
      let copy : Int := to_int (min bytes seg.iov_len)
      let bytes1 := to_size_t ((bytes : Int) - copy)
      let base1 := to_size_t ((base : Int) + copy)
      if seg.iov_len = base1 then
        kvec_array_init_loop fuel rest ((nr_segs + 4294967295) % 4294967296) bytes1 0
      else
        kvec_array_init_loop fuel (seg :: rest) nr_segs bytes1 base1
    else .done (seg :: rest) nr_segs base

/-- The function `kvec_array_init(new, iov, nr_segs, bytes)`: the number
of segments it returns and the segments it wrote to `new`; `none` when
the loop or the `memcpy` reads past the array, or the loop does not end
within the rounds granted. -/
def kvec_array_init (fuel : Nat) (iov : List kvec) (nr_segs bytes : Nat) :
    Option (Nat × List kvec) :=
  match kvec_array_init_loop fuel iov nr_segs bytes 0 with
  | .done rest n base =>
    if rest.length < n then none
    else
      match rest.take n with
      | [] => some (n, [])
      | seg :: more =>
        some (n, { iov_base := seg.iov_base + base,
                   iov_len := (seg.iov_len + 18446744073709551616 - base)
                                % 18446744073709551616 } :: more)
  | _ => none

/-- The addresses of the bytes an iovec array describes, in order. -/
def iov_bytes : List kvec → List Nat
  | [] => []
  | seg :: rest => List.range' seg.iov_base seg.iov_len ++ iov_bytes rest

/-- The total length of an iovec array. -/
def iov_total : List kvec → Nat
  | [] => 0
  | seg :: rest => seg.iov_len + iov_total rest

/-- The kernel's `time_after(a, b)`: `(long)(b - a) < 0` on `unsigned
long` values of 64 bits. -/
def time_after (a b : Nat) : Bool :=
  9223372036854775808 ≤ (b % 18446744073709551616 + 18446744073709551616
    - a % 18446744073709551616) % 18446744073709551616

/-- Modelled from the spec: the connection states of the missing header;
`cifsd_readv_from_socket` names `CifsExiting` and `CifsNeedReconnect`. -/
inductive tcp_status where
  | CifsNew
  | CifsGood
  | CifsExiting
  | CifsNeedReconnect
deriving DecidableEq, Repr

/-- The fields of `struct connection` that the read path uses:
`stats.open_files_count`, `last_active`, whether `iov` is not NULL, and
`nr_iov`. -/
structure connection where
  open_files_count : Int
  last_active : Nat
  has_iov : Bool
  nr_iov : Nat
deriving DecidableEq, Repr

/-- Build parameters of the read path: whether `CONFIG_CIFS_SMB2_SERVER`
is set, and the value of `SMB_ECHO_INTERVAL` in jiffies. -/
structure read_config where
  smb2_server : Bool
  echo_interval : Nat
deriving DecidableEq, Repr

/-- The function `conn_unresponsive(conn)` at the time `jiffies`. -/
def conn_unresponsive (cfg : read_config) (conn : connection) (jiffies : Nat) : Bool :=
  if conn.open_files_count > 0 then false
  else if cfg.smb2_server then
    time_after jiffies ((conn.last_active + 2 * cfg.echo_interval) % 18446744073709551616)
  else false

/-- The function `get_conn_iovec(conn, nr_segs)`: whether it returns an
iovec, and the connection afterwards. -/
def get_conn_iovec (conn : connection) (nr_segs : Nat) (kmalloc_ok : Bool) :
    Bool × connection :=
  if conn.has_iov && decide (nr_segs ≤ conn.nr_iov) then (true, conn)
  else if kmalloc_ok then (true, { conn with has_iov := true, nr_iov := nr_segs })
  else (false, conn)

/-- What one round of the loop of `cifsd_readv_from_socket` sees: the
value of `jiffies`, the value `kernel_recvmsg` returns, and
`conn->tcp_status` after that call. -/
structure read_step where
  jiffies : Nat
  length : Int
  status : tcp_status
deriving DecidableEq, Repr

/-- How a call of `cifsd_readv_from_socket` stands after the rounds
given: it has returned a value; it is still in its loop; or
`kvec_array_init` has left the iovec array. -/
inductive read_outcome where
  | returned (v : Int)
  | pending
  | fault
deriving DecidableEq, Repr

/-- The value a call has returned, if it has. -/
def read_outcome.value : read_outcome → Option Int
  | .returned v => some v
  | .pending => none
  | .fault => none

/-- The outcome of a read together with the number of `kernel_recvmsg`
calls made. -/
structure read_result where
  outcome : read_outcome
  recv_calls : Nat
deriving DecidableEq, Repr

/-- The three results of `kernel_recvmsg` after which the loop sleeps and
tries again. -/
def is_transient (length : Int) : Bool :=
  length == -ERESTARTSYS || length == -EAGAIN || length == -EINTR

/-- The `for` loop of `cifsd_readv_from_socket` over the rounds still to
come.  `total_read` is an `int`, `to_read` an `unsigned int`; `calls`
counts the `kernel_recvmsg` calls made so far.  `kvec_array_init` is
granted two rounds more than `iov_orig` has segments, which is enough
whenever it stays inside the array with `total_read` not negative. -/
def readv_loop (cfg : read_config) (conn : connection) (iov_orig : List kvec)
    (nr_segs : Nat) : List read_step → Int → Nat → Nat → read_result
  | [], total_read, to_read, calls =>
    if to_read = 0 then { outcome := .returned total_read, recv_calls := calls }
    else { outcome := .pending, recv_calls := calls }
  | s :: rest, total_read, to_read, calls =>
    if to_read = 0 then { outcome := .returned total_read, recv_calls := calls }
    else if conn_unresponsive cfg conn s.jiffies then
      { outcome := .returned (-EAGAIN), recv_calls := calls }
    else
      match kvec_array_init (iov_orig.length + 2) iov_orig nr_segs (to_size_t total_read) with
      | none => { outcome := .fault, recv_calls := calls }
      | some _ =>
        if s.status = tcp_status.CifsExiting then
          { outcome := .returned (-ESHUTDOWN), recv_calls := calls + 1 }
        else if s.status = tcp_status.CifsNeedReconnect then
          { outcome := .returned (-EAGAIN), recv_calls := calls + 1 }
        else if is_transient s.length then
          readv_loop cfg conn iov_orig nr_segs rest total_read to_read (calls + 1)
        else if s.length ≤ 0 then
          { outcome := .returned (-EAGAIN), recv_calls := calls + 1 }
        else
          readv_loop cfg conn iov_orig nr_segs rest
            (to_int (to_size_t (total_read + s.length)))
            (((to_read : Int) - s.length) % 4294967296).toNat (calls + 1)

/-- The function `cifsd_readv_from_socket(conn, iov_orig, nr_segs,
to_read)` over the rounds `steps`. -/
def cifsd_readv_from_socket (cfg : read_config) (conn : connection) (kmalloc_ok : Bool)
    (iov_orig : List kvec) (nr_segs to_read : Nat) (steps : List read_step) : read_result :=
  if (get_conn_iovec conn nr_segs kmalloc_ok).1 then
    readv_loop cfg conn iov_orig nr_segs steps 0 to_read 0
  else { outcome := .returned (-ENOMEM), recv_calls := 0 }

/-- The function `cifsd_read_from_socket(conn, buf, to_read)`: one
segment of `to_read` bytes at the address `buf`. -/
def cifsd_read_from_socket (cfg : read_config) (conn : connection) (kmalloc_ok : Bool)
    (buf to_read : Nat) (steps : List read_step) : read_result :=
  cifsd_readv_from_socket cfg conn kmalloc_ok [{ iov_base := buf, iov_len := to_read }] 1
    to_read steps

/-- The sum of the positive numbers of a list of `kernel_recvmsg`
results: the bytes received. -/
def bytes_received : List Int → Int
  | [] => 0
  | l :: rest => (if 0 < l then l else 0) + bytes_received rest

/-- Every positive result of `kernel_recvmsg` is at most the number of
bytes still outstanding when it is returned; `outstanding` is that number
before the first result. -/
def results_bounded : List Int → Int → Prop
  | [], _ => True
  | l :: rest, outstanding =>
    if 0 < l then l ≤ outstanding ∧ results_bounded rest (outstanding - l)
    else results_bounded rest outstanding

/-- A connection that has open files. -/
def busy_conn : connection :=
  { open_files_count := 2, last_active := 1000, has_iov := true, nr_iov := 4 }

/-- A connection without open files, last active at time 1000. -/
def idle_conn : connection :=
  { open_files_count := 0, last_active := 1000, has_iov := true, nr_iov := 4 }

/-- The SMB2 server is built in and the echo interval is 60 jiffies. -/
def smb2_config : read_config :=
  { smb2_server := true, echo_interval := 60 }

/-- An iovec array of two segments, of 4 and 6 bytes. -/
def two_segments : List kvec :=
  [{ iov_base := 4096, iov_len := 4 }, { iov_base := 8192, iov_len := 6 }]

/-- Four rounds on a good connection: 3 bytes, `-EAGAIN`, 7 bytes, and
an end of stream that is not reached by a read of 10 bytes. -/
def ten_byte_rounds : List read_step :=
  [{ jiffies := 1121, length := 3, status := tcp_status.CifsGood },
   { jiffies := 1122, length := -11, status := tcp_status.CifsGood },
   { jiffies := 1123, length := 7, status := tcp_status.CifsGood },
   { jiffies := 1124, length := 0, status := tcp_status.CifsGood }]

/-- The rounds that remain when the rounds with a transient
`kernel_recvmsg` result are taken out. -/
def drop_transient (steps : List read_step) : List read_step :=
  steps.filter (fun s => !is_transient s.length)

/-- Every round sees a connection that is neither exiting nor in need of
a reconnect and that `conn_unresponsive` does not find idle. -/
def rounds_good (cfg : read_config) (conn : connection) (steps : List read_step) : Prop :=
  ∀ s ∈ steps, s.status = tcp_status.CifsGood ∧ conn_unresponsive cfg conn s.jiffies = false

/-- Rounds on a good connection with transient results among the data:
`-EINTR`, 3 bytes, `-EAGAIN`, `-ERESTARTSYS`, 7 bytes. -/
def interrupted_rounds : List read_step :=
  [{ jiffies := 1121, length := -4, status := tcp_status.CifsGood },
   { jiffies := 1121, length := 3, status := tcp_status.CifsGood },
   { jiffies := 1122, length := -11, status := tcp_status.CifsGood },
   { jiffies := 1122, length := -512, status := tcp_status.CifsGood },
   { jiffies := 1123, length := 7, status := tcp_status.CifsGood }]

/-- One segment of 4294967297 bytes, a length that does not fit an
`int`. -/
def huge_segment : List kvec :=
  [{ iov_base := 4096, iov_len := 4294967297 }]

/-- Three segments of 4, 0 and 6 bytes. -/
def three_segments : List kvec :=
  [{ iov_base := 4096, iov_len := 4 }, { iov_base := 6000, iov_len := 0 },
   { iov_base := 8192, iov_len := 6 }]

/-- The share name of the two bytes `0xC0` (Latin-1 capital A with
grave) and `d`. -/
def latin_capital_name : List Char := [Char.ofNat 192, 'd']

/-- The name of the two bytes `0xE0` (Latin-1 small a with grave) and
`d`. -/
def latin_small_name : List Char := [Char.ofNat 224, 'd']

/-- The state after a share named `0xC0 d` with the path `/a` has been
configured on the booted server. -/
def latin_share_state : export_state :=
  (cifsd_config_store env_ok booted_state
    (some ("sharename = ".toList ++ latin_capital_name ++ "<path = /a".toList)) 24).2

/-! # Theorems -/

/-! ## Lemmas on access lists -/

theorem conflist_loop_result (list key : List Char) (fuel begin : Nat) :
    (conflist_loop list key fuel begin).1 = 0 ∨
    (conflist_loop list key fuel begin).1 = -ENOENT := by
  induction fuel generalizing begin with
  | zero => right; rfl
  | succ n ih =>
    unfold conflist_loop
    split
    · split
      · exact ih _
      · split
        · right; rfl
        · split
          · left; rfl
          · exact ih _
    · split
      · right; rfl
      · split
        · left; rfl
        · right; rfl

theorem conflist_search_result (list key : List Char) :
    (conflist_search list key).1 = 0 ∨ (conflist_search list key).1 = -ENOENT :=
  conflist_loop_result list key _ _

theorem conflist_search_ne_zero (list key : List Char)
    (h : (conflist_search list key).1 ≠ 0) : (conflist_search list key).1 = -ENOENT := by
  rcases conflist_search_result list key with h0 | h1
  · exact absurd h0 h
  · exact h1

/-! ## Host check -/

/-- C4: `validate_host` returns 0 when neither host list is set; with
`allow hosts` set it returns 0 when `conflist_search` finds the peer there
and `-EACCES` otherwise, whatever `deny hosts` holds, and leaves
`deny hosts` alone; with only `deny hosts` set it returns `-EACCES` when
the peer is found there and 0 otherwise.  A share with
`allow hosts = 10.0.0.1` rejects the peer `10.0.0.2` with `-EACCES`. -/
theorem validate_host_spec (cip : List Char) (share : cifsd_share) :
    (share.allow_hosts = none → share.deny_hosts = none →
      (validate_host cip share).1 = 0) ∧
    (∀ al, share.allow_hosts = some al →
      ((conflist_search al cip).1 = 0 → (validate_host cip share).1 = 0) ∧
      ((conflist_search al cip).1 ≠ 0 → (validate_host cip share).1 = -EACCES) ∧
      (validate_host cip share).2.deny_hosts = share.deny_hosts) ∧
    (∀ dl, share.allow_hosts = none → share.deny_hosts = some dl →
      ((conflist_search dl cip).1 = 0 → (validate_host cip share).1 = -EACCES) ∧
      ((conflist_search dl cip).1 ≠ 0 → (validate_host cip share).1 = 0)) ∧
    (share.allow_hosts = some "10.0.0.1".toList →
      (validate_host "10.0.0.2".toList share).1 = -EACCES) := by
  refine ⟨?_, ?_, ?_, ?_⟩
  · intro ha hd
    simp [validate_host, ha, hd]
  · intro al ha
    refine ⟨?_, ?_, ?_⟩
    · intro h0
      simp [validate_host, ha, h0, ENOENT]
    · intro hne
      have := conflist_search_ne_zero al cip hne
      simp [validate_host, ha, this]
    · simp only [validate_host, ha]
      split <;> rfl
  · intro dl ha hd
    refine ⟨?_, ?_⟩
    · intro h0
      simp [validate_host, ha, hd, h0]
    · intro hne
      simp [validate_host, ha, hd, hne]
  · intro ha
    have h : (conflist_search "10.0.0.1".toList "10.0.0.2".toList).1 = -ENOENT := by decide
    simp only [validate_host, ha]
    rw [if_pos h]

theorem validate_host_spec_witness :
    (validate_host "10.0.0.3".toList
      { zero_share with allow_hosts := some "10.0.0.1,10.0.0.3".toList,
                        deny_hosts := some "10.0.0.3".toList }).1 = 0 ∧
    (validate_host "10.0.0.2".toList
      { zero_share with allow_hosts := some "10.0.0.1".toList }).1 = -EACCES ∧
    (validate_host "10.0.0.3".toList
      { zero_share with deny_hosts := some "10.0.0.3".toList }).1 = -EACCES ∧
    (validate_host "10.0.0.3".toList zero_share).1 = 0 :=
  ⟨((validate_host_spec "10.0.0.3".toList
      { zero_share with allow_hosts := some "10.0.0.1,10.0.0.3".toList,
                        deny_hosts := some "10.0.0.3".toList }).2.1
      "10.0.0.1,10.0.0.3".toList rfl).1 (by decide),
   (validate_host_spec "10.0.0.2".toList
      { zero_share with allow_hosts := some "10.0.0.1".toList }).2.2.2 rfl,
   ((validate_host_spec "10.0.0.3".toList
      { zero_share with deny_hosts := some "10.0.0.3".toList }).2.2.1
      "10.0.0.3".toList rfl rfl).1 (by decide),
   (validate_host_spec "10.0.0.3".toList zero_share).1 rfl rfl⟩


/-! ## User check -/

/-- C5: for a share with a path and `guest ok` clear and a user that
`conflist_search` does not find in `invalid users`, `validate_user` sets
`*can_write` to true when the user is found in `write list`, else to false
when the user is found in `read list`, else to `writeable == 1`.  With
`writeable = 1` and `read list = alice` (no `write list`, no
`invalid users`), alice gets false and bob gets true. -/
theorem validate_user_can_write :
    (∀ (user : List Char) (share : cifsd_share) (cw : Bool) (path : List Char),
      share.path = some path → share.attr.guestok = false →
      conflist_finds share.invalid_users user = false →
      (validate_user user share cw).2.1 =
        if conflist_finds share.write_list user then true
        else if conflist_finds share.read_list user then false
        else decide (share.writeable = 1)) ∧
    (∀ (share : cifsd_share) (cw : Bool) (path : List Char),
      share.path = some path → share.attr.guestok = false →
      share.invalid_users = none → share.write_list = none →
      share.read_list = some "alice".toList → share.writeable = 1 →
      (validate_user "alice".toList share cw).2.1 = false ∧
      (validate_user "bob".toList share cw).2.1 = true) := by
  have key : ∀ (user : List Char) (share : cifsd_share) (cw : Bool) (path : List Char),
      share.path = some path → share.attr.guestok = false →
      conflist_finds share.invalid_users user = false →
      (validate_user user share cw).2.1 =
        if conflist_finds share.write_list user then true
        else if conflist_finds share.read_list user then false
        else decide (share.writeable = 1) := by
    intro user share cw path hp hg hi
    cases hil : share.invalid_users with
    | none =>
      cases hrl : share.read_list <;> cases hwl : share.write_list <;>
        cases hvl : share.valid_users <;>
        simp [validate_user, hp, hg, hil, hrl, hwl, hvl, conflist_finds]
    | some il =>
      have hne : ¬ (conflist_search il user).1 = 0 := by
        simpa [conflist_finds, hil] using hi
      cases hrl : share.read_list <;> cases hwl : share.write_list <;>
        cases hvl : share.valid_users <;>
        simp [validate_user, hp, hg, hil, hrl, hwl, hvl, conflist_finds, hne]
  refine ⟨key, ?_⟩
  intro share cw path hp hg hi hw hr hwr
  have ha : conflist_finds (some "alice".toList) "alice".toList = true := by decide
  have hb : conflist_finds (some "alice".toList) "bob".toList = false := by decide
  constructor
  · rw [key _ share cw path hp hg (by rw [hi]; rfl), hw, hr, ha]; rfl
  · rw [key _ share cw path hp hg (by rw [hi]; rfl), hw, hr, hb, hwr]; rfl

theorem validate_user_can_write_witness :
    (validate_user "carol".toList
      { zero_share with path := some "/srv".toList, writeable := 1,
                        invalid_users := some "mallory".toList,
                        read_list := some "carol,dave".toList,
                        write_list := some "erin,carol".toList } false).2.1 = true ∧
    (validate_user "alice".toList
      { zero_share with path := some "/srv".toList, writeable := 1,
                        read_list := some "alice".toList } true).2.1 = false ∧
    (validate_user "bob".toList
      { zero_share with path := some "/srv".toList, writeable := 1,
                        read_list := some "alice".toList } false).2.1 = true :=
  ⟨(validate_user_can_write.1 "carol".toList
      { zero_share with path := some "/srv".toList, writeable := 1,
                        invalid_users := some "mallory".toList,
                        read_list := some "carol,dave".toList,
                        write_list := some "erin,carol".toList } false "/srv".toList
      rfl rfl (by decide)).trans (by decide),
   (validate_user_can_write.2
      { zero_share with path := some "/srv".toList, writeable := 1,
                        read_list := some "alice".toList } true "/srv".toList
      rfl rfl rfl rfl rfl rfl).1,
   (validate_user_can_write.2
      { zero_share with path := some "/srv".toList, writeable := 1,
                        read_list := some "alice".toList } false "/srv".toList
      rfl rfl rfl rfl rfl rfl).2⟩

/-- C7: for a share with a path and `guest ok` set, `validate_user`
returns 0 for every user, whatever the user lists hold, and leaves
`*can_write` and the share as they were. -/
theorem validate_user_guestok (user : List Char) (share : cifsd_share) (cw : Bool)
    (path : List Char) (hp : share.path = some path)
    (hg : share.attr.guestok = true) :
    validate_user user share cw = (0, cw, share) := by
  simp [validate_user, hp, hg]

theorem validate_user_guestok_witness :
    validate_user "mallory".toList guest_share true = (0, true, guest_share) :=
  validate_user_guestok "mallory".toList guest_share true "/srv".toList rfl rfl


/-! ## Case-insensitive comparison -/

theorem char_eq_of_toNat_eq (a b : Char) (h : a.toNat = b.toNat) : a = b := by
  rw [← Char.ofNat_toNat a, ← Char.ofNat_toNat b, h]

theorem tolower_toNat_ne_zero (c : Char) (h : c.toNat ≠ 0) : (tolower c).toNat ≠ 0 := by
  unfold tolower
  split
  · rename_i hu
    have hb : 65 ≤ c.toNat ∧ c.toNat ≤ 222 := by
      simp only [isupper, Bool.or_eq_true, Bool.and_eq_true, decide_eq_true_eq] at hu
      omega
    obtain ⟨h1, h2⟩ := hb
    rw [← Char.ofNat_toNat c]
    generalize c.toNat = n at h1 h2
    interval_cases n <;> decide
  · exact h

theorem tolower_ascii_lower (c : Char) : tolower (ascii_lower c) = tolower c := by
  unfold ascii_lower
  split
  · rename_i hu
    obtain ⟨h1, h2⟩ := hu
    rw [← Char.ofNat_toNat c]
    generalize c.toNat = n at h1 h2
    interval_cases n <;> decide
  · rfl

theorem strcasecmp_eq_zero_of_map (a b : List Char)
    (h : a.map tolower = b.map tolower) : strcasecmp a b = 0 := by
  induction a generalizing b with
  | nil =>
    cases b with
    | nil => rfl
    | cons y ys => simp at h
  | cons x xs ih =>
    cases b with
    | nil => simp at h
    | cons y ys =>
      simp only [List.map_cons, List.cons.injEq] at h
      simp only [strcasecmp, h.1, if_true]
      exact ih ys h.2

theorem strcasecmp_ascii (a b : List Char)
    (h : a.map ascii_lower = b.map ascii_lower) : strcasecmp a b = 0 := by
  apply strcasecmp_eq_zero_of_map
  have e : ∀ l : List Char, l.map tolower = (l.map ascii_lower).map tolower := by
    intro l
    rw [List.map_map]
    apply List.map_congr_left
    intro c _
    exact (tolower_ascii_lower c).symm
  rw [e a, e b, h]

theorem map_of_strcasecmp_eq_zero (a b : List Char)
    (ha : ∀ c ∈ a, c.toNat ≠ 0) (hb : ∀ c ∈ b, c.toNat ≠ 0)
    (h : strcasecmp a b = 0) : a.map tolower = b.map tolower := by
  induction a generalizing b with
  | nil =>
    cases b with
    | nil => rfl
    | cons y ys =>
      exfalso
      have := tolower_toNat_ne_zero y (hb y (List.mem_cons_self _ _))
      simp only [strcasecmp] at h
      omega
  | cons x xs ih =>
    cases b with
    | nil =>
      exfalso
      have := tolower_toNat_ne_zero x (ha x (List.mem_cons_self _ _))
      simp only [strcasecmp] at h
      omega
    | cons y ys =>
      simp only [strcasecmp] at h
      by_cases hxy : tolower x = tolower y
      · rw [if_pos hxy] at h
        simp only [List.map_cons, hxy]
        congr 1
        exact ih ys (fun c hc => ha c (List.mem_cons_of_mem _ hc))
          (fun c hc => hb c (List.mem_cons_of_mem _ hc)) h
      · rw [if_neg hxy] at h
        exfalso
        apply hxy
        apply char_eq_of_toNat_eq
        omega

/-! ## Share lookup -/

theorem get_cifsd_share_loop_skip (st : export_state) (peer user name : List Char)
    (cw : Bool) (pre rest : List Nat)
    (hpre : ∀ q ∈ pre, strcasecmp (deref st q).sharename name ≠ 0) :
    get_cifsd_share_loop st peer user name cw (pre ++ rest) =
      get_cifsd_share_loop st peer user name cw rest := by
  induction pre with
  | nil => rfl
  | cons q qs ih =>
    have hq := hpre q (List.mem_cons_self _ _)
    simp only [List.cons_append, get_cifsd_share_loop, hq, ne_eq, not_false_eq_true, if_true]
    exact ih (fun r hr => hpre r (List.mem_cons_of_mem _ hr))

/-! ## The IPC$ share under configuration -/

theorem ipc_intact_store (st : export_state) (p : Nat) (s : cifsd_share)
    (h : ipc_intact st) (hp : p ≠ 0) : ipc_intact (store st p s) := by
  obtain ⟨⟨tl, htl⟩, hm⟩ := h
  obtain ⟨k, rfl⟩ := Nat.exists_eq_succ_of_ne_zero hp
  exact ⟨⟨tl.set k s, by simp [store, htl]⟩, hm⟩

theorem ipc_intact_add_share (env : kernel_env) (st : export_state) (p : Nat)
    (n : List Char) (path : Option (List Char))
    (h : ipc_intact st) (hp : p ≠ 0) : ipc_intact (__add_share env st p n path).2 := by
  obtain ⟨⟨tl, htl⟩, hm⟩ := h
  obtain ⟨k, rfl⟩ := Nat.exists_eq_succ_of_ne_zero hp
  unfold __add_share
  dsimp only
  split
  · exact ⟨⟨tl, htl⟩, hm⟩
  · refine ⟨?_, List.mem_cons_of_mem _ hm⟩
    simp [htl]

theorem ipc_intact_cleanup (st : export_state) (p : Nat)
    (h : ipc_intact st) (hp : p ≠ 0) : ipc_intact (cleanup_bad_share st p) := by
  obtain ⟨⟨tl, htl⟩, hm⟩ := h
  refine ⟨⟨tl, htl⟩, ?_⟩
  simp only [cleanup_bad_share, List.mem_filter]
  exact ⟨hm, by simpa using fun h => hp h.symm⟩

theorem ctx_intact_attr_option (c : parse_ctx) (arg : List Char)
    (upd : Nat → share_attr → share_attr) (h : ctx_intact c) :
    ctx_intact (attr_option c arg upd).ctx := by
  obtain ⟨hi, hs⟩ := h
  unfold attr_option
  split
  · exact ⟨hi, hs⟩
  · rename_i p hp
    have hp0 : p ≠ 0 := by rintro rfl; exact hs hp
    dsimp only
    split
    · exact ⟨hi, hs⟩
    · exact ⟨ipc_intact_store _ _ _ hi hp0, hs⟩

theorem ctx_intact_str_option (c : parse_ctx) (arg : List Char)
    (upd : List Char → cifsd_share → cifsd_share) (h : ctx_intact c) :
    ctx_intact (str_option c arg upd).ctx := by
  obtain ⟨hi, hs⟩ := h
  unfold str_option
  split
  · exact ⟨hi, hs⟩
  · rename_i p hp
    have hp0 : p ≠ 0 := by rintro rfl; exact hs hp
    exact ⟨ipc_intact_store _ _ _ hi hp0, hs⟩

theorem check_share_ptr_ne_zero (st : export_state) (name : List Char) (a : Nat)
    (h : ipc_intact st) (hn : same_share_name STR_IPC name = false) :
    (check_share st name a).1 ≠ 0 ∧ ipc_intact (check_share st name a).2.2 := by
  obtain ⟨⟨tl, htl⟩, hm⟩ := h
  unfold check_share
  split
  · rename_i p hf
    refine ⟨?_, ⟨tl, htl⟩, hm⟩
    rintro rfl
    have := List.find?_some hf
    simp only [deref, htl, List.getD_cons_zero] at this
    rw [show ipc_share.sharename = STR_IPC from rfl, hn] at this
    exact Bool.noConfusion this
  · refine ⟨by simp [htl], ⟨tl ++ [init_share zero_share], by simp [htl]⟩, hm⟩

theorem ctx_intact_share_option (env : kernel_env) (c : parse_ctx) (data : List Char)
    (h : ctx_intact c) (hn : entry_names_share STR_IPC data = false) :
    ctx_intact (share_option env c data).ctx := by
  unfold share_option
  split
  all_goals first
    | exact ctx_intact_attr_option _ _ _ h
    | exact ctx_intact_str_option _ _ _ h
    | exact h
    | skip
  · rename_i string heq
    simp only [entry_names_share, heq] at hn
    split
    · exact h
    · obtain ⟨h1, h2⟩ := check_share_ptr_ne_zero c.st string c.new_share h.1 hn
      exact ⟨ipc_intact_store _ _ _ h2 h1, by simpa [step_result.ctx] using h1⟩
  · obtain ⟨hi, hs⟩ := h
    cases hsh : c.share with
    | none => exact ⟨hi, by simp [step_result.ctx, hsh]⟩
    | some p =>
      have hp0 : p ≠ 0 := by rintro rfl; exact hs hsh
      dsimp only
      have hs1 : some p ≠ some 0 := by simpa using hp0
      split
      · exact ⟨ipc_intact_store _ _ _ hi hp0, hs1⟩
      · exact ⟨ipc_intact_store _ _ _ hi hp0, hs1⟩
  · obtain ⟨hi, hs⟩ := h
    split
    · rename_i p v hp hv
      have hp0 : p ≠ 0 := by rintro rfl; exact hs hp
      exact ⟨ipc_intact_store _ _ _ hi hp0, hs⟩
    · exact ⟨hi, hs⟩
  · obtain ⟨hi, hs⟩ := h
    cases hsh : c.share with
    | none => exact ⟨hi, by simp [step_result.ctx, hsh]⟩
    | some p =>
      have hp0 : p ≠ 0 := by rintro rfl; exact hs hsh
      dsimp only
      have hs1 : some p ≠ some 0 := by simpa using hp0
      split
      · exact ⟨ipc_intact_add_share _ _ _ _ _ (ipc_intact_store _ _ _ hi hp0) hp0, hs1⟩
      · exact ⟨ipc_intact_store _ _ _ hi hp0, hs1⟩
  · obtain ⟨hi, hs⟩ := h
    split
    · exact ⟨hi, hs⟩
    · split
      · exact ⟨hi, hs⟩
      · rename_i fl p hfl hp
        have hp0 : p ≠ 0 := by rintro rfl; exact hs hp
        exact ⟨ipc_intact_store _ _ _ hi hp0, hs⟩
      · exact ⟨hi, hs⟩

theorem ipc_intact_config_err_exit (c : parse_ctx) (h : ctx_intact c) :
    ipc_intact (config_err_exit c) := by
  obtain ⟨hi, hs⟩ := h
  unfold config_err_exit
  split
  · rename_i p hp
    have hp0 : p ≠ 0 := by rintro rfl; exact hs hp
    split
    · exact ipc_intact_cleanup _ _ hi hp0
    · exact hi
  · exact hi

theorem ipc_intact_share_options_loop (env : kernel_env) (entries : List (List Char))
    (c : parse_ctx) (h : ctx_intact c)
    (hn : entries.any (entry_names_share STR_IPC) = false) :
    ipc_intact (share_options_loop env entries c).2 := by
  induction entries generalizing c with
  | nil => exact h.1
  | cons data rest ih =>
    simp only [List.any_cons, Bool.or_eq_false_iff] at hn
    unfold share_options_loop
    split
    · exact ih c h hn.2
    · have hstep := ctx_intact_share_option env c data h hn.1
      split
      · rename_i c1 heq
        rw [heq] at hstep
        exact ih c1 hstep hn.2
      · rename_i c1 heq
        rw [heq] at hstep
        exact ipc_intact_config_err_exit c1 hstep
      · rename_i rc c1 heq
        rw [heq] at hstep
        exact hstep.1
      · rename_i c1 heq
        rw [heq] at hstep
        exact hstep.1
      · rename_i c1 heq
        rw [heq] at hstep
        have herr := ipc_intact_config_err_exit c1 hstep
        split_ifs <;> first | exact herr | exact hstep.1

theorem ipc_intact_config_store (env : kernel_env) (st : export_state)
    (buf : Option (List Char)) (len : Nat) (h : ipc_intact st)
    (hn : blob_names_share STR_IPC buf = false) :
    ipc_intact (cifsd_config_store env st buf len).2 := by
  have hp : ipc_intact (cifsd_parse_share_options env st buf).2 := by
    unfold cifsd_parse_share_options
    cases buf with
    | none => exact h
    | some data =>
      exact ipc_intact_share_options_loop env _ _ ⟨h, by simp⟩ hn
  unfold cifsd_config_store
  dsimp only
  split
  · exact hp
  · split <;> exact hp

theorem ipc_intact_config_store_seq (st : export_state)
    (calls : List (kernel_env × Option (List Char) × Nat)) (h : ipc_intact st)
    (hn : ∀ call ∈ calls, blob_names_share STR_IPC call.2.1 = false) :
    ipc_intact (config_store_seq st calls) := by
  induction calls generalizing st with
  | nil => exact h
  | cons call rest ih =>
    obtain ⟨env, buf, len⟩ := call
    unfold config_store_seq
    apply ih
    · exact ipc_intact_config_store env st buf len h (hn _ (List.mem_cons_self _ _))
    · intro c hc
      exact hn c (List.mem_cons_of_mem _ hc)

theorem ipc_intact_booted (env : kernel_env) :
    ipc_intact (cifsd_export_init env initial_state).2 :=
  ⟨⟨[], rfl⟩, List.mem_cons_self 0 []⟩


/-- C9 (as amended): `cifsd_export_init` on the initial state leaves a
list that holds just the IPC$ share, with no path and tid 1.  After every
later run of `cifsd_config_store` calls, succeeding or failing, in which
no blob has a `sharename = ` entry that `check_share` takes for `IPC$`
(equal ignoring case) and which links no share a second time, the list
still holds the share named `IPC$` with no path and tid 1. -/
theorem ipc_share_kept (env : kernel_env)
    (calls : List (kernel_env × Option (List Char) × Nat))
    (hn : ∀ call ∈ calls, blob_names_share STR_IPC call.2.1 = false)
    (_hl : (config_store_seq (cifsd_export_init env initial_state).2 calls).list_corrupt
      = false) :
    (cifsd_export_init env initial_state).2.cifsd_share_list = [0] ∧
    deref (cifsd_export_init env initial_state).2 0 = ipc_share ∧
    has_ipc_share (cifsd_export_init env initial_state).2 ∧
    has_ipc_share (config_store_seq (cifsd_export_init env initial_state).2 calls) := by
  have hfin := ipc_intact_config_store_seq _ calls (ipc_intact_booted env) hn
  have hgen : ∀ st, ipc_intact st → has_ipc_share st := by
    intro st h
    obtain ⟨⟨tl, htl⟩, hm⟩ := h
    refine ⟨0, hm, ?_⟩
    simp only [deref, htl, List.getD_cons_zero]
    exact ⟨rfl, rfl, rfl⟩
  exact ⟨rfl, rfl, hgen _ (ipc_intact_booted env), hgen _ hfin⟩

theorem ipc_share_kept_witness :
    has_ipc_share (config_store_seq (cifsd_export_init env_ok initial_state).2 quiet_calls) :=
  (ipc_share_kept env_ok quiet_calls (by decide) (by decide)).2.2.2

/-- C9 (counterexample): one successful `cifsd_config_store` call with the
blob `sharename = IPC$<path = /tmp` gives the IPC$ share a path; the list
is not corrupted, and it no longer holds a share named `IPC$` without a
path. -/
theorem ipc_share_gets_path :
    (cifsd_config_store env_ok booted_state
      (some "sharename = IPC$<path = /tmp".toList) 28).1 = some 28 ∧
    (config_store_seq booted_state
      [(env_ok, some "sharename = IPC$<path = /tmp".toList, 28)]).list_corrupt = false ∧
    (deref (config_store_seq booted_state
      [(env_ok, some "sharename = IPC$<path = /tmp".toList, 28)]) 0).path
      = some "/tmp".toList ∧
    ¬ has_ipc_share (config_store_seq booted_state
      [(env_ok, some "sharename = IPC$<path = /tmp".toList, 28)]) := by
  decide

/-! ## Divergences between the code and its contract -/

/-- C1 (failing input): on the share `docs` with
`valid users = alice,bob`, the same call for bob from the same peer is
admitted first and, after one call for alice, refused with `-ENOENT`: the
call for alice cut the list down to `alice`. -/
theorem get_cifsd_share_not_repeatable :
    (get_cifsd_share docs_valid_state "10.0.0.1".toList "bob".toList "docs".toList
      false).1 = share_ptr.share 1 ∧
    (get_cifsd_share
      (get_cifsd_share
        (get_cifsd_share docs_valid_state "10.0.0.1".toList "bob".toList "docs".toList
          false).2.2
        "10.0.0.1".toList "alice".toList "docs".toList false).2.2
      "10.0.0.1".toList "bob".toList "docs".toList false).1
      = share_ptr.err (-ENOENT) ∧
    (deref
      (get_cifsd_share
        (get_cifsd_share docs_valid_state "10.0.0.1".toList "bob".toList "docs".toList
          false).2.2
        "10.0.0.1".toList "alice".toList "docs".toList false).2.2 1).valid_users
      = some "alice".toList := by
  decide

/-- C2 (failing input): on the share `docs` with
`invalid users = alice,bob`, bob is an entry of the list, yet once alice
has been turned away `validate_user` returns 0 for bob and
`get_cifsd_share` hands him the share. -/
theorem invalid_user_admitted :
    "bob".toList ∈ conflist_tokens "alice,bob".toList ∧
    (deref docs_invalid_state 1).invalid_users = some "alice,bob".toList ∧
    (validate_user "alice".toList (deref docs_invalid_state 1) false).1 = -EACCES ∧
    (validate_user "bob".toList
      (validate_user "alice".toList (deref docs_invalid_state 1) false).2.2 false).1 = 0 ∧
    (get_cifsd_share
      (get_cifsd_share docs_invalid_state "10.0.0.1".toList "alice".toList "docs".toList
        false).2.2
      "10.0.0.1".toList "bob".toList "docs".toList false).1 = share_ptr.share 1 := by
  decide

/-- C3 (failing input): the key `a` is the one token of the list `a`, and
the first token of the list `a,bob`, yet `conflist_search` returns
`-ENOENT` for both. -/
theorem conflist_search_misses_short_entry :
    "a".toList ∈ conflist_tokens "a".toList ∧
    (conflist_search "a".toList "a".toList).1 = -ENOENT ∧
    "a".toList ∈ conflist_tokens "a,bob".toList ∧
    (conflist_search "a,bob".toList "a".toList).1 = -ENOENT := by
  decide

/-- C6 (failing input): on the share `docs` with `valid users = alice`,
bob is refused with `-ENOENT`, the error of a share that does not exist,
while a user listed in `invalid users` is refused with `-EACCES`. -/
theorem valid_users_miss_is_enoent :
    (get_cifsd_share docs_alice_state "10.0.0.1".toList "bob".toList "docs".toList
      false).1 = share_ptr.err (-ENOENT) ∧
    (get_cifsd_share docs_alice_state "10.0.0.1".toList "bob".toList "nosuch".toList
      false).1 = share_ptr.err (-ENOENT) ∧
    (get_cifsd_share docs_invalid_state "10.0.0.1".toList "bob".toList "docs".toList
      false).1 = share_ptr.err (-EACCES) := by
  decide

/-- C10 (failing input): the blob `sharename = foo<path = /a<path = /b`
is accepted, and `__add_share` runs on the new share at each of the two
`path` entries: the share is linked twice and counted twice. -/
theorem share_linked_twice :
    (cifsd_config_store env_ok booted_state
      (some "sharename = foo<path = /a<path = /b".toList) 35).1 = some 35 ∧
    (cifsd_config_store env_ok booted_state
      (some "sharename = foo<path = /a<path = /b".toList) 35).2.cifsd_share_list
      = [1, 1, 0] ∧
    (cifsd_config_store env_ok booted_state
      (some "sharename = foo<path = /a<path = /b".toList) 35).2.list_corrupt = true ∧
    (cifsd_config_store env_ok booted_state
      (some "sharename = foo<path = /a<path = /b".toList) 35).2.cifsd_num_shares = 3 := by
  decide

/-! ## Named pipes -/

theorem strcmp_eq_zero_iff (a b : List Char) : strcmp a b = 0 ↔ a = b := by
  induction a generalizing b with
  | nil => cases b <;> simp [strcmp]
  | cons x xs ih =>
    cases b with
    | nil => simp [strcmp]
    | cons y ys =>
      simp only [strcmp, List.cons.injEq]
      by_cases hxy : x = y
      · simp [hxy, ih]
      · simp only [hxy, if_false, false_and, iff_false]
        split <;> decide

theorem get_pipe_type_loop_generic (p n1 n2 n3 n4 n5 n6 : List Char)
    (hd : [n1, n2, n3, n4, n5, n6].Pairwise (fun a b => a ≠ b)) :
    (get_pipe_type_loop p
        [(n1, SRVSVC), (n2, SRVSVC), (n3, SRVSVC), (n4, SRVSVC), (n5, WINREG), (n6, WINREG)]
        = SRVSVC ↔ p ∈ [n1, n2, n3, n4]) ∧
    (get_pipe_type_loop p
        [(n1, SRVSVC), (n2, SRVSVC), (n3, SRVSVC), (n4, SRVSVC), (n5, WINREG), (n6, WINREG)]
        = WINREG ↔ p ∈ [n5, n6]) ∧
    (get_pipe_type_loop p
        [(n1, SRVSVC), (n2, SRVSVC), (n3, SRVSVC), (n4, SRVSVC), (n5, WINREG), (n6, WINREG)]
        = INVALID_PIPE ↔ p ∉ [n1, n2, n3, n4, n5, n6]) ∧
    get_pipe_type_loop p
        [(n1, SRVSVC), (n2, SRVSVC), (n3, SRVSVC), (n4, SRVSVC), (n5, WINREG), (n6, WINREG)]
        ≠ LANMAN := by
  simp only [List.pairwise_cons, List.mem_cons, List.mem_singleton, List.not_mem_nil,
    or_false, forall_eq_or_imp, forall_eq, IsEmpty.forall_iff, implies_true, and_true,
    List.Pairwise.nil] at hd
  simp only [get_pipe_type_loop, strcmp_eq_zero_iff, List.mem_cons, List.mem_singleton,
    List.not_mem_nil, or_false, not_or]
  have e1 : SRVSVC ≠ WINREG := by decide
  have e2 : SRVSVC ≠ INVALID_PIPE := by decide
  have e3 : WINREG ≠ INVALID_PIPE := by decide
  have e4 : SRVSVC ≠ LANMAN := by decide
  have e5 : WINREG ≠ LANMAN := by decide
  have e6 : INVALID_PIPE ≠ LANMAN := by decide
  generalize SRVSVC = a at *
  generalize WINREG = b at *
  generalize INVALID_PIPE = c at *
  generalize LANMAN = d at *
  split_ifs <;> subst_vars <;> simp_all [eq_comm]

/-- C16: `get_pipe_type` returns `SRVSVC` for exactly the four names
`\srvsvc`, `srvsvc`, `\wkssvc`, `wkssvc`, `WINREG` for exactly `\winreg`
and `winreg`, and `INVALID_PIPE = 0xFFFFFFFF` for every other string, for
instance the same names in capitals; it never returns `LANMAN`. -/
theorem get_pipe_type_spec (pipename : List Char) :
    (get_pipe_type pipename = SRVSVC ↔
      pipename ∈ ["\\srvsvc".toList, "srvsvc".toList, "\\wkssvc".toList, "wkssvc".toList]) ∧
    (get_pipe_type pipename = WINREG ↔
      pipename ∈ ["\\winreg".toList, "winreg".toList]) ∧
    (get_pipe_type pipename = INVALID_PIPE ↔
      pipename ∉ ["\\srvsvc".toList, "srvsvc".toList, "\\wkssvc".toList, "wkssvc".toList,
                  "\\winreg".toList, "winreg".toList]) ∧
    get_pipe_type pipename ≠ LANMAN ∧
    INVALID_PIPE = 4294967295 ∧
    get_pipe_type "\\SRVSVC".toList = INVALID_PIPE ∧
    get_pipe_type "Winreg".toList = INVALID_PIPE := by
  have h := get_pipe_type_loop_generic pipename "\\srvsvc".toList "srvsvc".toList
    "\\wkssvc".toList "wkssvc".toList "\\winreg".toList "winreg".toList (by decide)
  exact ⟨h.1, h.2.1, h.2.2.1, h.2.2.2, rfl, by decide, by decide⟩

/-! ## Veto files -/

/-- C14: `parse_veto_file` classifies a glob string `s` by its first two
characters.  For `*.` the filter is an extension filter whose pattern is
`s` without the star, with its full length (`*.tmp` gives `.tmp`, length
4); for a star followed by anything else it is a wildcard filter whose
pattern starts at `s[1]`; in every other case it is a filter of no type
whose pattern is `s` with its full length.  The function returns that
filter whenever `textsearch_prepare` accepts the pattern. -/
theorem parse_veto_file_classifies (env : kernel_env) (s : List Char) :
    (parse_veto_file env s =
      if textsearch_prepare_ok env (veto_filter s).pattern (veto_filter s).len then
        some (veto_filter s) else none) ∧
    (∀ rest, s = '*' :: '.' :: rest →
      veto_filter s = { type := filter_type.FILTER_FILE_EXTENSION, pattern := '.' :: rest,
                        len := (('.' :: rest).length : Int) }) ∧
    (∀ rest, s = '*' :: rest → rest.head? ≠ some '.' →
      (veto_filter s).type = filter_type.FILTER_WILDCARD ∧ (veto_filter s).pattern = rest) ∧
    (s.head? ≠ some '*' →
      veto_filter s = { type := filter_type.FILTER_NON_TYPE, pattern := s,
                        len := (s.length : Int) }) ∧
    veto_filter "*.tmp".toList =
      { type := filter_type.FILTER_FILE_EXTENSION, pattern := ".tmp".toList, len := 4 } := by
  refine ⟨rfl, ?_, ?_, ?_, by decide⟩
  · rintro rest rfl
    simp [veto_filter]
  · rintro rest rfl h
    simp [veto_filter, h]
  · intro h
    unfold veto_filter
    split
    · simp at h
    · rfl

theorem parse_veto_file_classifies_witness :
    veto_filter "*.doc".toList =
      { type := filter_type.FILTER_FILE_EXTENSION, pattern := ".doc".toList, len := 4 } ∧
    ((veto_filter "*tmp".toList).type = filter_type.FILTER_WILDCARD ∧
      (veto_filter "*tmp".toList).pattern = "tmp".toList) ∧
    veto_filter "core".toList =
      { type := filter_type.FILTER_NON_TYPE, pattern := "core".toList, len := 4 } :=
  ⟨(parse_veto_file_classifies env_ok "*.doc".toList).2.1 "doc".toList rfl,
   (parse_veto_file_classifies env_ok "*tmp".toList).2.2.1 "tmp".toList rfl (by decide),
   (parse_veto_file_classifies env_ok "core".toList).2.2.2.1 (by decide)⟩

/-- C11 (failing input): the blob
`sharename = foo<path = /a<veto files = bad` creates and links the share
`foo` and then fails on the `veto files` value: the call returns
`-EINVAL` and `foo` is still in the list and still counted.  The same
blob with a bad `available` value in place of the veto value is rolled
back. -/
theorem veto_error_skips_rollback :
    veto_fail_result.1 = some (-EINVAL) ∧
    veto_fail_result.2.cifsd_share_list = [1, 0] ∧
    veto_fail_result.2.cifsd_num_shares = 2 ∧
    booted_state.cifsd_share_list = [0] ∧
    booted_state.cifsd_num_shares = 1 ∧
    available_fail_result.1 = some (-EINVAL) ∧
    available_fail_result.2.cifsd_share_list = [0] ∧
    available_fail_result.2.cifsd_num_shares = 1 := by
  decide

/-! ## Entries of a blob -/

theorem strsep_all_ne_nil (sep : Char) (s : List Char) : strsep_all sep s ≠ [] := by
  cases s with
  | nil => simp [strsep_all]
  | cons c cs =>
    unfold strsep_all
    split
    · simp
    · split <;> simp

theorem strsep_all_append (sep : Char) (a b : List Char) :
    strsep_all sep (a ++ sep :: b) = strsep_all sep a ++ strsep_all sep b := by
  induction a with
  | nil => simp [strsep_all]
  | cons c cs ih =>
    by_cases hc : c = sep
    · simp [strsep_all, hc, ih]
    · simp only [List.cons_append, strsep_all, hc, if_false]
      have e : cs.append (sep :: b) = cs ++ sep :: b := rfl
      rw [e, ih]
      cases h : strsep_all sep cs with
      | nil => exact absurd h (strsep_all_ne_nil sep cs)
      | cons t ts => simp

theorem strsep_all_of_not_mem (sep : Char) (s : List Char) (h : sep ∉ s) :
    strsep_all sep s = [s] := by
  induction s with
  | nil => rfl
  | cons c cs ih =>
    have hc : c ≠ sep := fun e => h (by simp [e])
    have hcs : sep ∉ cs := fun e => h (List.mem_cons_of_mem _ e)
    simp [strsep_all, hc, ih hcs]

/-! ## Veto strings -/

theorem strsep_all_veto_of_globs (gs : List (List Char))
    (hg : ∀ g ∈ gs, '/' ∉ g) :
    strsep_all '/' (veto_of_globs gs) = [] :: (gs ++ [[]]) := by
  induction gs with
  | nil => rfl
  | cons g gs ih =>
    have h1 : '/' ∉ g := hg g (List.mem_cons_self _ _)
    have h2 := ih (fun x hx => hg x (List.mem_cons_of_mem _ hx))
    have h3 : strsep_all '/' (g ++ veto_of_globs gs) = g :: (gs ++ [[]]) := by
      cases hv : veto_of_globs gs with
      | nil => cases gs <;> simp [veto_of_globs] at hv
      | cons c rest =>
        have hc : c = '/' := by cases gs <;> simp [veto_of_globs] at hv <;> exact hv.1.symm
        subst hc
        rw [strsep_all_append, strsep_all_of_not_mem _ _ h1]
        have : strsep_all '/' rest = gs ++ [[]] := by
          rw [hv] at h2
          simpa [strsep_all] using h2
        rw [this]
        rfl
    simp [veto_of_globs, strsep_all, h3]

theorem add_filter_loop_all (env : kernel_env) (gs : List (List Char))
    (fl : List cifsd_filter)
    (hc : ∀ g ∈ gs, parse_veto_file env g = some (veto_filter g)) :
    add_filter_loop env (gs ++ [[]]) (some fl) =
      some (some ((gs.map veto_filter).reverse ++ fl)) := by
  induction gs generalizing fl with
  | nil =>
    simp [add_filter_loop, parse_veto_file, veto_filter, textsearch_prepare_ok]
  | cons g gs ih =>
    have h1 := hc g (List.mem_cons_self _ _)
    have h2 := ih (veto_filter g :: fl) (fun x hx => hc x (List.mem_cons_of_mem _ hx))
    simp only [List.cons_append, add_filter_loop, h1]
    simp only [List.map_cons, List.reverse_cons, List.append_assoc, List.singleton_append]
    exact h2

/-- C15: for a veto string `/g1/.../gn/` of `n >= 1` non-empty globs
without a slash, `varify_veto_file` returns 0 and, when
`textsearch_prepare` accepts the pattern of every glob, `add_filter_share`
puts exactly `n` new entries in front of the filter list of the share:
the filter of each `gi` (the last glob first), and nothing else.  For
`/*.tmp/` the one new entry is the extension filter for `.tmp`. -/
theorem add_filter_share_globs (env : kernel_env) (gs : List (List Char))
    (fl : List cifsd_filter)
    (hn : gs ≠ [])
    (hg : ∀ g ∈ gs, g ≠ [] ∧ '/' ∉ g)
    (hc : ∀ g ∈ gs, (parse_veto_file env g).isSome = true) :
    varify_veto_file (veto_of_globs gs) = 0 ∧
    add_filter_share env (some fl) (veto_of_globs gs) =
      some (some ((gs.map veto_filter).reverse ++ fl)) ∧
    ((gs.map veto_filter).reverse ++ fl).length = fl.length + gs.length ∧
    (gs = ["*.tmp".toList] →
      add_filter_share env (some fl) "/*.tmp/".toList =
        some (some ({ type := filter_type.FILTER_FILE_EXTENSION, pattern := ".tmp".toList,
                      len := 4 } :: fl))) := by
  have hc1 : ∀ g ∈ gs, parse_veto_file env g = some (veto_filter g) := by
    intro g hgm
    have := hc g hgm
    unfold parse_veto_file at this ⊢
    split
    · rfl
    · rename_i hneg
      simp [hneg] at this
  have hadd : add_filter_share env (some fl) (veto_of_globs gs) =
      some (some ((gs.map veto_filter).reverse ++ fl)) := by
    unfold add_filter_share
    rw [strsep_all_veto_of_globs gs (fun g h => (hg g h).2)]
    exact add_filter_loop_all env gs fl hc1
  refine ⟨?_, hadd, by simp [Nat.add_comm], ?_⟩
  · cases gs with
    | nil => exact absurd rfl hn
    | cons g rest =>
      have hmem : '/' ∈ g ++ veto_of_globs rest := by
        apply List.mem_append_right
        cases rest <;> simp [veto_of_globs]
      simp [veto_of_globs, varify_veto_file, hmem]
  · intro he
    subst he
    exact hadd

theorem add_filter_share_globs_witness :
    varify_veto_file "/*.tmp/core/".toList = 0 ∧
    add_filter_share env_ok (some []) "/*.tmp/core/".toList =
      some (some [veto_filter "core".toList, veto_filter "*.tmp".toList]) :=
  ⟨(add_filter_share_globs env_ok ["*.tmp".toList, "core".toList] [] (by decide)
      (by decide) (by decide)).1,
   (add_filter_share_globs env_ok ["*.tmp".toList, "core".toList] [] (by decide)
      (by decide) (by decide)).2.1⟩

/-! ## Entries that are no share option -/

theorem attr_option_not_global (c c1 : parse_ctx) (arg : List Char)
    (upd : Nat → share_attr → share_attr) :
    attr_option c arg upd ≠ step_result.global c1 := by
  unfold attr_option
  split
  · simp
  · dsimp only
    split <;> simp

theorem str_option_not_global (c c1 : parse_ctx) (arg : List Char)
    (upd : List Char → cifsd_share → cifsd_share) :
    str_option c arg upd ≠ step_result.global c1 := by
  unfold str_option
  split <;> simp

theorem share_option_global (env : kernel_env) (c c1 : parse_ctx) (data : List Char)
    (h : share_option env c data = step_result.global c1) : is_global_entry data = true := by
  unfold share_option at h
  unfold is_global_entry
  split at h
  all_goals first
    | exact absurd h (attr_option_not_global _ _ _ _)
    | exact absurd h (str_option_not_global _ _ _ _)
    | skip
  · rename_i string heq
    rw [heq]
    dsimp only
    split at h
    · assumption
    · simp at h
  · revert h
    split
    · simp
    · dsimp only
      split <;> simp
  · revert h
    split <;> simp
  · revert h
    split
    · simp
    · dsimp only
      split <;> simp
  · revert h
    split
    · simp
    · split <;> simp
  · simp at h

theorem share_option_unknown (env : kernel_env) (c : parse_ctx) (x : List Char)
    (hx : (match_token x share_token.Opt_share_err cifsd_share_tokens).1
      = share_token.Opt_share_err) :
    share_option env c x = step_result.next c := by
  unfold share_option
  split <;> rename_i heq <;> rw [heq] at hx <;> first | rfl | exact absurd hx (by simp)

theorem share_options_loop_insert (env : kernel_env) (pre post : List (List Char))
    (x : List Char) (c : parse_ctx)
    (hx : (match_token x share_token.Opt_share_err cifsd_share_tokens).1
      = share_token.Opt_share_err)
    (hpre : ∀ e ∈ pre, is_global_entry e = false) :
    share_options_loop env (pre ++ x :: post) c = share_options_loop env (pre ++ post) c := by
  induction pre generalizing c with
  | nil =>
    simp only [List.nil_append]
    rw [share_options_loop]
    split
    · rfl
    · rw [share_option_unknown env c x hx]
  | cons e pre ih =>
    have he := hpre e (List.mem_cons_self _ _)
    have ih1 := fun c => ih c (fun y hy => hpre y (List.mem_cons_of_mem _ hy))
    simp only [List.cons_append]
    rw [share_options_loop, share_options_loop]
    split
    · exact ih1 c
    · cases hs : share_option env c e with
      | next c1 => exact ih1 c1
      | config_err c1 => rfl
      | ret rc c1 => rfl
      | oops c1 => rfl
      | global c1 =>
        rw [share_option_global env c c1 e hs] at he
        exact Bool.noConfusion he

/-- C12 (as amended): take a config blob `a<b` and put an extra entry `x`
between the two parts, where `x` is not empty, has no `<`, matches none of
the share option patterns, and no entry of `a` is a `sharename = global`
entry.  When the blob with the extra entry is at most `PAGE_SIZE`
characters long, `cifsd_parse_share_options` returns the same value and
leaves the same state (share list, share objects, counters) for both. -/
theorem unknown_entry_skipped (env : kernel_env) (st : export_state)
    (a b x : List Char)
    (_hx1 : x ≠ [])
    (hx2 : '<' ∉ x)
    (hx3 : (match_token x share_token.Opt_share_err cifsd_share_tokens).1
      = share_token.Opt_share_err)
    (ha : ∀ e ∈ strsep_all '<' a, is_global_entry e = false)
    (hlen : (a ++ '<' :: (x ++ '<' :: b)).length ≤ PAGE_SIZE) :
    cifsd_parse_share_options env st (some (a ++ '<' :: (x ++ '<' :: b))) =
      cifsd_parse_share_options env st (some (a ++ '<' :: b)) := by
  have hlen2 : (a ++ '<' :: b).length ≤ PAGE_SIZE := by
    simp only [List.length_append, List.length_cons] at hlen ⊢
    omega
  simp only [cifsd_parse_share_options, List.take_of_length_le hlen,
    List.take_of_length_le hlen2]
  rw [strsep_all_append, strsep_all_append, strsep_all_append,
    strsep_all_of_not_mem _ _ hx2]
  exact share_options_loop_insert env _ _ x _ hx3 ha

theorem unknown_entry_skipped_witness :
    cifsd_parse_share_options env_ok booted_state
      (some "sharename = foo<color = red<path = /a<available = no".toList) =
    cifsd_parse_share_options env_ok booted_state
      (some "sharename = foo<path = /a<available = no".toList) :=
  unknown_entry_skipped env_ok booted_state "sharename = foo".toList
    "path = /a<available = no".toList "color = red".toList
    (by decide) (by decide) (by decide) (by decide) (by decide)
theorem match_one_head_ne (a b : Char) (t l : List Char) (h : a ≠ b) :
    match_one (a :: t) (b :: l) = none := by
  simp [match_one, h]

theorem match_token_x (t : List Char) :
    match_token ('x' :: t) share_token.Opt_share_err cifsd_share_tokens
      = (share_token.Opt_share_err, []) := by
  have h : ∀ (b : Char) (l : List Char), 'x' ≠ b → match_one ('x' :: t) (b :: l) = none :=
    fun b l hb => match_one_head_ne 'x' b t l hb
  simp only [cifsd_share_tokens, match_token]
  rw [show match_one ('x' :: t) "sharename = ".toList = none from h 's' _ (by decide),
    show match_one ('x' :: t) "available = ".toList = none from h 'a' _ (by decide),
    show match_one ('x' :: t) "browsable = ".toList = none from h 'b' _ (by decide),
    show match_one ('x' :: t) "writeable = ".toList = none from h 'w' _ (by decide),
    show match_one ('x' :: t) "guest ok = ".toList = none from h 'g' _ (by decide),
    show match_one ('x' :: t) "guest only = ".toList = none from h 'g' _ (by decide),
    show match_one ('x' :: t) "oplocks = ".toList = none from h 'o' _ (by decide),
    show match_one ('x' :: t) "max connections = ".toList = none from h 'm' _ (by decide),
    show match_one ('x' :: t) "comment = ".toList = none from h 'c' _ (by decide),
    show match_one ('x' :: t) "allow hosts = ".toList = none from h 'a' _ (by decide),
    show match_one ('x' :: t) "deny hosts = ".toList = none from h 'd' _ (by decide),
    show match_one ('x' :: t) "valid users = ".toList = none from h 'v' _ (by decide),
    show match_one ('x' :: t) "invalid users = ".toList = none from h 'i' _ (by decide),
    show match_one ('x' :: t) "path = ".toList = none from h 'p' _ (by decide),
    show match_one ('x' :: t) "read list = ".toList = none from h 'r' _ (by decide),
    show match_one ('x' :: t) "read only = ".toList = none from h 'r' _ (by decide),
    show match_one ('x' :: t) "write ok = ".toList = none from h 'w' _ (by decide),
    show match_one ('x' :: t) "write list = ".toList = none from h 'w' _ (by decide),
    show match_one ('x' :: t) "hosts allow = ".toList = none from h 'h' _ (by decide),
    show match_one ('x' :: t) "hosts deny = ".toList = none from h 'h' _ (by decide),
    show match_one ('x' :: t) "store dos attributes = ".toList = none from h 's' _ (by decide),
    show match_one ('x' :: t) "veto files = ".toList = none from h 'v' _ (by decide)]

theorem parse_page_blobs (env : kernel_env) (st : export_state) (pad : List Char)
    (hl : pad.length = 4070) (hx : ∀ c ∈ pad, c = 'x') :
    cifsd_parse_share_options env st
        (some ("sharename = foo<".toList ++ pad ++ "<path = /a".toList)) =
      cifsd_parse_share_options env st (some "sharename = foo<path = /a".toList) ∧
    cifsd_parse_share_options env st
        (some ("sharename = foo<zz<".toList ++ pad ++ "<path = /a".toList)) =
      cifsd_parse_share_options env st (some "sharename = foo".toList) := by
  have hlt : '<' ∉ pad := fun h => absurd (hx _ h) (by decide)
  obtain ⟨t, rfl⟩ : ∃ t, pad = 'x' :: t := by
    cases pad with
    | nil => simp at hl
    | cons c t => exact ⟨t, by rw [hx c (List.mem_cons_self _ _)]⟩
  have hpad := match_token_x t
  have hunk : (match_token ('x' :: t) share_token.Opt_share_err cifsd_share_tokens).1
      = share_token.Opt_share_err := by rw [hpad]
  have hg : ∀ e ∈ ["sharename = foo".toList], is_global_entry e = false := by decide
  have hsmall1 : strsep_all '<' (List.take PAGE_SIZE "sharename = foo<path = /a".toList)
      = ["sharename = foo".toList, "path = /a".toList] := by decide
  have hsmall2 : strsep_all '<' (List.take PAGE_SIZE "sharename = foo".toList)
      = ["sharename = foo".toList] := by decide
  constructor
  · have e1 : "sharename = foo<".toList ++ 'x' :: t ++ "<path = /a".toList =
        "sharename = foo".toList ++ '<' :: (('x' :: t) ++ '<' :: "path = /a".toList) := rfl
    have hlen : ("sharename = foo<".toList ++ 'x' :: t ++ "<path = /a".toList).length
        ≤ PAGE_SIZE := by
      simp only [List.length_append, hl]
      decide
    simp only [cifsd_parse_share_options, List.take_of_length_le hlen, hsmall1]
    rw [e1, strsep_all_append, strsep_all_append, strsep_all_of_not_mem _ _ hlt]
    exact share_options_loop_insert env ["sharename = foo".toList] _ ('x' :: t) _ hunk hg
  · have e2 : List.take PAGE_SIZE
          ("sharename = foo<zz<".toList ++ 'x' :: t ++ "<path = /a".toList) =
        "sharename = foo".toList ++ '<' ::
          ("zz".toList ++ '<' :: (('x' :: t) ++ '<' :: "path =".toList)) := by
      have : "sharename = foo<zz<".toList ++ 'x' :: t ++ "<path = /a".toList =
          ("sharename = foo<zz<".toList ++ 'x' :: t) ++ "<path = /a".toList := rfl
      rw [this, List.take_append_eq_append_take, List.take_of_length_le]
      · have h7 : PAGE_SIZE - ("sharename = foo<zz<".toList ++ 'x' :: t).length = 7 := by
          simp only [List.length_append, hl]
          decide
        rw [h7]
        rfl
      · simp only [List.length_append, hl]
        decide
    simp only [cifsd_parse_share_options, e2, hsmall2]
    rw [strsep_all_append, strsep_all_append, strsep_all_append,
      strsep_all_of_not_mem _ _ hlt,
      strsep_all_of_not_mem _ "zz".toList (by decide),
      strsep_all_of_not_mem _ "path =".toList (by decide),
      strsep_all_of_not_mem _ "sharename = foo".toList (by decide)]
    have s1 := share_options_loop_insert env ["sharename = foo".toList]
      [('x' :: t), "path =".toList] "zz".toList
      { st := st, share := none, new_share := 0, val := 0 } (by decide) hg
    have s2 := share_options_loop_insert env ["sharename = foo".toList]
      ["path =".toList] ('x' :: t)
      { st := st, share := none, new_share := 0, val := 0 } hunk hg
    have s3 := share_options_loop_insert env ["sharename = foo".toList]
      [] "path =".toList
      { st := st, share := none, new_share := 0, val := 0 } (by decide) hg
    exact s1.trans (s2.trans s3)

/-- C12 (counterexample): `page_blob` is `PAGE_SIZE` characters long and
ends with the `path` entry that links the new share.  With the entry `zz`
inserted after its first entry, the copy `kstrndup` makes ends in the
middle of that `path` entry: the share is no longer linked, so the share
list and the counter differ. -/
theorem unknown_entry_shifts_blob :
    page_blob = "sharename = foo".toList ++
      '<' :: (List.replicate 4070 'x' ++ "<path = /a".toList) ∧
    page_blob_plus = "sharename = foo".toList ++
      '<' :: ("zz".toList ++ '<' :: (List.replicate 4070 'x' ++ "<path = /a".toList)) ∧
    page_blob.length = PAGE_SIZE ∧
    (cifsd_parse_share_options env_ok booted_state (some page_blob)).1 = some 0 ∧
    (cifsd_parse_share_options env_ok booted_state (some page_blob)).2.cifsd_share_list
      = [1, 0] ∧
    (cifsd_parse_share_options env_ok booted_state (some page_blob)).2.cifsd_num_shares = 2 ∧
    (cifsd_parse_share_options env_ok booted_state (some page_blob_plus)).1 = some 0 ∧
    (cifsd_parse_share_options env_ok booted_state (some page_blob_plus)).2.cifsd_share_list
      = [0] ∧
    (cifsd_parse_share_options env_ok booted_state (some page_blob_plus)).2.cifsd_num_shares
      = 1 := by
  have h := parse_page_blobs env_ok booted_state (List.replicate 4070 'x')
    (List.length_replicate _ _) (fun c hc => List.eq_of_mem_replicate hc)
  have hlen : page_blob.length = PAGE_SIZE := by
    simp only [page_blob, List.length_append, List.length_replicate]
    decide
  refine ⟨rfl, rfl, hlen, ?_⟩
  unfold page_blob page_blob_plus
  rw [h.1, h.2]
  exact ⟨by decide, by decide, by decide, by decide, by decide, by decide⟩

/-! ## Option values -/

theorem toNat_ofNat_small (n : Nat) (h : n < 55296) : (Char.ofNat n).toNat = n := by
  have hv : n.isValidChar := Or.inl h
  simp only [Char.ofNat, hv, dite_true]
  simp only [Char.ofNatAux, Char.toNat]
  have : n < UInt32.size := by
    simp only [UInt32.size]
    omega
  simp [UInt32.toNat, Nat.mod_eq_of_lt this]

theorem tolower_eq_ascii_lower (l : Char) (h : l.toNat < 128) : tolower l = ascii_lower l := by
  unfold tolower ascii_lower isupper
  by_cases hu : 65 ≤ l.toNat ∧ l.toNat ≤ 90
  · have : ((decide (65 ≤ l.toNat) && decide (l.toNat ≤ 90)) ||
        (decide (192 ≤ l.toNat) && decide (l.toNat ≤ 222) && l.toNat != 215)) = true := by
      simp [hu.1, hu.2]
    rw [if_pos this, if_pos hu]
  · have : ¬ ((decide (65 ≤ l.toNat) && decide (l.toNat ≤ 90)) ||
        (decide (192 ≤ l.toNat) && decide (l.toNat ≤ 222) && l.toNat != 215)) = true := by
      simp only [Bool.or_eq_true, Bool.and_eq_true, decide_eq_true_eq, not_or]
      constructor
      · exact hu
      · intro h2
        omega
    rw [if_neg this, if_neg hu]

theorem ascii_lower_toNat_lt (l : Char) (h : l.toNat < 128) : (ascii_lower l).toNat < 128 := by
  unfold ascii_lower
  split
  · rename_i hu
    rw [toNat_ofNat_small _ (by omega)]
    omega
  · exact h

theorem ascii_lower_eq_of_tolower_eq (c l : Char) (hl : l.toNat < 128)
    (h : tolower c = tolower l) : ascii_lower c = ascii_lower l := by
  rw [tolower_eq_ascii_lower l hl] at h
  have hlt := ascii_lower_toNat_lt l hl
  by_cases hc : c.toNat < 128
  · rw [← tolower_eq_ascii_lower c hc]
    exact h
  · have hca : ascii_lower c = c := by
      unfold ascii_lower
      rw [if_neg (by omega)]
    rw [hca]
    by_cases hu : isupper c = true
    · exfalso
      have h1 : tolower c = Char.ofNat (c.toNat + 32) := by
        unfold tolower
        rw [if_pos hu]
      have h2 : c.toNat ≤ 222 := by
        simp only [isupper, Bool.or_eq_true, Bool.and_eq_true, decide_eq_true_eq] at hu
        omega
      have h3 : (tolower c).toNat = c.toNat + 32 := by
        rw [h1, toNat_ofNat_small _ (by omega)]
      rw [h] at h3
      omega
    · have h1 : tolower c = c := by
        unfold tolower
        rw [if_neg hu]
      rw [← h1]
      exact h

theorem strcasecmp_ascii_iff (s lit : List Char)
    (hs : ∀ c ∈ s, c.toNat ≠ 0)
    (hl : ∀ c ∈ lit, c.toNat ≠ 0 ∧ c.toNat < 128) :
    decide (strcasecmp s lit = 0) = eq_ignoring_case s lit := by
  have hiff : strcasecmp s lit = 0 ↔ s.map ascii_lower = lit.map ascii_lower := by
    constructor
    · intro h
      have hm := map_of_strcasecmp_eq_zero s lit hs (fun c hc => (hl c hc).1) h
      clear h hs
      induction s generalizing lit with
      | nil =>
        cases lit with
        | nil => rfl
        | cons y ys => simp at hm
      | cons x xs ih =>
        cases lit with
        | nil => simp at hm
        | cons y ys =>
          simp only [List.map_cons, List.cons.injEq] at hm ⊢
          exact ⟨ascii_lower_eq_of_tolower_eq x y (hl y (List.mem_cons_self _ _)).2 hm.1,
            ih ys (fun c hc => hl c (List.mem_cons_of_mem _ hc)) hm.2⟩
    · exact strcasecmp_ascii s lit
  unfold eq_ignoring_case
  by_cases h : strcasecmp s lit = 0
  · simp [h, hiff.1 h]
  · have : ¬ s.map ascii_lower = lit.map ascii_lower := fun e => h (hiff.2 e)
    simp [h, this]

theorem strcmp_beq (s lit : List Char) : decide (strcmp s lit = 0) = (s == lit) := by
  by_cases h : s = lit
  · simp [h, (strcmp_eq_zero_iff lit lit).2 rfl]
  · have : ¬ strcmp s lit = 0 := fun e => h ((strcmp_eq_zero_iff s lit).1 e)
    simp [h, this]

/-- C13: `cifsd_get_config_val` maps the option string, compared ignoring
case, as the spec says: yes, true, enable and `Bad User` give `ENABLE`;
no, false, disable and `Never` give `DISABLE`; auto gives `AUTO`;
mandatory gives `MANDATORY`; the exact strings `1` and `0` give `ENABLE`
and `DISABLE`; each of these returns 0.  Every other string returns
`-EINVAL` and leaves `*val` as it was.  (A C string holds no NUL.) -/
theorem cifsd_get_config_val_spec (str : List Char) (val : Nat)
    (hs : ∀ c ∈ str, c.toNat ≠ 0) :
    cifsd_get_config_val str val =
      match config_val_spec str with
      | some v => (0, v)
      | none => (-EINVAL, val) := by
  have e := fun (lit : List Char) (hl : ∀ c ∈ lit, c.toNat ≠ 0 ∧ c.toNat < 128) =>
    strcasecmp_ascii_iff str lit hs hl
  unfold cifsd_get_config_val config_val_spec
  rw [e "yes".toList (by decide), e "true".toList (by decide), e "enable".toList (by decide),
    e "Bad User".toList (by decide), e "no".toList (by decide), e "false".toList (by decide),
    e "disable".toList (by decide), e "Never".toList (by decide), strcmp_beq, strcmp_beq]
  have ea : strcasecmp str "auto".toList = 0 ↔ eq_ignoring_case str "auto".toList = true := by
    rw [← e "auto".toList (by decide), decide_eq_true_eq]
  have em : strcasecmp str "mandatory".toList = 0 ↔
      eq_ignoring_case str "mandatory".toList = true := by
    rw [← e "mandatory".toList (by decide), decide_eq_true_eq]
  simp only [ea, em]
  split_ifs <;> rfl

theorem cifsd_get_config_val_spec_witness :
    cifsd_get_config_val "bad user".toList 7 = (0, ENABLE) ∧
    cifsd_get_config_val "NEVER".toList 7 = (0, DISABLE) ∧
    cifsd_get_config_val "Auto".toList 7 = (0, AUTO) ∧
    cifsd_get_config_val "mandatory".toList 7 = (0, MANDATORY) ∧
    cifsd_get_config_val "1".toList 7 = (0, ENABLE) ∧
    cifsd_get_config_val "01".toList 7 = (-EINVAL, 7) :=
  ⟨cifsd_get_config_val_spec "bad user".toList 7 (by decide),
   cifsd_get_config_val_spec "NEVER".toList 7 (by decide),
   cifsd_get_config_val_spec "Auto".toList 7 (by decide),
   cifsd_get_config_val_spec "mandatory".toList 7 (by decide),
   cifsd_get_config_val_spec "1".toList 7 (by decide),
   cifsd_get_config_val_spec "01".toList 7 (by decide)⟩

/-! ## Response buffers -/

/-- C17: `cifsd_realloc_response(ptr, old_sz, new_sz)` on a live buffer
of at least `old_sz` bytes.  When the allocation succeeds, the buffer
returned has `new_sz` bytes, its first `min(old_sz, new_sz)` bytes are
those of the old buffer and all the others are zero.  When the allocation
fails, the pointer returned is `ptr` and the memory is as before. -/
theorem cifsd_realloc_response_spec (env : alloc_env) (m : buffer_mem)
    (ptr old_sz new_sz : Nat) (old : List Nat)
    (hold : m.bufs[ptr]? = some (some old)) (hsz : old_sz ≤ old.length) :
    ((cifsd_alloc_response env m new_sz).1 ≠ none →
      (buf_bytes (cifsd_realloc_response env m ptr old_sz new_sz).2
          (cifsd_realloc_response env m ptr old_sz new_sz).1).length = new_sz ∧
      (buf_bytes (cifsd_realloc_response env m ptr old_sz new_sz).2
          (cifsd_realloc_response env m ptr old_sz new_sz).1).take (min old_sz new_sz)
        = old.take (min old_sz new_sz) ∧
      (buf_bytes (cifsd_realloc_response env m ptr old_sz new_sz).2
          (cifsd_realloc_response env m ptr old_sz new_sz).1).drop (min old_sz new_sz)
        = List.replicate (new_sz - min old_sz new_sz) 0 ∧
      (cifsd_realloc_response env m ptr old_sz new_sz).1 ≠ ptr) ∧
    ((cifsd_alloc_response env m new_sz).1 = none →
      cifsd_realloc_response env m ptr old_sz new_sz = (ptr, m)) := by
  have hlt : ptr < m.bufs.length := by
    rcases Nat.lt_or_ge ptr m.bufs.length with h | h
    · exact h
    · rw [List.getElem?_eq_none h] at hold
      exact Option.noConfusion hold
  have hnew : ∀ (h : (cifsd_alloc_response env m new_sz).1 ≠ none),
      cifsd_alloc_response env m new_sz = new_zeroed m new_sz := by
    intro h
    unfold cifsd_alloc_response __alloc at h ⊢
    split_ifs at h ⊢ <;> first | rfl | exact absurd rfl h
  constructor
  · intro h
    have hr : cifsd_realloc_response env m ptr old_sz new_sz =
        (m.bufs.length,
          __free (memcpy { bufs := m.bufs ++ [some (List.replicate new_sz 0)] }
            m.bufs.length ptr (min old_sz new_sz)) ptr) := by
      simp only [cifsd_realloc_response, hnew h, new_zeroed]
    have hne : m.bufs.length ≠ ptr := by omega
    have hsrc : buf_bytes { bufs := m.bufs ++ [some (List.replicate new_sz 0)] } ptr = old := by
      simp only [buf_bytes, List.getD_eq_getElem?_getD, List.getElem?_append_left hlt, hold]
      rfl
    have hdst : buf_bytes { bufs := m.bufs ++ [some (List.replicate new_sz 0)] } m.bufs.length
        = List.replicate new_sz 0 := by
      simp [buf_bytes, List.getD_eq_getElem?_getD]
    have hres : buf_bytes (__free (memcpy { bufs := m.bufs ++ [some (List.replicate new_sz 0)] }
          m.bufs.length ptr (min old_sz new_sz)) ptr) m.bufs.length
        = old.take (min old_sz new_sz) ++ List.replicate (new_sz - min old_sz new_sz) 0 := by
      simp only [__free, memcpy, hsrc, hdst]
      simp only [buf_bytes, List.getD_eq_getElem?_getD]
      rw [List.getElem?_set_ne (Ne.symm hne), List.getElem?_set_self (by simp)]
      simp
    have hmin : min old_sz new_sz ≤ old.length := by omega
    rw [hr]
    simp only [hres]
    refine ⟨?_, ?_, ?_, hne⟩
    · simp only [List.length_append, List.length_take, List.length_replicate]
      omega
    · rw [List.take_append_of_le_length (by simp; omega)]
      simp
    · rw [List.drop_append_of_le_length (by simp; omega)]
      simp [List.drop_take]
  · intro h
    simp only [cifsd_realloc_response, cifsd_alloc_response] at h ⊢
    rcases hx : __alloc env m new_sz with ⟨a, b⟩
    rw [hx] at h
    simp only at h
    subst h
    rfl

theorem cifsd_realloc_response_spec_witness :
    ((buf_bytes (cifsd_realloc_response { kmalloc_ok := true, vmalloc_ok := false }
          one_buffer 0 4 8).2
        (cifsd_realloc_response { kmalloc_ok := true, vmalloc_ok := false }
          one_buffer 0 4 8).1).length = 8 ∧
      (buf_bytes (cifsd_realloc_response { kmalloc_ok := true, vmalloc_ok := false }
          one_buffer 0 4 8).2
        (cifsd_realloc_response { kmalloc_ok := true, vmalloc_ok := false }
          one_buffer 0 4 8).1).take (min 4 8) = [1, 2, 3, 4, 5, 6].take (min 4 8) ∧
      (buf_bytes (cifsd_realloc_response { kmalloc_ok := true, vmalloc_ok := false }
          one_buffer 0 4 8).2
        (cifsd_realloc_response { kmalloc_ok := true, vmalloc_ok := false }
          one_buffer 0 4 8).1).drop (min 4 8) = List.replicate (8 - min 4 8) 0 ∧
      (cifsd_realloc_response { kmalloc_ok := true, vmalloc_ok := false }
          one_buffer 0 4 8).1 ≠ 0) ∧
    cifsd_realloc_response { kmalloc_ok := false, vmalloc_ok := true } one_buffer 0 4 8
      = (0, one_buffer) :=
  ⟨(cifsd_realloc_response_spec { kmalloc_ok := true, vmalloc_ok := false }
      one_buffer 0 4 8 [1, 2, 3, 4, 5, 6] rfl (by decide)).1 (by decide),
   (cifsd_realloc_response_spec { kmalloc_ok := false, vmalloc_ok := true }
      one_buffer 0 4 8 [1, 2, 3, 4, 5, 6] rfl (by decide)).2 (by decide)⟩

/-! ## The IPC bridge -/

/-- C18 (failing input): a login request of handle 7 waits and a message
of type `CIFSD_EVENT_TREE_CONNECT_RESPONSE` with handle 7 arrives.  The
mismatch is logged, and the payload is copied into the response slot of
the entry and the waiter is woken all the same; the call returns 0. -/
theorem mismatched_response_delivered :
    CIFSD_EVENT_LOGIN_REQUEST + 1 ≠ CIFSD_EVENT_TREE_CONNECT_RESPONSE ∧
    CIFSD_IPC_MSG_HANDLE [7, 0, 0, 0, 200, 201] = 7 ∧
    handle_response true login_waiting CIFSD_EVENT_TREE_CONNECT_RESPONSE
        [7, 0, 0, 0, 200, 201] 6 =
      { ret := 0, mismatch_logged := true,
        table := [{ handle := 7, type := CIFSD_EVENT_LOGIN_REQUEST,
                    response := some [7, 0, 0, 0, 200, 201], wake_ups := 1 }] } := by
  decide

theorem handle_response_loop_hit (alloc_ok : Bool) (type : Nat) (payload : List Nat)
    (sz : Nat) (pre post : List ipc_msg_table_entry) (e : ipc_msg_table_entry)
    (hpre : ∀ x ∈ pre, x.handle ≠ CIFSD_IPC_MSG_HANDLE payload)
    (he : e.handle = CIFSD_IPC_MSG_HANDLE payload) :
    (handle_response_loop alloc_ok type payload sz (pre ++ e :: post)).table =
      pre ++ (if alloc_ok then
                { e with response := some (payload.take sz), wake_ups := e.wake_ups + 1 }
              else { e with response := none }) :: post := by
  induction pre with
  | nil =>
    simp only [List.nil_append, handle_response_loop, he, ne_eq, not_true_eq_false, if_false]
    cases alloc_ok <;> rfl
  | cons x xs ih =>
    have hx : CIFSD_IPC_MSG_HANDLE payload ≠ x.handle :=
      fun h => hpre x (List.mem_cons_self _ _) h.symm
    simp only [List.cons_append, handle_response_loop, hx, ne_eq, not_false_eq_true, if_true]
    have e1 : xs.append (e :: post) = xs ++ e :: post := rfl
    rw [e1, ih (fun y hy => hpre y (List.mem_cons_of_mem _ hy))]

/-- C19 (as amended): an entry waits in the table, no entry before it has
its handle, and two responses that carry its handle are handled one after
the other.  When `cifsd_alloc` succeeds for the second response, the
response slot of the entry holds a copy of the second payload and the
waiter has been woken once more; when it fails, the slot is NULL.  The
copy of the first payload is in the slot in neither case unless the
payloads are equal, and the other entries are as they were. -/
theorem later_response_replaces (ok1 ok2 : Bool) (type1 type2 : Nat)
    (p1 p2 : List Nat) (pre post : List ipc_msg_table_entry) (e : ipc_msg_table_entry)
    (hpre : ∀ x ∈ pre, x.handle ≠ e.handle)
    (h1 : CIFSD_IPC_MSG_HANDLE p1 = e.handle)
    (h2 : CIFSD_IPC_MSG_HANDLE p2 = e.handle) :
    (handle_response ok2
        (handle_response ok1 (pre ++ e :: post) type1 p1 p1.length).table
        type2 p2 p2.length).table =
      pre ++ (if ok2 then
                { e with response := some p2,
                         wake_ups := e.wake_ups + (if ok1 then 1 else 0) + 1 }
              else
                { e with response := none,
                         wake_ups := e.wake_ups + (if ok1 then 1 else 0) }) :: post := by
  unfold handle_response
  rw [handle_response_loop_hit ok1 type1 p1 p1.length pre post e
    (fun x hx => by rw [h1]; exact hpre x hx) h1.symm]
  rw [handle_response_loop_hit ok2 type2 p2 p2.length pre post _
    (fun x hx => by rw [h2]; exact hpre x hx) (by cases ok1 <;> exact h2.symm)]
  cases ok1 <;> cases ok2 <;> simp

theorem later_response_replaces_witness :
    (handle_response true
        (handle_response true login_waiting CIFSD_EVENT_LOGIN_RESPONSE
          [7, 0, 0, 0, 1] 5).table
        CIFSD_EVENT_LOGIN_RESPONSE [7, 0, 0, 0, 2] 5).table =
      [{ handle := 7, type := CIFSD_EVENT_LOGIN_REQUEST, response := some [7, 0, 0, 0, 2],
         wake_ups := 2 }] :=
  later_response_replaces true true CIFSD_EVENT_LOGIN_RESPONSE CIFSD_EVENT_LOGIN_RESPONSE
    [7, 0, 0, 0, 1] [7, 0, 0, 0, 2] [] []
    { handle := 7, type := CIFSD_EVENT_LOGIN_REQUEST, response := none, wake_ups := 0 }
    (by decide) (by decide) (by decide)

/-- C19 (counterexample): two login responses with handle 7 and the
payloads `.. 1` and `.. 2` arrive for the waiting request.  After both,
the response slot holds the second payload, not the first. -/
theorem first_response_lost :
    (handle_response true login_waiting CIFSD_EVENT_LOGIN_RESPONSE
        [7, 0, 0, 0, 1] 5).table =
      [{ handle := 7, type := CIFSD_EVENT_LOGIN_REQUEST, response := some [7, 0, 0, 0, 1],
         wake_ups := 1 }] ∧
    (handle_response true
        (handle_response true login_waiting CIFSD_EVENT_LOGIN_RESPONSE
          [7, 0, 0, 0, 1] 5).table
        CIFSD_EVENT_LOGIN_RESPONSE [7, 0, 0, 0, 2] 5).table =
      [{ handle := 7, type := CIFSD_EVENT_LOGIN_REQUEST, response := some [7, 0, 0, 0, 2],
         wake_ups := 2 }] := by
  decide

theorem release_after_acquire (pick : Int) (ida : List Nat) :
    ipc_msg_handle_free (cifds_acquire_id pick ida).2 (cifds_acquire_id pick ida).1 = ida := by
  unfold cifds_acquire_id
  split
  · rename_i h
    simp only [ipc_msg_handle_free]
    rw [if_neg (by omega)]
  · split
    · rename_i h0 h
      obtain ⟨hp, _, hfresh⟩ := h
      have hpos : pick ≥ 0 := by omega
      simp only [ipc_msg_handle_free, hpos, if_true, cifds_release_id]
      have hcast : ((pick.toNat : Nat) : Int) = pick := Int.toNat_of_nonneg hpos
      rw [List.filter_cons]
      simp only [hcast, bne_self_eq_false, Bool.false_eq_true, if_false]
      rw [List.filter_eq_self]
      intro x hx
      simp only [bne_iff_ne, ne_eq]
      intro hxe
      apply hfresh
      have : x = pick.toNat := by omega
      rw [← this]
      exact hx
    · simp only [ipc_msg_handle_free, cifds_release_id]
      have : ¬ (-ENOMEM ≥ 0) := by decide
      rw [if_neg this]

theorem send_request_silent (st : ipc_state) (type : Nat) (handle : Int) (env : send_env)
    (arrivals : List ipc_arrival)
    (h : arrivals = [] ∨ ipc_msg_send st.cifsd_tools_pid env ≠ 0) :
    ipc_msg_send_request st type handle env arrivals = (none, st) := by
  unfold ipc_msg_send_request
  split
  · rfl
  · rcases h with h0 | h0
    · subst h0
      simp only [ipc_wait, ite_self, List.head?_cons, Option.bind_some, List.tail_cons]
      cases st
      rfl
    · dsimp only
      rw [if_pos h0]
      simp only [List.head?_cons, Option.bind_some, List.tail_cons]
      cases st
      rfl

/-- C20: for every account name `cifsd_ipc_login_request` returns NULL,
and leaves the correlation table, the set of outstanding ids and the
daemon registration as they were, when the daemon stays silent (no
message arrives during the wait), when `ipc_msg_send` fails, and when no
daemon is registered. -/
theorem login_request_frame (st : ipc_state) (account : List Char) (env : request_env)
    (h : env.arrivals = [] ∨ ipc_msg_send st.cifsd_tools_pid env.send ≠ 0 ∨
      st.cifsd_tools_pid = 0) :
    cifsd_ipc_login_request st account env = (none, st) := by
  have hsend : env.arrivals = [] ∨ ipc_msg_send st.cifsd_tools_pid env.send ≠ 0 := by
    rcases h with h | h | h
    · exact Or.inl h
    · exact Or.inr h
    · right
      simp [ipc_msg_send, h, EINVAL]
  unfold cifsd_ipc_login_request
  split
  · rfl
  · have hrel := release_after_acquire env.pick st.ida
    have hreq := send_request_silent { st with ida := (cifds_acquire_id env.pick st.ida).2 }
      CIFSD_EVENT_LOGIN_REQUEST (cifds_acquire_id env.pick st.ida).1 env.send env.arrivals hsend
    simp only [hreq, hrel]

theorem login_request_frame_witness :
    cifsd_ipc_login_request busy_ipc_state "alice".toList
        { msg_alloc_ok := true, pick := 5, send := send_ok, arrivals := [] }
      = (none, busy_ipc_state) ∧
    cifsd_ipc_login_request { busy_ipc_state with cifsd_tools_pid := 0 } "alice".toList
        { msg_alloc_ok := true, pick := 5, send := send_ok,
          arrivals := [{ type := CIFSD_EVENT_LOGIN_RESPONSE, payload := [5, 0, 0, 0],
                         alloc_ok := true }] }
      = (none, { busy_ipc_state with cifsd_tools_pid := 0 }) :=
  ⟨login_request_frame busy_ipc_state "alice".toList
      { msg_alloc_ok := true, pick := 5, send := send_ok, arrivals := [] } (Or.inl rfl),
   login_request_frame { busy_ipc_state with cifsd_tools_pid := 0 } "alice".toList
      { msg_alloc_ok := true, pick := 5, send := send_ok,
        arrivals := [{ type := CIFSD_EVENT_LOGIN_RESPONSE, payload := [5, 0, 0, 0],
                       alloc_ok := true }] } (Or.inr (Or.inr rfl))⟩

/-! ## Daemon registration -/

theorem heartbeat_keeps_pid (st : ipc_state) (env : request_env) :
    (cifsd_ipc_heartbeat_request st env).2.cifsd_tools_pid = st.cifsd_tools_pid := by
  unfold cifsd_ipc_heartbeat_request ipc_msg_send_request
  split
  · rfl
  · dsimp only
    split <;> rfl

/-- C21: `handle_startup_event` on a well-versioned STARTING_UP message
while a daemon is registered (`cifsd_tools_pid` is not 0).  When the
heartbeat request returns a response, the event is rejected with
`-EINVAL` and `cifsd_tools_pid` keeps its value; when the heartbeat
request returns NULL, `cifsd_tools_pid` becomes the port id of the sender
and the event returns 0. -/
theorem handle_startup_event_registered (st : ipc_state) (info : genl_info)
    (env : startup_env)
    (hv : info.version_ok = true) (ha : info.has_attr = true)
    (hp : st.cifsd_tools_pid ≠ 0) :
    ((cifsd_ipc_heartbeat_request st env.heartbeat).1 ≠ none →
      (handle_startup_event st info env).ret = -EINVAL ∧
      (handle_startup_event st info env).st.cifsd_tools_pid = st.cifsd_tools_pid) ∧
    ((cifsd_ipc_heartbeat_request st env.heartbeat).1 = none →
      (handle_startup_event st info env).ret = 0 ∧
      (handle_startup_event st info env).st.cifsd_tools_pid = info.snd_portid) := by
  have hk := heartbeat_keeps_pid st env.heartbeat
  unfold handle_startup_event
  simp only [hv, ha, Bool.not_true, Bool.false_eq_true, if_false, hp, ne_eq,
    not_false_eq_true, if_true]
  cases hr : (cifsd_ipc_heartbeat_request st env.heartbeat).1 with
  | none => simp
  | some resp => simp [hk]

theorem handle_startup_event_registered_witness :
    ((handle_startup_event busy_ipc_state startup_from_777
        { heartbeat := heartbeat_answered, conf_ret := 0 }).ret = -EINVAL ∧
      (handle_startup_event busy_ipc_state startup_from_777
        { heartbeat := heartbeat_answered, conf_ret := 0 }).st.cifsd_tools_pid
        = busy_ipc_state.cifsd_tools_pid) ∧
    ((handle_startup_event busy_ipc_state startup_from_777
        { heartbeat := heartbeat_silent, conf_ret := 0 }).ret = 0 ∧
      (handle_startup_event busy_ipc_state startup_from_777
        { heartbeat := heartbeat_silent, conf_ret := 0 }).st.cifsd_tools_pid
        = startup_from_777.snd_portid) :=
  ⟨(handle_startup_event_registered busy_ipc_state startup_from_777
      { heartbeat := heartbeat_answered, conf_ret := 0 } rfl rfl (by decide)).1 (by decide),
   (handle_startup_event_registered busy_ipc_state startup_from_777
      { heartbeat := heartbeat_silent, conf_ret := 0 } rfl rfl (by decide)).2 (by decide)⟩

/-! ## More divergences between the code and its contract -/

/-- C26 (failing input): `conflist_search("alice,bob", "alice")` returns
0 and leaves the list cut down to `alice`: the NUL written over the comma
is not taken back.  The search for `bob`, which ends at the tail of the
list, and a search that finds nothing leave the list as it was. -/
theorem conflist_search_cuts_list :
    conflist_search "alice,bob".toList "alice".toList = (0, "alice".toList) ∧
    conflist_search "alice,bob".toList "bob".toList = (0, "alice,bob".toList) ∧
    conflist_search "alice,bob".toList "carol".toList = (-ENOENT, "alice,bob".toList) := by
  decide

/-- C28 (failing input): the blob
`sharename = foo<sharename = IPC$<available = bogus` fails, and the IPC$
share, which was in the list before the call, is no longer in it
afterwards; the counter has gone from 1 to 0. -/
theorem rollback_removes_old_share :
    booted_state.cifsd_share_list = [0] ∧
    booted_state.cifsd_num_shares = 1 ∧
    stale_flag_result.1 = some (-EINVAL) ∧
    stale_flag_result.2.cifsd_share_list = [] ∧
    stale_flag_result.2.cifsd_num_shares = 0 := by
  decide

/-- C29 (failing input): for the glob `*` the pattern `parse_veto_file`
passes is the empty string and the length it passes is -1. -/
theorem veto_star_length_negative :
    (veto_filter "*".toList).type = filter_type.FILTER_WILDCARD ∧
    (veto_filter "*".toList).pattern = [] ∧
    (veto_filter "*".toList).len = -1 ∧
    varify_veto_file "/*/".toList = 0 ∧
    (strsep_all '/' "/*/".toList).tail = ["*".toList, []] := by
  decide

/-- C30 (failing input): every socket call succeeds, `kthread_run` fails
with `-ENOMEM` and the shutdown of the socket returns 0:
`cifsd_start_forker_thread` has failed and `cifsd_create_socket` returns
0. -/
theorem create_socket_hides_failure :
    cifsd_start_forker_thread forker_fails = -ENOMEM ∧
    cifsd_create_socket forker_fails = 0 ∧
    cifsd_create_socket { forker_fails with kthread_run_err := none, kmalloc_ok := false } = 0 ∧
    cifsd_create_socket { forker_fails with kthread_run_err := none, bind_ret := -98 } = 0 := by
  decide

/-! ## Reading from the socket -/

theorem to_int_of_le (n : Nat) (h : n ≤ 2147483647) : to_int n = (n : Int) := by
  unfold to_int
  have h1 : n % 4294967296 = n := Nat.mod_eq_of_lt (by omega)
  rw [h1, if_pos (by omega)]

theorem to_size_t_of_nonneg (i : Int) (h0 : 0 ≤ i) (h1 : i < 18446744073709551616) :
    to_size_t i = i.toNat := by
  unfold to_size_t
  rw [Int.emod_eq_of_lt h0 h1]

theorem to_int_to_size_t (i : Int) (h0 : 0 ≤ i) (h1 : i ≤ 2147483647) :
    to_int (to_size_t i) = i := by
  rw [to_size_t_of_nonneg i h0 (by omega), to_int_of_le _ (by omega)]
  exact Int.toNat_of_nonneg h0

/-- C22: with the SMB2 server built in, `conn_unresponsive(conn)` is true
exactly when `open_files_count` is not positive and `jiffies` is after
`last_active + 2 * SMB_ECHO_INTERVAL` (in the sense of `time_after`,
which is the plain order of the two times as long as neither has passed
half of the range of `unsigned long`).  When it is true in the first
round, `cifsd_readv_from_socket` called with `to_read > 0` (and an iovec
from `get_conn_iovec`) returns `-EAGAIN` and has not called
`kernel_recvmsg`. -/
theorem conn_unresponsive_spec (cfg : read_config) (conn : connection)
    (hsmb : cfg.smb2_server = true) :
    (∀ jiffies, conn_unresponsive cfg conn jiffies = true ↔
      (¬ conn.open_files_count > 0 ∧
        time_after jiffies
          ((conn.last_active + 2 * cfg.echo_interval) % 18446744073709551616) = true)) ∧
    (∀ jiffies, jiffies < 9223372036854775808 →
      conn.last_active + 2 * cfg.echo_interval < 9223372036854775808 →
      (time_after jiffies
          ((conn.last_active + 2 * cfg.echo_interval) % 18446744073709551616) = true ↔
        conn.last_active + 2 * cfg.echo_interval < jiffies)) ∧
    (∀ (kmalloc_ok : Bool) (iov_orig : List kvec) (nr_segs to_read : Nat)
        (s : read_step) (rest : List read_step),
      0 < to_read → (get_conn_iovec conn nr_segs kmalloc_ok).1 = true →
      conn_unresponsive cfg conn s.jiffies = true →
      cifsd_readv_from_socket cfg conn kmalloc_ok iov_orig nr_segs to_read (s :: rest) =
        { outcome := read_outcome.returned (-EAGAIN), recv_calls := 0 }) := by
  refine ⟨?_, ?_, ?_⟩
  · intro jiffies
    unfold conn_unresponsive
    by_cases h : conn.open_files_count > 0
    · simp [h]
    · simp [h, hsmb]
  · intro jiffies hj hl
    unfold time_after
    rw [Nat.mod_eq_of_lt (a := conn.last_active + 2 * cfg.echo_interval) (by omega),
      Nat.mod_eq_of_lt (a := conn.last_active + 2 * cfg.echo_interval) (by omega),
      Nat.mod_eq_of_lt (a := jiffies) (by omega)]
    simp only [decide_eq_true_eq]
    constructor
    · intro h
      by_contra hc
      have hge : jiffies ≤ conn.last_active + 2 * cfg.echo_interval := by omega
      have : (conn.last_active + 2 * cfg.echo_interval + 18446744073709551616 - jiffies)
          % 18446744073709551616 = conn.last_active + 2 * cfg.echo_interval - jiffies := by
        rw [show conn.last_active + 2 * cfg.echo_interval + 18446744073709551616 - jiffies
            = (conn.last_active + 2 * cfg.echo_interval - jiffies) + 18446744073709551616
            from by omega]
        rw [Nat.add_mod_right]
        exact Nat.mod_eq_of_lt (by omega)
      omega
    · intro h
      have : (conn.last_active + 2 * cfg.echo_interval + 18446744073709551616 - jiffies)
          % 18446744073709551616
          = conn.last_active + 2 * cfg.echo_interval + 18446744073709551616 - jiffies :=
        Nat.mod_eq_of_lt (by omega)
      omega
  · intro kmalloc_ok iov_orig nr_segs to_read s rest hpos hiov hun
    unfold cifsd_readv_from_socket
    rw [if_pos hiov]
    unfold readv_loop
    rw [if_neg (by omega), if_pos hun]

theorem conn_unresponsive_spec_witness :
    (conn_unresponsive smb2_config idle_conn 1121 = true ↔
      (¬ idle_conn.open_files_count > 0 ∧
        time_after 1121
          ((idle_conn.last_active + 2 * smb2_config.echo_interval)
            % 18446744073709551616) = true)) ∧
    cifsd_readv_from_socket smb2_config idle_conn true [{ iov_base := 4096, iov_len := 4 }]
        1 4 [{ jiffies := 1121, length := 4, status := tcp_status.CifsGood }] =
      { outcome := read_outcome.returned (-EAGAIN), recv_calls := 0 } :=
  ⟨(conn_unresponsive_spec smb2_config idle_conn rfl).1 1121,
   (conn_unresponsive_spec smb2_config idle_conn rfl).2.2 true
      [{ iov_base := 4096, iov_len := 4 }] 1 4
      { jiffies := 1121, length := 4, status := tcp_status.CifsGood } []
      (by decide) (by decide) (by decide)⟩
theorem readv_loop_zero (cfg : read_config) (conn : connection) (iov_orig : List kvec)
    (nr_segs : Nat) (steps : List read_step) (total_read : Int) (calls : Nat) :
    readv_loop cfg conn iov_orig nr_segs steps total_read 0 calls =
      { outcome := read_outcome.returned total_read, recv_calls := calls } := by
  cases steps <;> simp [readv_loop]

theorem is_transient_neg (l : Int) (h : is_transient l = true) : l < 0 := by
  unfold is_transient at h
  simp only [Bool.or_eq_true, beq_iff_eq] at h
  unfold ERESTARTSYS EAGAIN EINTR at h
  omega

theorem readv_loop_sound (cfg : read_config) (conn : connection) (iov_orig : List kvec)
    (nr_segs : Nat) :
    ∀ (steps : List read_step) (total_read : Int) (to_read calls : Nat) (v : Int) (n : Nat),
      0 ≤ total_read → total_read + to_read ≤ 2147483647 →
      results_bounded (steps.map (fun s => s.length)) to_read →
      readv_loop cfg conn iov_orig nr_segs steps total_read to_read calls =
        { outcome := read_outcome.returned v, recv_calls := n } →
      0 ≤ v →
      v = total_read + to_read ∧ calls ≤ n ∧
        bytes_received ((steps.take (n - calls)).map (fun s => s.length)) = to_read := by
  intro steps
  induction steps with
  | nil =>
    intro total_read to_read calls v n h0 hmax _ hres hv
    unfold readv_loop at hres
    by_cases hz : to_read = 0
    · rw [if_pos hz] at hres
      simp only [read_result.mk.injEq, read_outcome.returned.injEq] at hres
      subst hz
      refine ⟨by simp [hres.1], by omega, by simp [bytes_received]⟩
    · rw [if_neg hz] at hres
      simp at hres
  | cons s rest ih =>
    intro total_read to_read calls v n h0 hmax hb hres hv
    by_cases hz : to_read = 0
    · subst hz
      rw [readv_loop_zero] at hres
      simp only [read_result.mk.injEq, read_outcome.returned.injEq] at hres
      refine ⟨by simp [hres.1], by omega, ?_⟩
      rw [← hres.2]
      simp [bytes_received]
    · unfold readv_loop at hres
      rw [if_neg hz] at hres
      by_cases hun : conn_unresponsive cfg conn s.jiffies = true
      · rw [if_pos hun] at hres
        simp only [read_result.mk.injEq, read_outcome.returned.injEq] at hres
        unfold EAGAIN at hres
        omega
      · rw [if_neg hun] at hres
        cases hk : kvec_array_init (iov_orig.length + 2) iov_orig nr_segs (to_size_t total_read) with
        | none =>
          rw [hk] at hres
          simp at hres
        | some r =>
          rw [hk] at hres
          dsimp only at hres
          by_cases he : s.status = tcp_status.CifsExiting
          · rw [if_pos he] at hres
            simp only [read_result.mk.injEq, read_outcome.returned.injEq] at hres
            unfold ESHUTDOWN at hres
            omega
          · rw [if_neg he] at hres
            by_cases hr : s.status = tcp_status.CifsNeedReconnect
            · rw [if_pos hr] at hres
              simp only [read_result.mk.injEq, read_outcome.returned.injEq] at hres
              unfold EAGAIN at hres
              omega
            · rw [if_neg hr] at hres
              by_cases ht : is_transient s.length = true
              · rw [if_pos ht] at hres
                have hneg := is_transient_neg _ ht
                have hb2 : results_bounded (rest.map (fun s => s.length)) to_read := by
                  simp only [List.map_cons, results_bounded] at hb
                  rw [if_neg (by omega)] at hb
                  exact hb
                obtain ⟨h1, h2, h3⟩ := ih total_read to_read (calls + 1) v n h0 hmax hb2 hres hv
                refine ⟨h1, by omega, ?_⟩
                have hn : n - calls = (n - (calls + 1)) + 1 := by omega
                rw [hn, List.take_succ_cons, List.map_cons, bytes_received,
                  if_neg (by omega), h3]
                simp
              · rw [if_neg ht] at hres
                by_cases hl : s.length ≤ 0
                · rw [if_pos hl] at hres
                  simp only [read_result.mk.injEq, read_outcome.returned.injEq] at hres
                  unfold EAGAIN at hres
                  omega
                · rw [if_neg hl] at hres
                  have hpos : 0 < s.length := by omega
                  simp only [List.map_cons, results_bounded] at hb
                  rw [if_pos hpos] at hb
                  obtain ⟨hle, hb2⟩ := hb
                  have e1 : to_int (to_size_t (total_read + s.length)) = total_read + s.length :=
                    to_int_to_size_t _ (by omega) (by omega)
                  have e2 : (((to_read : Int) - s.length) % 4294967296) = (to_read : Int) - s.length :=
                    Int.emod_eq_of_lt (by omega) (by omega)
                  rw [e1, e2] at hres
                  have e3 : ((((to_read : Int) - s.length).toNat : Nat) : Int)
                      = (to_read : Int) - s.length := Int.toNat_of_nonneg (by omega)
                  rw [← e3] at hb2
                  obtain ⟨h1, h2, h3⟩ := ih (total_read + s.length)
                    ((to_read : Int) - s.length).toNat (calls + 1) v n (by omega)
                    (by omega) hb2 hres hv
                  refine ⟨by omega, by omega, ?_⟩
                  have hn : n - calls = (n - (calls + 1)) + 1 := by omega
                  rw [hn, List.take_succ_cons, List.map_cons, bytes_received,
                    if_pos hpos, h3]
                  omega

/-- C23: for `to_read` at most `INT_MAX` and `kernel_recvmsg` results
that are each, when positive, at most the bytes still outstanding, every
non-negative value `cifsd_readv_from_socket` returns equals `to_read`,
and the positive results consumed by the `kernel_recvmsg` calls it made
sum to `to_read`. -/
theorem readv_returns_to_read (cfg : read_config) (conn : connection) (kmalloc_ok : Bool)
    (iov_orig : List kvec) (nr_segs to_read : Nat) (steps : List read_step) (v : Int)
    (hmax : to_read ≤ INT_MAX)
    (hb : results_bounded (steps.map (fun s => s.length)) to_read)
    (hres : (cifsd_readv_from_socket cfg conn kmalloc_ok iov_orig nr_segs to_read
      steps).outcome = read_outcome.returned v)
    (hv : 0 ≤ v) :
    v = to_read ∧
    bytes_received ((steps.take (cifsd_readv_from_socket cfg conn kmalloc_ok iov_orig
      nr_segs to_read steps).recv_calls).map (fun s => s.length)) = to_read := by
  unfold INT_MAX at hmax
  unfold cifsd_readv_from_socket at hres ⊢
  by_cases hi : (get_conn_iovec conn nr_segs kmalloc_ok).1 = true
  · rw [if_pos hi] at hres ⊢
    have h := readv_loop_sound cfg conn iov_orig nr_segs steps 0 to_read 0 v
      (readv_loop cfg conn iov_orig nr_segs steps 0 to_read 0).recv_calls
      (le_refl 0) (by omega) hb (by rw [← hres]) hv
    refine ⟨by omega, ?_⟩
    simpa using h.2.2
  · rw [if_neg hi] at hres
    simp only [read_outcome.returned.injEq] at hres
    unfold ENOMEM at hres
    omega

theorem readv_returns_to_read_witness :
    (cifsd_readv_from_socket smb2_config busy_conn true two_segments 2 10
      ten_byte_rounds).outcome = read_outcome.returned 10 ∧
    (10 : Int) = ((10 : Nat) : Int) ∧
    bytes_received ((ten_byte_rounds.take (cifsd_readv_from_socket smb2_config busy_conn
      true two_segments 2 10 ten_byte_rounds).recv_calls).map (fun s => s.length))
      = ((10 : Nat) : Int) :=
  ⟨by decide,
   readv_returns_to_read smb2_config busy_conn true two_segments 2 10 ten_byte_rounds 10
    (by decide) (by simp [results_bounded, ten_byte_rounds]) (by decide) (by decide)⟩

theorem readv_loop_fault (cfg : read_config) (conn : connection) (iov_orig : List kvec)
    (nr_segs : Nat) (steps : List read_step) (total_read : Int) (to_read calls : Nat)
    (hz : to_read ≠ 0) (hgood : rounds_good cfg conn steps)
    (hk : kvec_array_init (iov_orig.length + 2) iov_orig nr_segs (to_size_t total_read)
      = none) :
    (readv_loop cfg conn iov_orig nr_segs steps total_read to_read calls).outcome.value
      = none := by
  cases steps with
  | nil =>
    unfold readv_loop
    rw [if_neg hz]
    rfl
  | cons s rest =>
    have hs := hgood s (List.mem_cons_self s rest)
    unfold readv_loop
    rw [if_neg hz, if_neg (by simp [hs.2]), hk]
    rfl

theorem readv_loop_good_round (cfg : read_config) (conn : connection)
    (iov_orig : List kvec) (nr_segs : Nat) (s : read_step) (rest : List read_step)
    (total_read : Int) (to_read calls : Nat) (r : Nat × List kvec)
    (hz : to_read ≠ 0) (hs : s.status = tcp_status.CifsGood)
    (hun : conn_unresponsive cfg conn s.jiffies = false)
    (hk : kvec_array_init (iov_orig.length + 2) iov_orig nr_segs (to_size_t total_read)
      = some r) :
    readv_loop cfg conn iov_orig nr_segs (s :: rest) total_read to_read calls =
      if is_transient s.length then
        readv_loop cfg conn iov_orig nr_segs rest total_read to_read (calls + 1)
      else if s.length ≤ 0 then
        { outcome := read_outcome.returned (-EAGAIN), recv_calls := calls + 1 }
      else
        readv_loop cfg conn iov_orig nr_segs rest
          (to_int (to_size_t (total_read + s.length)))
          (((to_read : Int) - s.length) % 4294967296).toNat (calls + 1) := by
  have hE : s.status ≠ tcp_status.CifsExiting := by rw [hs]; decide
  have hR : s.status ≠ tcp_status.CifsNeedReconnect := by rw [hs]; decide
  conv_lhs => unfold readv_loop
  rw [if_neg hz, if_neg (by simp [hun]), hk]
  dsimp only
  rw [if_neg hE, if_neg hR]

theorem readv_loop_drop_transient (cfg : read_config) (conn : connection)
    (iov_orig : List kvec) (nr_segs : Nat) :
    ∀ (steps : List read_step) (total_read : Int) (to_read calls1 calls2 : Nat),
      rounds_good cfg conn steps →
      (readv_loop cfg conn iov_orig nr_segs steps total_read to_read calls1).outcome.value
        = (readv_loop cfg conn iov_orig nr_segs (drop_transient steps) total_read to_read
            calls2).outcome.value := by
  intro steps
  induction steps with
  | nil =>
    intro total_read to_read calls1 calls2 _
    unfold drop_transient
    simp only [List.filter_nil]
    unfold readv_loop
    by_cases hz : to_read = 0
    · rw [if_pos hz, if_pos hz]
    · rw [if_neg hz, if_neg hz]
  | cons s rest ih =>
    intro total_read to_read calls1 calls2 hgood
    have hs := hgood s (List.mem_cons_self s rest)
    have hrest : rounds_good cfg conn rest :=
      fun x hx => hgood x (List.mem_cons_of_mem s hx)
    have hfilt : rounds_good cfg conn (drop_transient (s :: rest)) := by
      intro x hx
      unfold drop_transient at hx
      exact hgood x (List.mem_of_mem_filter hx)
    by_cases hz : to_read = 0
    · subst hz
      rw [readv_loop_zero, readv_loop_zero]
    · cases hk : kvec_array_init (iov_orig.length + 2) iov_orig nr_segs
          (to_size_t total_read) with
      | none =>
        rw [readv_loop_fault cfg conn iov_orig nr_segs (s :: rest) total_read to_read calls1
            hz hgood hk,
          readv_loop_fault cfg conn iov_orig nr_segs (drop_transient (s :: rest)) total_read
            to_read calls2 hz hfilt hk]
      | some r =>
        by_cases ht : is_transient s.length = true
        · have hd : drop_transient (s :: rest) = drop_transient rest := by
            unfold drop_transient
            rw [List.filter_cons_of_neg (by simp [ht])]
          rw [hd, readv_loop_good_round cfg conn iov_orig nr_segs s rest total_read to_read
            calls1 r hz hs.1 hs.2 hk, if_pos ht]
          exact ih total_read to_read (calls1 + 1) calls2 hrest
        · have hd : drop_transient (s :: rest) = s :: drop_transient rest := by
            unfold drop_transient
            rw [List.filter_cons_of_pos (by simp [ht])]
          rw [hd, readv_loop_good_round cfg conn iov_orig nr_segs s rest total_read to_read
              calls1 r hz hs.1 hs.2 hk,
            readv_loop_good_round cfg conn iov_orig nr_segs s (drop_transient rest)
              total_read to_read calls2 r hz hs.1 hs.2 hk,
            if_neg ht, if_neg ht]
          by_cases hl : s.length ≤ 0
          · rw [if_pos hl, if_pos hl]
          · rw [if_neg hl, if_neg hl]
            exact ih _ _ (calls1 + 1) (calls2 + 1) hrest

/-- C25: with the connection status staying good and the idle condition
staying false, taking the transient results (`-ERESTARTSYS`, `-EAGAIN`,
`-EINTR`) out of the sequence of `kernel_recvmsg` results leaves the
value `cifsd_readv_from_socket` returns the same (and a call that has
not returned has not returned either way). -/
theorem readv_ignores_transient (cfg : read_config) (conn : connection) (kmalloc_ok : Bool)
    (iov_orig : List kvec) (nr_segs to_read : Nat) (steps : List read_step)
    (hgood : rounds_good cfg conn steps) :
    (cifsd_readv_from_socket cfg conn kmalloc_ok iov_orig nr_segs to_read
        steps).outcome.value =
      (cifsd_readv_from_socket cfg conn kmalloc_ok iov_orig nr_segs to_read
        (drop_transient steps)).outcome.value := by
  unfold cifsd_readv_from_socket
  by_cases hi : (get_conn_iovec conn nr_segs kmalloc_ok).1 = true
  · rw [if_pos hi, if_pos hi]
    exact readv_loop_drop_transient cfg conn iov_orig nr_segs steps 0 to_read 0 0 hgood
  · rw [if_neg hi, if_neg hi]

theorem readv_ignores_transient_witness :
    rounds_good smb2_config busy_conn interrupted_rounds ∧
    (cifsd_readv_from_socket smb2_config busy_conn true two_segments 2 10
      interrupted_rounds).outcome.value = some 10 ∧
    (cifsd_readv_from_socket smb2_config busy_conn true two_segments 2 10
        interrupted_rounds).outcome.value =
      (cifsd_readv_from_socket smb2_config busy_conn true two_segments 2 10
        (drop_transient interrupted_rounds)).outcome.value :=
  ⟨by simp [rounds_good, interrupted_rounds, conn_unresponsive, busy_conn],
   by decide,
   readv_ignores_transient smb2_config busy_conn true two_segments 2 10 interrupted_rounds
    (by simp [rounds_good, interrupted_rounds, conn_unresponsive, busy_conn])⟩

/-! ## `kvec_array_init` -/

theorem iov_total_append (a b : List kvec) :
    iov_total (a ++ b) = iov_total a + iov_total b := by
  induction a with
  | nil => simp [iov_total]
  | cons s r ih => simp [iov_total, ih, Nat.add_assoc]

theorem iov_bytes_append (a b : List kvec) :
    iov_bytes (a ++ b) = iov_bytes a ++ iov_bytes b := by
  induction a with
  | nil => simp [iov_bytes]
  | cons s r ih => simp [iov_bytes, ih]

theorem iov_bytes_length (a : List kvec) : (iov_bytes a).length = iov_total a := by
  induction a with
  | nil => simp [iov_bytes, iov_total]
  | cons s r ih => simp [iov_bytes, iov_total, ih]

theorem drop_range' (s len b : Nat) (h : b ≤ len) :
    (List.range' s len).drop b = List.range' (s + b) (len - b) := by
  have e : List.range' s len = List.range' s b ++ List.range' (s + b) (len - b) := by
    rw [List.range'_append_1]
    congr 1
    omega
  rw [e, List.drop_left' (by simp)]

/-- The loop of `kvec_array_init` entered with `base = 0`, `bytes` inside
the array and at most `INT_MAX`: it ends at a segment of the array, after
the segments `skipped`, with `base` inside that segment. -/
theorem kvec_array_init_loop_ends :
    ∀ (iov : List kvec) (fuel nr_segs bytes : Nat),
      bytes < iov_total iov → bytes ≤ 2147483647 →
      iov.length ≤ nr_segs → nr_segs < 4294967296 → iov.length + 2 ≤ fuel →
      ∃ skipped seg rest base,
        kvec_array_init_loop fuel iov nr_segs bytes 0
          = walk_result.done (seg :: rest) (nr_segs - skipped.length) base ∧
        iov = skipped ++ seg :: rest ∧ base < seg.iov_len ∧
        iov_total skipped + base = bytes := by
  intro iov
  induction iov with
  | nil =>
    intro fuel nr_segs bytes hb
    simp [iov_total] at hb
  | cons seg rest ih =>
    intro fuel nr_segs bytes hb hmax hn hn2 hfuel
    simp only [List.length_cons] at hn hfuel
    simp only [iov_total] at hb
    obtain ⟨f, rfl⟩ : ∃ f, fuel = f + 1 := ⟨fuel - 1, by omega⟩
    unfold kvec_array_init_loop
    by_cases hc : bytes ≠ 0 ∨ seg.iov_len = 0
    · rw [if_pos hc]
      dsimp only
      have hmin : to_int (min bytes seg.iov_len) = ((min bytes seg.iov_len : Nat) : Int) :=
        to_int_of_le _ (by omega)
      rw [hmin]
      by_cases hle : seg.iov_len ≤ bytes
      · have hm : min bytes seg.iov_len = seg.iov_len := by omega
        rw [hm]
        have e1 : to_size_t ((bytes : Int) - (seg.iov_len : Int)) = bytes - seg.iov_len := by
          rw [to_size_t_of_nonneg _ (by omega) (by omega)]
          omega
        have e2 : to_size_t (((0 : Nat) : Int) + (seg.iov_len : Int)) = seg.iov_len := by
          rw [to_size_t_of_nonneg _ (by omega) (by omega)]
          omega
        rw [e1, e2, if_pos rfl]
        have e3 : (nr_segs + 4294967295) % 4294967296 = nr_segs - 1 := by omega
        rw [e3]
        obtain ⟨skipped, s2, r2, base, h1, h2, h3, h4⟩ :=
          ih f (nr_segs - 1) (bytes - seg.iov_len) (by omega) (by omega) (by omega)
            (by omega) (by omega)
        refine ⟨seg :: skipped, s2, r2, base, ?_, ?_, h3, ?_⟩
        · rw [h1, List.length_cons, Nat.sub_sub, Nat.add_comm 1]
        · rw [h2]
          rfl
        · simp only [iov_total]
          omega
      · have hm : min bytes seg.iov_len = bytes := by omega
        rw [hm]
        have e1 : to_size_t ((bytes : Int) - (bytes : Int)) = 0 := by
          simp [to_size_t]
        have e2 : to_size_t (((0 : Nat) : Int) + (bytes : Int)) = bytes := by
          rw [to_size_t_of_nonneg _ (by omega) (by omega)]
          omega
        rw [e1, e2, if_neg (by omega)]
        obtain ⟨f2, rfl⟩ : ∃ f2, f = f2 + 1 := ⟨f - 1, by omega⟩
        unfold kvec_array_init_loop
        rw [if_neg (by omega)]
        exact ⟨[], seg, rest, bytes, by simp, by simp, by omega, by simp [iov_total]⟩
    · rw [if_neg hc]
      exact ⟨[], seg, rest, 0, by simp, by simp, by omega, by simp [iov_total]; omega⟩

/-- The loop of `kvec_array_init` on `huge_segment` with
`bytes = 4294967296`: `copy` is `(int)4294967296 = 0` in every round. -/
theorem kvec_array_init_loop_stuck (fuel : Nat) :
    kvec_array_init_loop fuel huge_segment 1 4294967296 0 = walk_result.out_of_fuel := by
  induction fuel with
  | zero => rfl
  | succ f ih =>
    unfold huge_segment at ih ⊢
    unfold kvec_array_init_loop
    rw [if_pos (Or.inl (by decide))]
    dsimp only
    have hc : to_int (min 4294967296 4294967297) = 0 := by decide
    rw [hc]
    have e1 : to_size_t (((4294967296 : Nat) : Int) - 0) = 4294967296 := by decide
    have e2 : to_size_t (((0 : Nat) : Int) + 0) = 0 := by decide
    rw [e1, e2, if_neg (by decide)]
    exact ih

/-- C24, as stated, fails: on one segment of 4294967297 bytes and
`bytes = 4294967296`, which is less than the total length,
`kvec_array_init` does not terminate: no number of rounds lets it
return. -/
theorem kvec_array_init_never_returns :
    4294967296 < iov_total huge_segment ∧
    ¬ ∃ fuel, (kvec_array_init fuel huge_segment 1 4294967296).isSome = true := by
  refine ⟨by decide, ?_⟩
  rintro ⟨fuel, h⟩
  unfold kvec_array_init at h
  rw [kvec_array_init_loop_stuck] at h
  simp at h

/-- C24, amended: for every iovec array of `nr_segs` segments (lengths
within `size_t`, `nr_segs` within `unsigned int`) with total length `T`
and every `bytes < T` that is at most `INT_MAX`,
`kvec_array_init(new, iov, nr_segs, bytes)` terminates without leaving
the array, returns the number `k` of segments it wrote to `new` with
`1 ≤ k ≤ nr_segs`, the first written segment has non-zero length, and the
bytes `new[0..k-1]` describes are those of the original array with its
first `bytes` bytes dropped (total length `T - bytes`). -/
theorem kvec_array_init_spec (iov : List kvec) (bytes fuel : Nat)
    (hlen : iov.length < 4294967296)
    (hseg : ∀ seg ∈ iov, seg.iov_len < 18446744073709551616)
    (hb : bytes < iov_total iov) (hmax : bytes ≤ INT_MAX)
    (hfuel : iov.length + 2 ≤ fuel) :
    ∃ k new, kvec_array_init fuel iov iov.length bytes = some (k, new) ∧
      1 ≤ k ∧ k ≤ iov.length ∧ new.length = k ∧
      (∃ seg more, new = seg :: more ∧ seg.iov_len ≠ 0) ∧
      iov_bytes new = (iov_bytes iov).drop bytes ∧
      iov_total new = iov_total iov - bytes := by
  unfold INT_MAX at hmax
  obtain ⟨skipped, seg, rest, base, h1, h2, h3, h4⟩ :=
    kvec_array_init_loop_ends iov fuel iov.length bytes hb hmax (le_refl _) hlen hfuel
  have hl : iov.length - skipped.length = rest.length + 1 := by
    rw [h2]
    simp
  have hs : seg.iov_len < 18446744073709551616 := hseg seg (by rw [h2]; simp)
  have hmod : (seg.iov_len + 18446744073709551616 - base) % 18446744073709551616
      = seg.iov_len - base := by
    rw [show seg.iov_len + 18446744073709551616 - base
      = (seg.iov_len - base) + 18446744073709551616 from by omega, Nat.add_mod_right]
    exact Nat.mod_eq_of_lt (by omega)
  unfold kvec_array_init
  rw [h1, hl]
  dsimp only
  rw [if_neg (by simp)]
  simp only [List.take_succ_cons, List.take_length]
  refine ⟨rest.length + 1, _, rfl, by omega, by omega, by simp, ⟨_, _, rfl, ?_⟩, ?_, ?_⟩
  · dsimp only
    rw [hmod]
    omega
  · rw [h2, iov_bytes_append]
    simp only [iov_bytes]
    rw [hmod, ← h4, ← iov_bytes_length skipped, ← List.drop_drop, List.drop_left,
      List.drop_append_of_le_length (by simp; omega), drop_range' _ _ _ (by omega)]
  · rw [h2, iov_total_append]
    simp only [iov_total]
    rw [hmod]
    omega

theorem kvec_array_init_spec_witness :
    ∃ k new, kvec_array_init 5 three_segments three_segments.length 4 = some (k, new) ∧
      1 ≤ k ∧ k ≤ three_segments.length ∧ new.length = k ∧
      (∃ seg more, new = seg :: more ∧ seg.iov_len ≠ 0) ∧
      iov_bytes new = (iov_bytes three_segments).drop 4 ∧
      iov_total new = iov_total three_segments - 4 :=
  kvec_array_init_spec three_segments 4 5 (by decide) (by decide) (by decide) (by decide)
    (by decide)

/-! ## What `conflist_search` matches -/

theorem strpbrk_some (s : List Char) (off : Nat) (h : strpbrk s = some off) :
    ∃ tok d rest, s = tok ++ d :: rest ∧ tok.length = off ∧
      (∀ c ∈ tok, isConfDelim c = false) ∧ isConfDelim d = true := by
  induction s generalizing off with
  | nil => simp [strpbrk] at h
  | cons c cs ih =>
    unfold strpbrk at h
    by_cases hc : isConfDelim c = true
    · rw [if_pos hc] at h
      simp only [Option.some.injEq] at h
      subst h
      exact ⟨[], c, cs, rfl, rfl, by simp, hc⟩
    · rw [if_neg hc] at h
      cases hk : strpbrk cs with
      | none =>
        rw [hk] at h
        simp at h
      | some k =>
        rw [hk] at h
        simp only [Option.some.injEq] at h
        subst h
        obtain ⟨tok, d, rest, h1, h2, h3, h4⟩ := ih k hk
        refine ⟨c :: tok, d, rest, by rw [h1]; rfl, by simp [h2], ?_, h4⟩
        intro x hx
        rcases List.mem_cons.1 hx with rfl | hx
        · simpa using hc
        · exact h3 x hx

theorem strpbrk_none (s : List Char) (h : strpbrk s = none) :
    ∀ c ∈ s, isConfDelim c = false := by
  induction s with
  | nil => simp
  | cons c cs ih =>
    unfold strpbrk at h
    by_cases hc : isConfDelim c = true
    · rw [if_pos hc] at h
      simp at h
    · rw [if_neg hc] at h
      cases hk : strpbrk cs with
      | none =>
        intro x hx
        rcases List.mem_cons.1 hx with rfl | hx
        · simpa using hc
        · exact ih hk x hx
      | some k =>
        rw [hk] at h
        simp at h

theorem split_at_delims_clean (s : List Char) (h : ∀ c ∈ s, isConfDelim c = false) :
    split_at_delims s = [s] := by
  induction s with
  | nil => rfl
  | cons c cs ih =>
    rw [split_at_delims, if_neg (by simp [h c (List.mem_cons_self _ _)]),
      ih (fun x hx => h x (List.mem_cons_of_mem _ hx))]

theorem split_at_delims_prefix (tok : List Char) (d : Char) (rest : List Char)
    (h : ∀ c ∈ tok, isConfDelim c = false) (hd : isConfDelim d = true) :
    split_at_delims (tok ++ d :: rest) = tok :: split_at_delims rest := by
  induction tok with
  | nil =>
    rw [List.nil_append, split_at_delims, if_pos hd]
  | cons c cs ih =>
    rw [List.cons_append, split_at_delims, if_neg (by simp [h c (List.mem_cons_self _ _)]),
      ih (fun x hx => h x (List.mem_cons_of_mem _ hx))]

theorem strim_conflist_entry_at (buf : List Char) (p : Nat) (limit : Int) (c : Char)
    (r : List Char) (h : buf.drop p = c :: r) (hc : isConfDelim c = false)
    (hl : (p : Int) < limit) : strim_conflist_entry buf p limit = some p := by
  have h2 : buf[p]? = some c := by
    rw [← List.head?_drop, h]
    rfl
  unfold strim_conflist_entry
  generalize (limit - (p : Int)).toNat = n
  cases n <;> simp [strim_loop, hl, h2, hc]

theorem strim_conflist_entry_none (buf : List Char) (p : Nat) (limit : Int)
    (hl : ¬ (p : Int) < limit) : strim_conflist_entry buf p limit = none := by
  unfold strim_conflist_entry
  generalize (limit - (p : Int)).toNat = n
  cases n <;> simp [strim_loop, hl]

/-- The loop of `conflist_search` entered at the offset `begin` of the
unmodified list returns 0 exactly when `key` is one of the pieces of the
rest of the list and has at least two characters. -/
theorem conflist_loop_spec (list key : List Char) :
    ∀ (fuel begin : Nat), begin ≤ list.length → list.length - begin + 1 ≤ fuel →
      ((conflist_loop list key fuel begin).1 = 0 ↔
        key ∈ split_at_delims (list.drop begin) ∧ 2 ≤ key.length) := by
  intro fuel
  induction fuel with
  | zero =>
    intro begin _ h
    omega
  | succ n ih =>
    intro begin hb hf
    unfold conflist_loop
    cases hs : strpbrk (list.drop begin) with
    | some off =>
      obtain ⟨tok, d, rest, h1, h2, h3, h4⟩ := strpbrk_some _ _ hs
      dsimp only
      have hlen : list.length - begin = off + 1 + rest.length := by
        have := congrArg List.length h1
        simp only [List.length_drop, List.length_append, List.length_cons] at this
        omega
      rw [h1, split_at_delims_prefix tok d rest h3 h4]
      by_cases ho : off < 2
      · rw [if_pos ho, ih (begin + 1) (by omega) (by omega)]
        have hd1 : list.drop (begin + 1) = (tok ++ d :: rest).drop 1 := by
          rw [← h1, List.drop_drop, Nat.add_comm]
        rw [hd1]
        cases tok with
        | nil =>
          simp only [List.nil_append, List.drop_succ_cons, List.drop_zero, List.mem_cons]
          constructor
          · rintro ⟨hm, hl⟩
            exact ⟨Or.inr hm, hl⟩
          · rintro ⟨hm | hm, hl⟩
            · subst hm
              simp at hl
            · exact ⟨hm, hl⟩
        | cons c tl =>
          have htl : tl = [] := by
            simp only [List.length_cons] at h2
            exact List.eq_nil_of_length_eq_zero (by omega)
          subst htl
          simp only [List.cons_append, List.nil_append, List.drop_succ_cons, List.drop_zero]
          rw [split_at_delims, if_pos h4]
          simp only [List.mem_cons]
          constructor
          · rintro ⟨hm | hm, hl⟩
            · subst hm
              simp at hl
            · exact ⟨Or.inr hm, hl⟩
          · rintro ⟨hm | hm, hl⟩
            · subst hm
              simp at hl
            · exact ⟨Or.inr hm, hl⟩
      · rw [if_neg ho]
        obtain ⟨c, tl, rfl⟩ : ∃ c tl, tok = c :: tl := by
          cases tok with
          | nil => simp at h2; omega
          | cons c tl => exact ⟨c, tl, rfl⟩
        rw [strim_conflist_entry_at list begin _ c (tl ++ d :: rest) h1
          (h3 c (List.mem_cons_self _ _)) (by omega)]
        dsimp only
        have htok : (list.take (begin + off)).drop begin = c :: tl := by
          rw [List.drop_take, h1, Nat.add_sub_cancel_left, ← h2, List.take_left]
        rw [htok]
        by_cases he : strcmp (c :: tl) key = 0
        · rw [if_pos he]
          have hk := (strcmp_eq_zero_iff _ _).1 he
          refine ⟨fun _ => ⟨?_, ?_⟩, fun _ => rfl⟩
          · rw [← hk]
            exact List.mem_cons_self _ _
          · rw [← hk, h2]
            omega
        · rw [if_neg he, ih (begin + off + 1) (by omega) (by omega)]
          have hd2 : list.drop (begin + off + 1) = rest := by
            rw [show begin + off + 1 = begin + (off + 1) from by omega, ← List.drop_drop,
              h1, ← h2]
            simp
          rw [hd2, List.mem_cons]
          have hne : key ≠ c :: tl := fun hk => he ((strcmp_eq_zero_iff _ _).2 hk.symm)
          constructor
          · rintro ⟨hm, hl⟩
            exact ⟨Or.inr hm, hl⟩
          · rintro ⟨hm | hm, hl⟩
            · exact absurd hm hne
            · exact ⟨hm, hl⟩
    | none =>
      dsimp only
      have hclean := strpbrk_none _ hs
      rw [split_at_delims_clean _ hclean, List.mem_singleton]
      by_cases h2 : 2 ≤ (list.drop begin).length
      · obtain ⟨c, tl, hct⟩ : ∃ c tl, list.drop begin = c :: tl := by
          cases hd : list.drop begin with
          | nil => rw [hd] at h2; simp at h2
          | cons c tl => exact ⟨c, tl, rfl⟩
        have hc : isConfDelim c = false := hclean c (by rw [hct]; exact List.mem_cons_self _ _)
        rw [List.length_drop] at h2
        rw [strim_conflist_entry_at list begin _ c tl hct hc (by omega)]
        dsimp only
        by_cases he : strcmp (list.drop begin) key = 0
        · rw [if_pos he]
          have hk := (strcmp_eq_zero_iff _ _).1 he
          refine ⟨fun _ => ⟨hk.symm, ?_⟩, fun _ => rfl⟩
          rw [← hk, List.length_drop]
          exact h2
        · rw [if_neg he]
          have hne : key ≠ list.drop begin :=
            fun hk => he ((strcmp_eq_zero_iff _ _).2 hk.symm)
          simp [ENOENT, hne]
      · rw [strim_conflist_entry_none list begin _ (by rw [List.length_drop] at h2; omega)]
        dsimp only
        constructor
        · intro h
          simp [ENOENT] at h
        · rintro ⟨hk, hl⟩
          rw [hk] at hl
          exact absurd hl h2

/-- C27: for every list and every key, `conflist_search(list, key)`
called on the unmodified list returns 0 if and only if `key` is an entry
of the list (a maximal run of characters without comma, space or tab) of
length at least 2; a key of length 1 is never matched, whatever the list
holds. -/
theorem conflist_search_spec (list key : List Char) :
    ((conflist_search list key).1 = 0 ↔ key ∈ conflist_tokens list ∧ 2 ≤ key.length) ∧
    (∀ c : Char, (conflist_search list [c]).1 = -ENOENT) := by
  have hspec : ∀ k : List Char,
      ((conflist_search list k).1 = 0 ↔ k ∈ conflist_tokens list ∧ 2 ≤ k.length) := by
    intro k
    unfold conflist_search
    rw [conflist_loop_spec list k (list.length + 1) 0 (Nat.zero_le _) (by omega)]
    unfold conflist_tokens
    rw [List.drop_zero, List.mem_filter]
    constructor
    · rintro ⟨hm, hl⟩
      refine ⟨⟨hm, ?_⟩, hl⟩
      cases k with
      | nil => simp at hl
      | cons a b => rfl
    · rintro ⟨⟨hm, _⟩, hl⟩
      exact ⟨hm, hl⟩
  refine ⟨hspec key, fun c => ?_⟩
  apply conflist_search_ne_zero
  intro h0
  have := ((hspec [c]).1 h0).2
  simp at this

/-! ## Share lookup by name -/

theorem strcasecmp_eq_zero_iff_ascii (s name : List Char)
    (hs : ∀ c ∈ s, c.toNat ≠ 0)
    (hname : ∀ c ∈ name, c.toNat ≠ 0 ∧ c.toNat < 128) :
    strcasecmp s name = 0 ↔ s.map ascii_lower = name.map ascii_lower := by
  have h := strcasecmp_ascii_iff s name hs hname
  unfold eq_ignoring_case at h
  constructor
  · intro h0
    rw [decide_eq_true h0] at h
    exact eq_of_beq h.symm
  · exact strcasecmp_ascii s name

/-- C8, as stated, fails: the share list holds the shares `0xC0 d` and
IPC$, neither of which equals the name `0xE0 d` ignoring ASCII case, and
`get_cifsd_share` for that name returns the share `0xC0 d` instead of
`ERR_PTR(-ENOENT)`: the kernel's `strcasecmp` also folds the Latin-1
capitals. -/
theorem latin_share_matched :
    latin_share_state.cifsd_share_list = [1, 0] ∧
    (deref latin_share_state 1).sharename = latin_capital_name ∧
    (∀ q ∈ latin_share_state.cifsd_share_list,
      (deref latin_share_state q).sharename.map ascii_lower
        ≠ latin_small_name.map ascii_lower) ∧
    (get_cifsd_share latin_share_state "10.0.0.1".toList "alice".toList latin_small_name
      false).1 = share_ptr.share 1 := by
  decide

/-- C8, amended: for a name of ASCII characters (share names and name
being C strings, without NUL), `get_cifsd_share` compares the name with
each share name ignoring ASCII case.  When no share of the list matches,
it returns `ERR_PTR(-ENOENT)` and changes nothing.  When some share
matches, the first one in list order decides alone: the error of
`validate_host` when that fails, else the error of `validate_user` when
that fails, else the share itself. -/
theorem get_cifsd_share_first_match (st : export_state) (peer user name : List Char)
    (cw : Bool)
    (hname : ∀ c ∈ name, c.toNat ≠ 0 ∧ c.toNat < 128)
    (hshares : ∀ q ∈ st.cifsd_share_list, ∀ c ∈ (deref st q).sharename, c.toNat ≠ 0) :
    (∀ q ∈ st.cifsd_share_list,
      (strcasecmp (deref st q).sharename name = 0 ↔
        (deref st q).sharename.map ascii_lower = name.map ascii_lower)) ∧
    ((∀ q ∈ st.cifsd_share_list,
        (deref st q).sharename.map ascii_lower ≠ name.map ascii_lower) →
      get_cifsd_share st peer user name cw = (share_ptr.err (-ENOENT), cw, st)) ∧
    (∀ (pre post : List Nat) (p : Nat), st.cifsd_share_list = pre ++ p :: post →
      (∀ q ∈ pre, (deref st q).sharename.map ascii_lower ≠ name.map ascii_lower) →
      (deref st p).sharename.map ascii_lower = name.map ascii_lower →
      (get_cifsd_share st peer user name cw).1 =
        if (validate_host peer (deref st p)).1 ≠ 0 then
          share_ptr.err (validate_host peer (deref st p)).1
        else if (validate_user user (validate_host peer (deref st p)).2 cw).1 ≠ 0 then
          share_ptr.err (validate_user user (validate_host peer (deref st p)).2 cw).1
        else share_ptr.share p) := by
  have hiff : ∀ q ∈ st.cifsd_share_list,
      (strcasecmp (deref st q).sharename name = 0 ↔
        (deref st q).sharename.map ascii_lower = name.map ascii_lower) :=
    fun q hq => strcasecmp_eq_zero_iff_ascii _ name (hshares q hq) hname
  refine ⟨hiff, ?_, ?_⟩
  · intro hall
    have hne : ∀ q ∈ st.cifsd_share_list, strcasecmp (deref st q).sharename name ≠ 0 :=
      fun q hq h0 => hall q hq ((hiff q hq).1 h0)
    have := get_cifsd_share_loop_skip st peer user name cw st.cifsd_share_list [] hne
    rw [List.append_nil] at this
    rw [get_cifsd_share, this]
    rfl
  · intro pre post p hl hpre hp
    have hpre2 : ∀ q ∈ pre, strcasecmp (deref st q).sharename name ≠ 0 := by
      intro q hq h0
      have hq2 : q ∈ st.cifsd_share_list := by
        rw [hl]
        exact List.mem_append_left _ hq
      exact hpre q hq ((hiff q hq2).1 h0)
    have hp2 : strcasecmp (deref st p).sharename name = 0 := strcasecmp_ascii _ _ hp
    rw [get_cifsd_share, hl, get_cifsd_share_loop_skip st peer user name cw pre _ hpre2]
    simp only [get_cifsd_share_loop, hp2, ne_eq, not_true_eq_false, if_false]
    split
    · rfl
    · split <;> rfl

theorem get_cifsd_share_first_match_witness :
    (get_cifsd_share docs_valid_state "10.0.0.1".toList "alice".toList "DOCS".toList
      false).1 = share_ptr.share 1 ∧
    get_cifsd_share docs_valid_state "10.0.0.1".toList "alice".toList "nosuch".toList
      false = (share_ptr.err (-ENOENT), false, docs_valid_state) :=
  ⟨((get_cifsd_share_first_match docs_valid_state "10.0.0.1".toList "alice".toList
      "DOCS".toList false (by decide) (by decide)).2.2 [] [0] 1 (by decide) (by decide)
      (by decide)).trans (by decide),
   (get_cifsd_share_first_match docs_valid_state "10.0.0.1".toList "alice".toList
      "nosuch".toList false (by decide) (by decide)).2.1 (by decide)⟩

end Cifsd
